import Mathlib

/-!
# SdlInputHandler (Samples/2.0/Common/src/SdlInputHandler.cpp)

A shallow embedding of `Demo::SdlInputHandler`: the handler object is a record of
its member fields, every member function is a pure function from the old record
to the new one together with the list of externally visible effects it performs
(listener callbacks, SDL calls, writes into the event buffers, queued messages),
in program order.

Conventions of the embedding:
* listener and logic-system pointers are `Bool` (`true` = non-null);
* `int` / `size_t` values are `Int` / `Nat`, no overflow is modelled;
* `sizeof(SDL_Event)` comes from the SDL headers and is the parameter `sz`;
* what SDL answers (`SDL_SetRelativeMouseMode`, `SDL_GetWindowSize`) is the
  `SdlEnv` argument of the call that may ask for it.
-/

namespace Demo

/-- The sub-event of an `SDL_WINDOWEVENT` (`evt.window.event`). -/
inductive WindowEventID
  | SDL_WINDOWEVENT_ENTER
  | SDL_WINDOWEVENT_LEAVE
  | SDL_WINDOWEVENT_FOCUS_GAINED
  | SDL_WINDOWEVENT_FOCUS_LOST
  | unlisted (code : Nat)
  deriving DecidableEq

/-- An `SDL_Event`, by `evt.type`, with the payload fields the handler reads.
`unlisted` stands for every type that has no `case` in `_handleSdlEvents`; its
number is the type code, which is then none of the codes of the other
constructors (`SDL_QUIT` is `unlisted 256`). -/
inductive SDL_Event
  | SDL_MOUSEMOTION (x y : Int)
  | SDL_MOUSEWHEEL (x y : Int)
  | SDL_MOUSEBUTTONDOWN (button : Nat)
  | SDL_MOUSEBUTTONUP (button : Nat)
  | SDL_KEYDOWN (sym : Nat) (rep : Nat)
  | SDL_KEYUP (sym : Nat) (rep : Nat)
  | SDL_TEXTINPUT (text : List Nat)
  | SDL_JOYAXISMOTION (axis : Nat) (value : Int)
  | SDL_JOYBUTTONDOWN (button : Nat)
  | SDL_JOYBUTTONUP (button : Nat)
  | SDL_JOYDEVICEADDED (which : Nat)
  | SDL_JOYDEVICEREMOVED (which : Nat)
  | SDL_WINDOWEVENT (event : WindowEventID)
  | unlisted (type : Nat)
  deriving DecidableEq

/-- The pointer `encapsulateEvent` returns: a byte offset inside one event buffer. -/
structure EventPtr where
  slot : Nat
  offset : Nat
  deriving DecidableEq

/-- One `Mq::Message` as built in this file. -/
inductive Message
  | SDL_EVENT (data : EventPtr)
  | SDL_EVENT_BUFFER_ID_USED (id : Nat)
  deriving DecidableEq

/-- Everything the handler does to the outside, one constructor per call made in
the source. `queueSendMessage` is always addressed to `mLogicSystem`. -/
inductive Effect
  | mouseMoved (evt : SDL_Event)
  | mousePressed (evt : SDL_Event) (button : Nat)
  | mouseReleased (evt : SDL_Event) (button : Nat)
  | keyPressed (evt : SDL_Event)
  | keyReleased (evt : SDL_Event)
  | textInput (evt : SDL_Event)
  | joyAxisMoved (evt : SDL_Event) (axis : Nat)
  | joyButtonPressed (evt : SDL_Event) (button : Nat)
  | joyButtonReleased (evt : SDL_Event) (button : Nat)
  | SDL_SetWindowGrab (grabbed : Bool)
  | SDL_ShowCursor (toggle : Bool)
  | SDL_SetRelativeMouseMode (enabled : Bool)
  | SDL_PumpEvents
  | SDL_FlushEvent
  | SDL_WarpMouseInWindow (x y : Int)
  | memcpy (dst : EventPtr) (evt : SDL_Event)
  | queueSendMessage (msg : Message)
  deriving DecidableEq

/-- What the platform answers during one call into the handler: the return value
of `SDL_SetRelativeMouseMode` and the size reported by `SDL_GetWindowSize`. -/
structure SdlEnv where
  relativeModeResult : Int
  width : Int
  height : Int
  deriving DecidableEq

/-- One `std::vector<unsigned char>`: its `size()` in bytes and the event records
that were `memcpy`-ed into it, keyed by the byte offset they start at. -/
structure EventBuffer where
  size : Nat
  records : List (Nat × SDL_Event)
  deriving DecidableEq

/-- Modelled from the spec: the class declaration (`SdlInputHandler.h`) is not among
the sources. The fields are the ones the constructor initialises and the member
functions use, with the types of the spec's data model: flags, warp target
coordinates, slot indices and a byte offset. The window and graphics-system
pointers are only ever passed on and are left out. -/
structure SdlInputHandler where
  mLogicSystem : Bool
  mMouseListener : Bool
  mKeyboardListener : Bool
  mJoystickListener : Bool
  mEventBuffers : List EventBuffer
  mFreeEventBuffers : List Nat
  mCurrentEventBuffer : Nat
  mEventBufferOffset : Nat
  mWantRelative : Bool
  mWantMouseGrab : Bool
  mWantMouseVisible : Bool
  mIsMouseRelative : Bool
  mWrapPointerManually : Bool
  mGrabPointer : Bool
  mMouseInWindow : Bool
  mWindowHasFocus : Bool
  mWarpX : Int
  mWarpY : Int
  mWarpCompensate : Bool
  deriving DecidableEq

namespace SdlInputHandler

/-- The constructor `SdlInputHandler::SdlInputHandler`. -/
def ctor (mouseListener keyboardListener joystickListener : Bool) : SdlInputHandler :=
  { mLogicSystem := false
    mMouseListener := mouseListener
    mKeyboardListener := keyboardListener
    mJoystickListener := joystickListener
    mEventBuffers := []
    mFreeEventBuffers := []
    mCurrentEventBuffer := 0
    mEventBufferOffset := 0
    mWantRelative := false
    mWantMouseGrab := false
    mWantMouseVisible := false
    mIsMouseRelative := false
    mWrapPointerManually := false
    mGrabPointer := false
    mMouseInWindow := true
    mWindowHasFocus := true
    mWarpX := 0
    mWarpY := 0
    mWarpCompensate := false }

/-- The condition of the assertion in `SdlInputHandler::~SdlInputHandler`. -/
def dtorAssert (s : SdlInputHandler) : Bool :=
  s.mFreeEventBuffers.length == s.mEventBuffers.length

/-- `SdlInputHandler::updateMouseSettings`. -/
def updateMouseSettings (s : SdlInputHandler) (env : SdlEnv) :
    SdlInputHandler × List Effect :=
  let s1 := { s with mGrabPointer := s.mWantMouseGrab && s.mMouseInWindow && s.mWindowHasFocus }
  let fx := [Effect.SDL_SetWindowGrab s1.mGrabPointer,
             Effect.SDL_ShowCursor (s1.mWantMouseVisible || !s1.mWindowHasFocus)]
  let relative := s1.mWantRelative && s1.mMouseInWindow && s1.mWindowHasFocus
  if s1.mIsMouseRelative == relative then
    (s1, fx)
  else
    let s2 := { s1 with mIsMouseRelative := relative, mWrapPointerManually := false }
    let success := env.relativeModeResult
    let s3 := if relative && success != 0 then { s2 with mWrapPointerManually := true } else s2
    (s3, fx ++ [Effect.SDL_SetRelativeMouseMode relative, Effect.SDL_PumpEvents,
                Effect.SDL_FlushEvent])

/-- `SdlInputHandler::handleWindowEvent`, on `evt.window.event`. -/
def handleWindowEvent (s : SdlInputHandler) (event : WindowEventID) (env : SdlEnv) :
    SdlInputHandler × List Effect :=
  match event with
  | .SDL_WINDOWEVENT_ENTER => updateMouseSettings { s with mMouseInWindow := true } env
  | .SDL_WINDOWEVENT_LEAVE => updateMouseSettings { s with mMouseInWindow := false } env
  | .SDL_WINDOWEVENT_FOCUS_GAINED => updateMouseSettings { s with mWindowHasFocus := true } env
  | .SDL_WINDOWEVENT_FOCUS_LOST => updateMouseSettings { s with mWindowHasFocus := false } env
  | .unlisted _ => (s, [])

/-- `SdlInputHandler::setGrabMousePointer`. -/
def setGrabMousePointer (s : SdlInputHandler) (grab : Bool) (env : SdlEnv) :
    SdlInputHandler × List Effect :=
  updateMouseSettings { s with mWantMouseGrab := grab } env

/-- `SdlInputHandler::setMouseRelative`. -/
def setMouseRelative (s : SdlInputHandler) (relative : Bool) (env : SdlEnv) :
    SdlInputHandler × List Effect :=
  updateMouseSettings { s with mWantRelative := relative } env

/-- `SdlInputHandler::setMouseVisible`. -/
def setMouseVisible (s : SdlInputHandler) (visible : Bool) (env : SdlEnv) :
    SdlInputHandler × List Effect :=
  updateMouseSettings { s with mWantMouseVisible := visible } env

/-- `SdlInputHandler::warpMouse`. -/
def warpMouse (s : SdlInputHandler) (x y : Int) : SdlInputHandler × List Effect :=
  ({ s with mWarpCompensate := true, mWarpX := x, mWarpY := y },
   [Effect.SDL_WarpMouseInWindow x y])

/-- `SdlInputHandler::wrapMousePointer`, on the `x`, `y` of the motion event. The
sums and `/ 2` are those of the integers: this is the source's computation whenever
its 32-bit `int` arithmetic does not overflow (`NoOverflow32`) and the window size
is not negative (where truncating and flooring division agree); outside of that
the machine computation is `wrapMousePointerInt32`. -/
def wrapMousePointer (s : SdlInputHandler) (x y : Int) (env : SdlEnv) :
    SdlInputHandler × List Effect :=
  if !s.mIsMouseRelative || !s.mWrapPointerManually || !s.mGrabPointer then
    (s, [])
  else
    let width := env.width
    let height := env.height
    let FUDGE_FACTOR_X := width
    let FUDGE_FACTOR_Y := height
    if decide (x - FUDGE_FACTOR_X < 0) || decide (x + FUDGE_FACTOR_X > width) ||
       decide (y - FUDGE_FACTOR_Y < 0) || decide (y + FUDGE_FACTOR_Y > height) then
      warpMouse s (width / 2) (height / 2)
    else
      (s, [])

/-- `SdlInputHandler::handleWarpMotion`: the returned flag and the new state. -/
def handleWarpMotion (s : SdlInputHandler) (x y : Int) : Bool × SdlInputHandler :=
  if !s.mWarpCompensate then
    (false, s)
  else if x == s.mWarpX && y == s.mWarpY then
    (true, { s with mWarpCompensate := false })
  else
    (false, s)

/-- The `memcpy` into `mEventBuffers[slot]` at byte offset `offset`. An index past
the end of `mEventBuffers` changes nothing here; the access is still listed among
the effects of `encapsulateEvent`. -/
def writeRecord (bufs : List EventBuffer) (p : EventPtr) (evt : SDL_Event) :
    List EventBuffer :=
  bufs.modify
    (fun b => { b with records := (p.offset, evt) :: b.records.filter (fun r => r.1 != p.offset) })
    p.slot

/-- Reading the record an `EventPtr` points at. -/
def readRecord (bufs : List EventBuffer) (p : EventPtr) : Option SDL_Event :=
  match bufs.get? p.slot with
  | some b => (b.records.find? (fun r => r.1 == p.offset)).map Prod.snd
  | none => none

/-- The test that opens `encapsulateEvent`: the current index is past the
allocated buffers, or the current buffer is full. -/
def needsNewBuffer (s : SdlInputHandler) : Bool :=
  decide (s.mCurrentEventBuffer ≥ s.mEventBuffers.length) ||
    (match s.mEventBuffers.get? s.mCurrentEventBuffer with
     | some b => decide (s.mEventBufferOffset ≥ b.size)
     | none => true)

/-- `SdlInputHandler::encapsulateEvent`; `sz` is `sizeof(SDL_Event)`. The free list
is the vector in its own order: `push_back` appends, `back` is the last element. -/
def encapsulateEvent (sz : Nat) (s : SdlInputHandler) (evt : SDL_Event) :
    EventPtr × SdlInputHandler × List Effect :=
  let (s2, fx) :=
    if needsNewBuffer s then
      let s0 :=
        if s.mFreeEventBuffers.isEmpty then
          { s with mFreeEventBuffers := s.mFreeEventBuffers ++ [s.mEventBuffers.length],
                   mEventBuffers := s.mEventBuffers ++ [{ size := 70 * sz, records := [] }] }
        else s
      let s1 := { s0 with mCurrentEventBuffer := s0.mFreeEventBuffers.getLastD 0,
                          mFreeEventBuffers := s0.mFreeEventBuffers.dropLast,
                          mEventBufferOffset := 0 }
      (s1, [Effect.queueSendMessage (Message.SDL_EVENT_BUFFER_ID_USED s1.mCurrentEventBuffer)])
    else (s, [])
  let rawData : EventPtr := { slot := s2.mCurrentEventBuffer, offset := s2.mEventBufferOffset }
  (rawData,
   { s2 with mEventBuffers := writeRecord s2.mEventBuffers rawData evt,
             mEventBufferOffset := s2.mEventBufferOffset + sz },
   fx ++ [Effect.memcpy rawData evt])

/-- `SdlInputHandler::_releaseEventBufferId`. -/
def _releaseEventBufferId (s : SdlInputHandler) (id : Nat) : SdlInputHandler :=
  { s with mFreeEventBuffers := s.mFreeEventBuffers ++ [id] }

/-- The block `if( mLogicSystem ) { Mq::Message msg( Mq::SDL_EVENT, encapsulateEvent( evt ), false );
queueSendMessage( mLogicSystem, msg ); }` that ends most cases of `_handleSdlEvents`. -/
def forwardToLogic (sz : Nat) (s : SdlInputHandler) (evt : SDL_Event) :
    SdlInputHandler × List Effect :=
  if s.mLogicSystem then
    let r := encapsulateEvent sz s evt
    (r.2.1, r.2.2 ++ [Effect.queueSendMessage (Message.SDL_EVENT r.1)])
  else (s, [])

/-- A listener call guarded by a null test and possibly a further condition. -/
def callIf (c : Bool) (e : Effect) : List Effect := if c then [e] else []

/-- The `switch( evt.type )` of `_handleSdlEvents`. -/
def dispatch (sz : Nat) (s : SdlInputHandler) (evt : SDL_Event) (env : SdlEnv) :
    SdlInputHandler × List Effect :=
  match evt with
  | .SDL_MOUSEMOTION x y =>
    let w := handleWarpMotion s x y
    if !w.1 then
      let s1 := w.2
      let fx1 := callIf ((!s1.mWantRelative || s1.mWindowHasFocus) && s1.mMouseListener)
        (Effect.mouseMoved evt)
      let r2 := if s1.mWindowHasFocus then wrapMousePointer s1 x y env else (s1, [])
      let r3 := forwardToLogic sz r2.1 evt
      (r3.1, fx1 ++ r2.2 ++ r3.2)
    else (w.2, [])
  | .SDL_MOUSEWHEEL _ _ =>
    let r := forwardToLogic sz s evt
    (r.1, callIf s.mMouseListener (Effect.mouseMoved evt) ++ r.2)
  | .SDL_MOUSEBUTTONDOWN button =>
    let r := forwardToLogic sz s evt
    (r.1, callIf s.mMouseListener (Effect.mousePressed evt button) ++ r.2)
  | .SDL_MOUSEBUTTONUP button =>
    let r := forwardToLogic sz s evt
    (r.1, callIf s.mMouseListener (Effect.mouseReleased evt button) ++ r.2)
  | .SDL_KEYDOWN _ rep =>
    let r := forwardToLogic sz s evt
    (r.1, callIf (rep == 0 && s.mKeyboardListener) (Effect.keyPressed evt) ++ r.2)
  | .SDL_KEYUP _ rep =>
    let r := forwardToLogic sz s evt
    (r.1, callIf (rep == 0 && s.mKeyboardListener) (Effect.keyReleased evt) ++ r.2)
  | .SDL_TEXTINPUT _ =>
    let r := forwardToLogic sz s evt
    (r.1, callIf s.mKeyboardListener (Effect.textInput evt) ++ r.2)
  | .SDL_JOYAXISMOTION axis _ =>
    let r := forwardToLogic sz s evt
    (r.1, callIf s.mJoystickListener (Effect.joyAxisMoved evt axis) ++ r.2)
  | .SDL_JOYBUTTONDOWN button =>
    let r := forwardToLogic sz s evt
    (r.1, callIf s.mJoystickListener (Effect.joyButtonPressed evt button) ++ r.2)
  | .SDL_JOYBUTTONUP button =>
    let r := forwardToLogic sz s evt
    (r.1, callIf s.mJoystickListener (Effect.joyButtonReleased evt button) ++ r.2)
  | .SDL_JOYDEVICEADDED _ => (s, [])
  | .SDL_JOYDEVICEREMOVED _ => (s, [])
  | .SDL_WINDOWEVENT event => handleWindowEvent s event env
  | .unlisted _ => (s, [])

/-- `SdlInputHandler::_handleSdlEvents`: the switch, then
`mCurrentEventBuffer = mEventBuffers.size()`. -/
def _handleSdlEvents (sz : Nat) (s : SdlInputHandler) (evt : SDL_Event) (env : SdlEnv) :
    SdlInputHandler × List Effect :=
  let r := dispatch sz s evt env
  ({ r.1 with mCurrentEventBuffer := r.1.mEventBuffers.length }, r.2)

/-- The calls that can be made on a handler. `setLogicSystem` is the assignment of
the `mLogicSystem` field, which the constructor leaves null and which this file
only reads. -/
inductive Action
  | handleSdlEvents (evt : SDL_Event) (env : SdlEnv)
  | encapsulateEvent (evt : SDL_Event)
  | releaseEventBufferId (id : Nat)
  | setGrabMousePointer (grab : Bool) (env : SdlEnv)
  | setMouseRelative (relative : Bool) (env : SdlEnv)
  | setMouseVisible (visible : Bool) (env : SdlEnv)
  | setLogicSystem (attached : Bool)
  deriving DecidableEq

/-- One call on the handler: the new state and the effects of the call. -/
def step (sz : Nat) (s : SdlInputHandler) : Action → SdlInputHandler × List Effect
  | .handleSdlEvents evt env => _handleSdlEvents sz s evt env
  | .encapsulateEvent evt => (encapsulateEvent sz s evt).2
  | .releaseEventBufferId id => (_releaseEventBufferId s id, [])
  | .setGrabMousePointer grab env => setGrabMousePointer s grab env
  | .setMouseRelative relative env => setMouseRelative s relative env
  | .setMouseVisible visible env => setMouseVisible s visible env
  | .setLogicSystem attached => ({ s with mLogicSystem := attached }, [])

/-- The state after a sequence of calls. -/
def exec (sz : Nat) (s : SdlInputHandler) : List Action → SdlInputHandler
  | [] => s
  | a :: as => exec sz (step sz s a).1 as

/-- The states a handler can be in: a freshly constructed one, and whatever any
call makes of a state it can be in. -/
inductive Reach (sz : Nat) : SdlInputHandler → Prop
  | ctor (mouseListener keyboardListener joystickListener : Bool) :
      Reach sz (ctor mouseListener keyboardListener joystickListener)
  | step (s : SdlInputHandler) (a : Action) : Reach sz s → Reach sz (step sz s a).1

/-- The eight policy flags of the handler, in declaration order. -/
def mouseFlags (s : SdlInputHandler) : List Bool :=
  [s.mWantRelative, s.mWantMouseGrab, s.mWantMouseVisible, s.mIsMouseRelative,
   s.mWrapPointerManually, s.mGrabPointer, s.mMouseInWindow, s.mWindowHasFocus]

/-- The grab rule of `updateMouseSettings`. -/
def GrabPolicy (s : SdlInputHandler) : Prop :=
  s.mGrabPointer = (s.mWantMouseGrab && s.mMouseInWindow && s.mWindowHasFocus)

/-- The relative-mode rule of `updateMouseSettings`. -/
def RelativePolicy (s : SdlInputHandler) : Prop :=
  s.mIsMouseRelative = (s.mWantRelative && s.mMouseInWindow && s.mWindowHasFocus)

instance (s : SdlInputHandler) : Decidable (GrabPolicy s) := by
  unfold GrabPolicy; infer_instance

instance (s : SdlInputHandler) : Decidable (RelativePolicy s) := by
  unfold RelativePolicy; infer_instance

/-! ## Observing a run -/

/-- The listener callbacks among some effects. -/
def listenerCalls (fx : List Effect) : List Effect :=
  fx.filter fun e =>
    match e with
    | .mouseMoved _ | .mousePressed _ _ | .mouseReleased _ _ | .keyPressed _ | .keyReleased _
    | .textInput _ | .joyAxisMoved _ _ | .joyButtonPressed _ _ | .joyButtonReleased _ _ => true
    | _ => false

/-- The payloads of the `Mq::SDL_EVENT` messages among some effects. -/
def forwarded (fx : List Effect) : List EventPtr :=
  fx.filterMap fun e =>
    match e with
    | .queueSendMessage (.SDL_EVENT p) => some p
    | _ => none

/-- The ids of the `Mq::SDL_EVENT_BUFFER_ID_USED` messages among some effects. -/
def notifiedIds (fx : List Effect) : List Nat :=
  fx.filterMap fun e =>
    match e with
    | .queueSendMessage (.SDL_EVENT_BUFFER_ID_USED id) => some id
    | _ => none

/-- The targets of the `SDL_WarpMouseInWindow` calls among some effects. -/
def warps (fx : List Effect) : List (Int × Int) :=
  fx.filterMap fun e =>
    match e with
    | .SDL_WarpMouseInWindow x y => some (x, y)
    | _ => none

/-- The effects of a sequence of calls, in order. -/
def execFx (sz : Nat) (s : SdlInputHandler) : List Action → List Effect
  | [] => []
  | a :: as => (step sz s a).2 ++ execFx sz (step sz s a).1 as

/-- One entry of the log of a run: an effect of the handler, a call of
`_releaseEventBufferId` by the consumer, or the assignment
`mCurrentEventBuffer = mEventBuffers.size()` that ends `_handleSdlEvents`. -/
inductive LogItem
  | effect (e : Effect)
  | released (id : Nat)
  | currentReset
  deriving DecidableEq

/-- The `slot in use` notification for slot `id`, as a log entry. -/
def LogItem.notified (id : Nat) : LogItem :=
  .effect (.queueSendMessage (.SDL_EVENT_BUFFER_ID_USED id))

/-- The write of one record into slot `p.slot`, as a log entry. -/
def LogItem.written (p : EventPtr) (evt : SDL_Event) : LogItem :=
  .effect (.memcpy p evt)

/-- The log entries of one call. -/
def stepLog (sz : Nat) (s : SdlInputHandler) (a : Action) : List LogItem :=
  match a with
  | .releaseEventBufferId id => [LogItem.released id]
  | .handleSdlEvents _ _ => (step sz s a).2.map LogItem.effect ++ [LogItem.currentReset]
  | _ => (step sz s a).2.map LogItem.effect

/-- The log of a sequence of calls. -/
def runLog (sz : Nat) (s : SdlInputHandler) : List Action → List LogItem
  | [] => []
  | a :: as => stepLog sz s a ++ runLog sz (step sz s a).1 as

/-- How one log entry changes the list of outstanding slots. -/
def outstandingStep (out : List Nat) : LogItem → List Nat
  | .effect (.queueSendMessage (.SDL_EVENT_BUFFER_ID_USED id)) => out ++ [id]
  | .released id => out.erase id
  | _ => out

/-- The outstanding slots after a log: notified as in use and not released since. -/
def outstanding (log : List LogItem) : List Nat :=
  log.foldl outstandingStep []

/-- The release protocol for one call: the consumer releases only a slot that is
outstanding. -/
def allowed (log : List LogItem) : Action → Bool
  | .releaseEventBufferId id => decide (id ∈ outstanding log)
  | _ => true

/-- A sequence of calls follows the release protocol when each call is allowed
after the log so far (`log` is the log before the sequence). -/
def followsProtocol (sz : Nat) (s : SdlInputHandler) (log : List LogItem) : List Action → Bool
  | [] => true
  | a :: as => allowed log a && followsProtocol sz (step sz s a).1 (log ++ stepLog sz s a) as

/-- The partition of the allocated slots into free and outstanding ones. -/
def PoolPartition (s : SdlInputHandler) (out : List Nat) : Prop :=
  s.mFreeEventBuffers.Nodup ∧
  (∀ i, i < s.mEventBuffers.length →
    (i ∈ s.mFreeEventBuffers ∨ i ∈ out) ∧ ¬ (i ∈ s.mFreeEventBuffers ∧ i ∈ out)) ∧
  s.mFreeEventBuffers.length + out.length = s.mEventBuffers.length

/-- The effects that concern the buffer pool: a write into a buffer and a
`slot in use` notification. -/
def Effect.isPool : Effect → Bool
  | .memcpy _ _ => true
  | .queueSendMessage (.SDL_EVENT_BUFFER_ID_USED _) => true
  | _ => false

/-- The log entries after which the router is no longer filling the slot it was
filling: it took another slot (a notification), or `_handleSdlEvents` reset
`mCurrentEventBuffer`. -/
def LogItem.isLeave : LogItem → Bool
  | .currentReset => true
  | .effect (.queueSendMessage (.SDL_EVENT_BUFFER_ID_USED _)) => true
  | _ => false

/-- The hand-off discipline read strictly: between a notification for a slot and a
later write into that slot there is a release of the slot. -/
def StrictHandoff (log : List LogItem) : Prop :=
  ∀ a b c id off evt,
    log = a ++ LogItem.notified id :: (b ++ LogItem.written ⟨id, off⟩ evt :: c) →
    LogItem.released id ∈ b

/-- The hand-off discipline of the code: between a notification for a slot and a
later write into that slot there is a release of the slot, or the router has been
filling that slot all along (no other notification and no reset in between). -/
def Handoff (log : List LogItem) : Prop :=
  ∀ a b c id off evt,
    log = a ++ LogItem.notified id :: (b ++ LogItem.written ⟨id, off⟩ evt :: c) →
    LogItem.released id ∈ b ∨ ∀ x ∈ b, LogItem.isLeave x = false

/-- Every notification for `id` in the log is followed by a release of `id`. -/
def AllReleased (log : List LogItem) (id : Nat) : Prop :=
  ∀ a b, log = a ++ LogItem.notified id :: b → LogItem.released id ∈ b

/-- After every notification for `id` in the log, `id` was released or the router
has been filling `id` ever since. -/
def StillFilling (log : List LogItem) (id : Nat) : Prop :=
  ∀ a b, log = a ++ LogItem.notified id :: b →
    LogItem.released id ∈ b ∨ ∀ x ∈ b, LogItem.isLeave x = false

/-- The invariant of a run that follows the release protocol: the handler's pool
fields against the log of the run. -/
structure RunInv (s : SdlInputHandler) (log : List LogItem) : Prop where
  freeNodup : s.mFreeEventBuffers.Nodup
  outNodup : (outstanding log).Nodup
  disjoint : ∀ i, i ∈ s.mFreeEventBuffers → i ∉ outstanding log
  covers : ∀ i, i < s.mEventBuffers.length ↔ (i ∈ s.mFreeEventBuffers ∨ i ∈ outstanding log)
  count : s.mFreeEventBuffers.length + (outstanding log).length = s.mEventBuffers.length
  allReleased : ∀ id, id ∉ outstanding log → AllReleased log id
  filling : s.mCurrentEventBuffer < s.mEventBuffers.length → StillFilling log s.mCurrentEventBuffer
  handoff : Handoff log

/-- The pool fields the invariant reads are the same in both states. -/
def SamePool (s t : SdlInputHandler) : Prop :=
  t.mEventBuffers.length = s.mEventBuffers.length ∧
  t.mFreeEventBuffers = s.mFreeEventBuffers ∧
  t.mCurrentEventBuffer = s.mCurrentEventBuffer

/-- The event types whose `case` in `_handleSdlEvents` ends with the forward to the
logic system: mouse motion, wheel and buttons, keys and text, joystick axis and
buttons. -/
def SDL_Event.isForwardedType : SDL_Event → Bool
  | .SDL_MOUSEMOTION _ _ | .SDL_MOUSEWHEEL _ _ | .SDL_MOUSEBUTTONDOWN _ | .SDL_MOUSEBUTTONUP _
  | .SDL_KEYDOWN _ _ | .SDL_KEYUP _ _ | .SDL_TEXTINPUT _ | .SDL_JOYAXISMOTION _ _
  | .SDL_JOYBUTTONDOWN _ | .SDL_JOYBUTTONUP _ => true
  | _ => false

/-- The joystick hot-plug events. -/
def SDL_Event.isHotPlug : SDL_Event → Bool
  | .SDL_JOYDEVICEADDED _ | .SDL_JOYDEVICEREMOVED _ => true
  | _ => false

/-- A motion event that `handleWarpMotion` tells the caller to eat. -/
def isWarpEcho (s : SdlInputHandler) : SDL_Event → Bool
  | .SDL_MOUSEMOTION x y => (handleWarpMotion s x y).1
  | _ => false

/-- A handler in manual wrap mode with the pointer grabbed: relative mode was
requested and `SDL_SetRelativeMouseMode` failed, then the grab was requested. -/
def manualWrapState : SdlInputHandler :=
  (setGrabMousePointer (setMouseRelative (ctor true true true) true ⟨-1, 800, 600⟩).1 true
    ⟨0, 800, 600⟩).1

/-- The state `manualWrapState` is left in by a motion event right of an 800 x 600
window: the pointer was warped to the centre and the echo is awaited. -/
def awaitingEchoState : SdlInputHandler :=
  (_handleSdlEvents 56 manualWrapState (SDL_Event.SDL_MOUSEMOTION 900 100) ⟨0, 800, 600⟩).1

/-- With an empty free list, the current buffer has room for exactly `r` more
records; `r = 0` means the next `encapsulateEvent` takes a new buffer. -/
def HasRoom (sz : Nat) (s : SdlInputHandler) (r : Nat) : Prop :=
  s.mFreeEventBuffers = [] ∧
  ((r = 0 ∧ needsNewBuffer s = true) ∨
   (0 < r ∧ ∃ b, s.mEventBuffers[s.mCurrentEventBuffer]? = some b ∧ b.size = 70 * sz ∧
      s.mEventBufferOffset + r * sz = 70 * sz))

/-- The arguments of the `SDL_ShowCursor` calls among some effects. -/
def showCursorCalls (fx : List Effect) : List Bool :=
  fx.filterMap fun e =>
    match e with
    | .SDL_ShowCursor toggle => some toggle
    | _ => none

/-- Manual wrapping is on only while relative mode is active. -/
def WrapPolicy (s : SdlInputHandler) : Prop :=
  s.mWrapPointerManually = true → s.mIsMouseRelative = true

/-- The effects that move an event towards the logic system: a write into a
buffer, and a queued message of either kind. -/
def Effect.isTransfer : Effect → Bool
  | .memcpy _ _ => true
  | .queueSendMessage _ => true
  | _ => false

/-- The writes into the buffers and the queued messages among some effects. -/
def transfers (fx : List Effect) : List Effect := fx.filter Effect.isTransfer

/-- The writes into the buffers among some effects: where, and which event. -/
def writes (fx : List Effect) : List (EventPtr × SDL_Event) :=
  fx.filterMap fun e =>
    match e with
    | .memcpy p evt => some (p, evt)
    | _ => none

/-- Both states have the same logic-system pointer and the same pool: buffers, free
list, current buffer and offset. -/
def PoolEq (s t : SdlInputHandler) : Prop :=
  t.mLogicSystem = s.mLogicSystem ∧ t.mEventBuffers = s.mEventBuffers ∧
  t.mFreeEventBuffers = s.mFreeEventBuffers ∧
  t.mCurrentEventBuffer = s.mCurrentEventBuffer ∧ t.mEventBufferOffset = s.mEventBufferOffset

/-- A handler on which two routed events have been forwarded and not released:
slots 0 and 1 are outstanding, the free list is empty. -/
def twoOutstandingState : SdlInputHandler :=
  exec 56 (ctor true true true)
    [Action.setLogicSystem true,
     Action.handleSdlEvents (SDL_Event.SDL_KEYDOWN 4 0) ⟨0, 800, 600⟩,
     Action.handleSdlEvents (SDL_Event.SDL_KEYUP 4 0) ⟨0, 800, 600⟩]

/-- The current index is past the allocated buffers, as `_handleSdlEvents` leaves
it: the next `encapsulateEvent` takes a slot. -/
def PastEnd (s : SdlInputHandler) : Prop :=
  s.mEventBuffers.length ≤ s.mCurrentEventBuffer

/-- Every allocated buffer has the size `encapsulateEvent` gives it. -/
def BuffersSized (sz : Nat) (s : SdlInputHandler) : Prop :=
  ∀ (i : Nat) (b : EventBuffer), s.mEventBuffers[i]? = some b → b.size = 70 * sz

/-- While the current index points at a buffer, the offset is a whole number of
records. -/
def OffsetAligned (sz : Nat) (s : SdlInputHandler) : Prop :=
  s.mCurrentEventBuffer < s.mEventBuffers.length → sz ∣ s.mEventBufferOffset

/-- The event types `_handleSdlEvents` does nothing for: those without a case, and
the joystick hot-plug events, whose cases are empty. -/
def SDL_Event.hasNoHandler : SDL_Event → Bool
  | .unlisted _ | .SDL_JOYDEVICEADDED _ | .SDL_JOYDEVICEREMOVED _ => true
  | _ => false

/-- The listener pointer of the role an event is dispatched to (mouse, keyboard or
joystick), as a non-null flag; false for events dispatched to no listener. -/
def listenerFor (s : SdlInputHandler) : SDL_Event → Bool
  | .SDL_MOUSEMOTION _ _ | .SDL_MOUSEWHEEL _ _ | .SDL_MOUSEBUTTONDOWN _
  | .SDL_MOUSEBUTTONUP _ => s.mMouseListener
  | .SDL_KEYDOWN _ _ | .SDL_KEYUP _ _ | .SDL_TEXTINPUT _ => s.mKeyboardListener
  | .SDL_JOYAXISMOTION _ _ | .SDL_JOYBUTTONDOWN _ | .SDL_JOYBUTTONUP _ => s.mJoystickListener
  | _ => false

/-- The same handler with other listener pointers. -/
def withListeners (s : SdlInputHandler) (mouseListener keyboardListener joystickListener : Bool) :
    SdlInputHandler :=
  { s with mMouseListener := mouseListener, mKeyboardListener := keyboardListener,
           mJoystickListener := joystickListener }

/-- The number fits a 32-bit signed `int`. -/
def fitsInt32 (n : Int) : Prop := -2147483648 ≤ n ∧ n ≤ 2147483647

instance (n : Int) : Decidable (fitsInt32 n) := by
  unfold fitsInt32; infer_instance

/-- The motion coordinates and the window size are 32-bit `int` values, and so are
the four sums `wrapMousePointer` forms of them: its arithmetic does not overflow. -/
def NoOverflow32 (x y : Int) (env : SdlEnv) : Prop :=
  fitsInt32 x ∧ fitsInt32 y ∧ fitsInt32 env.width ∧ fitsInt32 env.height ∧
  fitsInt32 (x - env.width) ∧ fitsInt32 (x + env.width) ∧
  fitsInt32 (y - env.height) ∧ fitsInt32 (y + env.height)

instance (x y : Int) (env : SdlEnv) : Decidable (NoOverflow32 x y env) := by
  unfold NoOverflow32; infer_instance

/-- The value a 32-bit two's-complement `int` holds for the mathematical result
`n`. -/
def wrapInt32 (n : Int) : Int := (n + 2147483648) % 4294967296 - 2147483648

/-- `SdlInputHandler::wrapMousePointer` with the arithmetic of the source's `int`
written out: the four sums are taken in 32 bits (where they overflow, which C++
leaves undefined, the value is the wrapped one) and `/ 2` truncates towards zero.
`wrapMousePointer` above is this function wherever nothing overflows and the window
size is not negative, see `wrapMousePointerInt32_eq`. -/
def wrapMousePointerInt32 (s : SdlInputHandler) (x y : Int) (env : SdlEnv) :
    SdlInputHandler × List Effect :=
  if !s.mIsMouseRelative || !s.mWrapPointerManually || !s.mGrabPointer then
    (s, [])
  else
    let width := env.width
    let height := env.height
    let FUDGE_FACTOR_X := width
    let FUDGE_FACTOR_Y := height
    if decide (wrapInt32 (x - FUDGE_FACTOR_X) < 0) ||
       decide (wrapInt32 (x + FUDGE_FACTOR_X) > width) ||
       decide (wrapInt32 (y - FUDGE_FACTOR_Y) < 0) ||
       decide (wrapInt32 (y + FUDGE_FACTOR_Y) > height) then
      warpMouse s (Int.tdiv width 2) (Int.tdiv height 2)
    else
      (s, [])

/-- A handler constructed without a mouse listener, with the logic system attached,
in manual wrap mode with the pointer grabbed, after a motion event right of an
800 x 600 window: the pointer was warped to the centre and the echo is awaited. -/
def awaitingEchoNoMouseListener : SdlInputHandler :=
  exec 56 (ctor false true true)
    [Action.setLogicSystem true,
     Action.setMouseRelative true ⟨-1, 800, 600⟩,
     Action.setGrabMousePointer true ⟨0, 800, 600⟩,
     Action.handleSdlEvents (SDL_Event.SDL_MOUSEMOTION 900 100) ⟨0, 800, 600⟩]

end SdlInputHandler

end Demo

namespace Demo

namespace SdlInputHandler

/-! # Theorems -/

/-! ## Frame lemmas: which calls leave the policy flags alone -/

theorem updateMouseSettings_policy (s : SdlInputHandler) (env : SdlEnv) :
    GrabPolicy (updateMouseSettings s env).1 ∧ RelativePolicy (updateMouseSettings s env).1 := by
  unfold updateMouseSettings GrabPolicy RelativePolicy
  simp only []
  split_ifs with h1 h2
  · simp at h1; simp [h1]
  · simp
  · simp

theorem encapsulateEvent_mouseFlags (sz : Nat) (s : SdlInputHandler) (evt : SDL_Event) :
    mouseFlags (encapsulateEvent sz s evt).2.1 = mouseFlags s := by
  unfold encapsulateEvent mouseFlags
  simp only []
  split_ifs <;> rfl

theorem forwardToLogic_mouseFlags (sz : Nat) (s : SdlInputHandler) (evt : SDL_Event) :
    mouseFlags (forwardToLogic sz s evt).1 = mouseFlags s := by
  unfold forwardToLogic
  split_ifs
  · exact encapsulateEvent_mouseFlags sz s evt
  · rfl

theorem wrapMousePointer_mouseFlags (s : SdlInputHandler) (x y : Int) (env : SdlEnv) :
    mouseFlags (wrapMousePointer s x y env).1 = mouseFlags s := by
  unfold wrapMousePointer warpMouse mouseFlags
  simp only []
  split_ifs <;> rfl

theorem handleWarpMotion_mouseFlags (s : SdlInputHandler) (x y : Int) :
    mouseFlags (handleWarpMotion s x y).2 = mouseFlags s := by
  unfold handleWarpMotion mouseFlags
  split_ifs <;> rfl

theorem policy_of_mouseFlags {s t : SdlInputHandler} (h : mouseFlags t = mouseFlags s) :
    (GrabPolicy s → GrabPolicy t) ∧ (RelativePolicy s → RelativePolicy t) := by
  simp only [mouseFlags, List.cons.injEq, and_true] at h
  obtain ⟨h1, h2, h3, h4, h5, h6, h7, h8⟩ := h
  simp only [GrabPolicy, RelativePolicy, h1, h2, h3, h4, h5, h6, h7, h8]
  exact ⟨id, id⟩

/-- Every case of the switch other than a window event keeps the policy flags. -/
theorem dispatch_mouseFlags (sz : Nat) (s : SdlInputHandler) (evt : SDL_Event) (env : SdlEnv)
    (hw : ∀ event, evt ≠ SDL_Event.SDL_WINDOWEVENT event) :
    mouseFlags (dispatch sz s evt env).1 = mouseFlags s := by
  cases evt with
  | SDL_MOUSEMOTION x y =>
    simp only [dispatch]
    split_ifs <;>
      simp only [forwardToLogic_mouseFlags, wrapMousePointer_mouseFlags,
        handleWarpMotion_mouseFlags]
  | SDL_WINDOWEVENT event => exact absurd rfl (hw event)
  | _ => first | rfl | exact forwardToLogic_mouseFlags sz s _

theorem step_policy (sz : Nat) (s : SdlInputHandler) (a : Action)
    (h : GrabPolicy s ∧ RelativePolicy s) :
    GrabPolicy (step sz s a).1 ∧ RelativePolicy (step sz s a).1 := by
  cases a with
  | handleSdlEvents evt env =>
    have key : GrabPolicy (dispatch sz s evt env).1 ∧ RelativePolicy (dispatch sz s evt env).1 := by
      by_cases hw : ∀ event, evt ≠ SDL_Event.SDL_WINDOWEVENT event
      · have := policy_of_mouseFlags (dispatch_mouseFlags sz s evt env hw)
        exact ⟨this.1 h.1, this.2 h.2⟩
      · push_neg at hw
        obtain ⟨event, rfl⟩ := hw
        cases event <;> first | exact updateMouseSettings_policy _ env | exact h
    exact key
  | encapsulateEvent evt =>
    have := policy_of_mouseFlags (encapsulateEvent_mouseFlags sz s evt)
    exact ⟨this.1 h.1, this.2 h.2⟩
  | releaseEventBufferId id => exact h
  | setGrabMousePointer grab env => exact updateMouseSettings_policy _ env
  | setMouseRelative relative env => exact updateMouseSettings_policy _ env
  | setMouseVisible visible env => exact updateMouseSettings_policy _ env
  | setLogicSystem attached => exact h

theorem reach_policy (sz : Nat) (s : SdlInputHandler) (h : Reach sz s) :
    GrabPolicy s ∧ RelativePolicy s := by
  induction h with
  | ctor m k j => exact ⟨rfl, rfl⟩
  | step s a _ ih => exact step_policy sz s a ih

theorem reach_exec (sz : Nat) (acts : List Action) :
    ∀ s : SdlInputHandler, Reach sz s → Reach sz (exec sz s acts) := by
  induction acts with
  | nil => intro s h; exact h
  | cons a as ih => intro s h; exact ih _ (Reach.step s a h)

/-! ## The focus / grab policy -/

/-- C1: from the constructor's state, after every finite sequence of calls (routed
events of every type, the three setters, and also pool calls and attaching the
logic system), `mGrabPointer` equals
`mWantMouseGrab && mMouseInWindow && mWindowHasFocus`. Every prefix of a sequence
is a sequence, so this holds after each step. -/
theorem C1_grab_policy_invariant (sz : Nat) (mouseListener keyboardListener joystickListener : Bool)
    (acts : List Action) :
    (exec sz (ctor mouseListener keyboardListener joystickListener) acts).mGrabPointer =
      ((exec sz (ctor mouseListener keyboardListener joystickListener) acts).mWantMouseGrab &&
        (exec sz (ctor mouseListener keyboardListener joystickListener) acts).mMouseInWindow &&
        (exec sz (ctor mouseListener keyboardListener joystickListener) acts).mWindowHasFocus) :=
  (reach_policy sz _ (reach_exec sz acts _ (Reach.ctor _ _ _))).1

/-- C2: from the constructor's state, after every finite sequence of calls, whatever
each `SDL_SetRelativeMouseMode` returned (the `SdlEnv` of each call is arbitrary),
`mIsMouseRelative` equals `mWantRelative && mMouseInWindow && mWindowHasFocus`. -/
theorem C2_relative_policy_invariant (sz : Nat)
    (mouseListener keyboardListener joystickListener : Bool) (acts : List Action) :
    (exec sz (ctor mouseListener keyboardListener joystickListener) acts).mIsMouseRelative =
      ((exec sz (ctor mouseListener keyboardListener joystickListener) acts).mWantRelative &&
        (exec sz (ctor mouseListener keyboardListener joystickListener) acts).mMouseInWindow &&
        (exec sz (ctor mouseListener keyboardListener joystickListener) acts).mWindowHasFocus) :=
  (reach_policy sz _ (reach_exec sz acts _ (Reach.ctor _ _ _))).2

/-! ## The buffer pool -/

theorem dropLast_concat_getLastD (l : List Nat) (h : l ≠ []) :
    l.dropLast ++ [l.getLastD 0] = l := by
  rcases List.eq_nil_or_concat l with h0 | ⟨L, b, rfl⟩
  · exact absurd h0 h
  · simp

theorem length_writeRecord (bufs : List EventBuffer) (p : EventPtr) (evt : SDL_Event) :
    (writeRecord bufs p evt).length = bufs.length := by
  simp [writeRecord]

/-- What one `encapsulateEvent` does to the pool, by the three paths through it:
room left in the current buffer; a new buffer allocated; a buffer taken from the
free list. -/
theorem encapsulateEvent_cases (sz : Nat) (s : SdlInputHandler) (evt : SDL_Event) :
    (needsNewBuffer s = false ∧
      (encapsulateEvent sz s evt).2.1.mFreeEventBuffers = s.mFreeEventBuffers ∧
      (encapsulateEvent sz s evt).2.1.mEventBuffers.length = s.mEventBuffers.length ∧
      (encapsulateEvent sz s evt).2.1.mCurrentEventBuffer = s.mCurrentEventBuffer ∧
      (encapsulateEvent sz s evt).2.2 =
        [Effect.memcpy ⟨s.mCurrentEventBuffer, s.mEventBufferOffset⟩ evt]) ∨
    (needsNewBuffer s = true ∧ s.mFreeEventBuffers = [] ∧
      (encapsulateEvent sz s evt).2.1.mFreeEventBuffers = [] ∧
      (encapsulateEvent sz s evt).2.1.mEventBuffers.length = s.mEventBuffers.length + 1 ∧
      (encapsulateEvent sz s evt).2.1.mCurrentEventBuffer = s.mEventBuffers.length ∧
      (encapsulateEvent sz s evt).2.2 =
        [Effect.queueSendMessage (Message.SDL_EVENT_BUFFER_ID_USED s.mEventBuffers.length),
         Effect.memcpy ⟨s.mEventBuffers.length, 0⟩ evt]) ∨
    (needsNewBuffer s = true ∧ ∃ rest id, s.mFreeEventBuffers = rest ++ [id] ∧
      (encapsulateEvent sz s evt).2.1.mFreeEventBuffers = rest ∧
      (encapsulateEvent sz s evt).2.1.mEventBuffers.length = s.mEventBuffers.length ∧
      (encapsulateEvent sz s evt).2.1.mCurrentEventBuffer = id ∧
      (encapsulateEvent sz s evt).2.2 =
        [Effect.queueSendMessage (Message.SDL_EVENT_BUFFER_ID_USED id),
         Effect.memcpy ⟨id, 0⟩ evt]) := by
  by_cases hn : needsNewBuffer s = true
  · rcases List.eq_nil_or_concat s.mFreeEventBuffers with h0 | ⟨rest, id, hfree⟩
    · right; left
      simp [encapsulateEvent, hn, h0, length_writeRecord]
    · right; right
      rw [List.concat_eq_append] at hfree
      refine ⟨hn, rest, id, hfree, ?_⟩
      simp [encapsulateEvent, hn, hfree, length_writeRecord]
  · left
    simp only [Bool.not_eq_true] at hn
    simp [encapsulateEvent, hn, length_writeRecord]

/-! ### Logs: appending one entry -/

theorem concat_eq_append_cons {α : Type} {l a b : List α} {x y : α}
    (h : l ++ [x] = a ++ y :: b) :
    (∃ b', b = b' ++ [x] ∧ l = a ++ y :: b') ∨ (b = [] ∧ l = a ∧ x = y) := by
  rcases List.eq_nil_or_concat b with hb | ⟨b', x', hb⟩
  · right
    subst hb
    have := List.append_inj' h rfl
    simp only [List.cons.injEq, and_true] at this
    exact ⟨rfl, this.1, this.2⟩
  · left
    rw [List.concat_eq_append] at hb
    subst hb
    have h2 : l ++ [x] = (a ++ y :: b') ++ [x'] := by simpa using h
    have := List.append_inj' h2 rfl
    simp only [List.cons.injEq, and_true] at this
    exact ⟨b', by rw [this.2], this.1⟩

theorem outstanding_append (log l : List LogItem) :
    outstanding (log ++ l) = l.foldl outstandingStep (outstanding log) := by
  simp [outstanding, List.foldl_append]

theorem allReleased_append_one {log : List LogItem} {id : Nat} {x : LogItem}
    (h : AllReleased log id) (hx : x ≠ LogItem.notified id) : AllReleased (log ++ [x]) id := by
  intro a b hab
  rcases concat_eq_append_cons hab with ⟨b', rfl, hl⟩ | ⟨_, _, hxy⟩
  · exact List.mem_append_left _ (h a b' hl)
  · exact absurd hxy hx

theorem allReleased_append_released (log : List LogItem) (id : Nat) :
    AllReleased (log ++ [LogItem.released id]) id := by
  intro a b hab
  rcases concat_eq_append_cons hab with ⟨b', rfl, _⟩ | ⟨_, _, hxy⟩
  · simp
  · simp [LogItem.notified] at hxy

theorem stillFilling_append_one {log : List LogItem} {id : Nat} {x : LogItem}
    (h : StillFilling log id) (hx : LogItem.isLeave x = false) :
    StillFilling (log ++ [x]) id := by
  intro a b hab
  rcases concat_eq_append_cons hab with ⟨b', rfl, hl⟩ | ⟨hb, _, _⟩
  · rcases h a b' hl with hr | hn
    · exact Or.inl (List.mem_append_left _ hr)
    · right
      intro z hz
      rcases List.mem_append.1 hz with hz | hz
      · exact hn z hz
      · simp only [List.mem_singleton] at hz; rw [hz]; exact hx
  · subst hb; right; intro z hz; simp at hz

theorem stillFilling_append_notified {log : List LogItem} {id : Nat}
    (h : AllReleased log id) : StillFilling (log ++ [LogItem.notified id]) id := by
  intro a b hab
  rcases concat_eq_append_cons hab with ⟨b', rfl, hl⟩ | ⟨hb, _, _⟩
  · exact Or.inl (List.mem_append_left _ (h a b' hl))
  · subst hb; right; intro z hz; simp at hz

theorem handoff_append_one {log : List LogItem} {x : LogItem}
    (h : Handoff log) (hx : ∀ p evt, x ≠ LogItem.written p evt) : Handoff (log ++ [x]) := by
  intro a b c id off evt hab
  rcases concat_eq_append_cons hab with ⟨t, ht, hl⟩ | ⟨ht, _, _⟩
  · rcases concat_eq_append_cons ht.symm with ⟨c', _, ht'⟩ | ⟨_, _, hxy⟩
    · subst ht'; exact h a b c' id off evt hl
    · exact absurd hxy (hx _ _)
  · simp at ht

theorem handoff_append_written {log : List LogItem} {id off : Nat} {evt : SDL_Event}
    (h : Handoff log) (hf : StillFilling log id) :
    Handoff (log ++ [LogItem.written ⟨id, off⟩ evt]) := by
  intro a b c id' off' evt' hab
  rcases concat_eq_append_cons hab with ⟨t, ht, hl⟩ | ⟨ht, _, _⟩
  · rcases concat_eq_append_cons ht.symm with ⟨c', _, ht'⟩ | ⟨_, hb, hxy⟩
    · subst ht'; exact h a b c' id' off' evt' hl
    · simp only [LogItem.written, LogItem.effect.injEq, Effect.memcpy.injEq,
        EventPtr.mk.injEq] at hxy
      obtain ⟨⟨hid, _⟩, _⟩ := hxy
      subst hid hb
      exact hf a t hl
  · simp at ht

/-! ### The run invariant is kept by every call -/

theorem runInv_samePool {s t : SdlInputHandler} {log : List LogItem}
    (h : RunInv s log) (hp : SamePool s t) : RunInv t log := by
  obtain ⟨h1, h2, h3⟩ := hp
  exact
    { freeNodup := by rw [h2]; exact h.freeNodup
      outNodup := h.outNodup
      disjoint := by rw [h2]; exact h.disjoint
      covers := by rw [h1, h2]; exact h.covers
      count := by rw [h1, h2]; exact h.count
      allReleased := h.allReleased
      filling := by rw [h1, h3]; exact h.filling
      handoff := h.handoff }

theorem notified_isLeave (id : Nat) : LogItem.isLeave (LogItem.notified id) = true := rfl

theorem runInv_append_quiet {s : SdlInputHandler} {log : List LogItem} {x : LogItem}
    (hout : ∀ out, outstandingStep out x = out) (hleave : LogItem.isLeave x = false)
    (hw : ∀ p evt, x ≠ LogItem.written p evt) (h : RunInv s log) : RunInv s (log ++ [x]) := by
  have ho : outstanding (log ++ [x]) = outstanding log := by
    rw [outstanding_append]; simp [hout]
  have hn : ∀ id, x ≠ LogItem.notified id := by
    intro id hx
    rw [hx, notified_isLeave] at hleave
    exact Bool.noConfusion hleave
  exact
    { freeNodup := h.freeNodup
      outNodup := by rw [ho]; exact h.outNodup
      disjoint := by rw [ho]; exact h.disjoint
      covers := by rw [ho]; exact h.covers
      count := by rw [ho]; exact h.count
      allReleased := by
        rw [ho]; intro id hid
        exact allReleased_append_one (h.allReleased id hid) (hn id)
      filling := fun hc => stillFilling_append_one (h.filling hc) hleave
      handoff := handoff_append_one h.handoff hw }

theorem effect_quiet {e : Effect} (he : Effect.isPool e = false) :
    (∀ out, outstandingStep out (LogItem.effect e) = out) ∧
    LogItem.isLeave (LogItem.effect e) = false ∧
    (∀ p evt, LogItem.effect e ≠ LogItem.written p evt) := by
  cases e with
  | memcpy p evt => simp [Effect.isPool] at he
  | queueSendMessage msg =>
    cases msg with
    | SDL_EVENT p => simp [outstandingStep, LogItem.isLeave, LogItem.written]
    | SDL_EVENT_BUFFER_ID_USED id => simp [Effect.isPool] at he
  | _ => simp [outstandingStep, LogItem.isLeave, LogItem.written]

theorem runInv_append_neutral {s : SdlInputHandler} (fx : List Effect) :
    ∀ {log : List LogItem}, (∀ e ∈ fx, Effect.isPool e = false) → RunInv s log →
      RunInv s (log ++ fx.map LogItem.effect) := by
  induction fx with
  | nil => intro log _ h; simpa using h
  | cons e fx ih =>
    intro log hq h
    have he := effect_quiet (hq e (List.mem_cons_self _ _))
    have h1 := runInv_append_quiet he.1 he.2.1 he.2.2 h
    have h2 := ih (fun e' he' => hq e' (List.mem_cons_of_mem _ he')) h1
    simpa using h2

theorem runInv_reset {s : SdlInputHandler} {log : List LogItem} (h : RunInv s log) :
    RunInv { s with mCurrentEventBuffer := s.mEventBuffers.length }
      (log ++ [LogItem.currentReset]) := by
  have ho : outstanding (log ++ [LogItem.currentReset]) = outstanding log := by
    rw [outstanding_append]; rfl
  exact
    { freeNodup := h.freeNodup
      outNodup := by rw [ho]; exact h.outNodup
      disjoint := by rw [ho]; exact h.disjoint
      covers := by rw [ho]; exact h.covers
      count := by rw [ho]; exact h.count
      allReleased := by
        rw [ho]; intro id hid
        exact allReleased_append_one (h.allReleased id hid) (by simp [LogItem.notified])
      filling := fun hc => absurd hc (lt_irrefl _)
      handoff := handoff_append_one h.handoff (by simp [LogItem.written]) }

theorem runInv_release {s : SdlInputHandler} {log : List LogItem} {id : Nat}
    (h : RunInv s log) (hid : id ∈ outstanding log) :
    RunInv (_releaseEventBufferId s id) (log ++ [LogItem.released id]) := by
  have ho : outstanding (log ++ [LogItem.released id]) = (outstanding log).erase id := by
    rw [outstanding_append]; rfl
  have hfree : id ∉ s.mFreeEventBuffers := fun hf => h.disjoint id hf hid
  exact
    { freeNodup := by
        simp only [_releaseEventBufferId]
        exact List.Nodup.append h.freeNodup (List.nodup_singleton id)
          (by
            intro a ha ha'
            simp only [List.mem_singleton] at ha'
            exact hfree (ha' ▸ ha))
      outNodup := by rw [ho]; exact h.outNodup.erase id
      disjoint := by
        rw [ho]
        intro i hi hmem
        simp only [_releaseEventBufferId, List.mem_append, List.mem_singleton] at hi
        rw [h.outNodup.mem_erase_iff] at hmem
        rcases hi with hi | hi
        · exact h.disjoint i hi hmem.2
        · exact hmem.1 hi
      covers := by
        rw [ho]
        intro i
        simp only [_releaseEventBufferId, List.mem_append, List.mem_singleton,
          h.outNodup.mem_erase_iff]
        rw [h.covers i]
        constructor
        · rintro (hi | hi)
          · exact Or.inl (Or.inl hi)
          · by_cases hii : i = id
            · exact Or.inl (Or.inr hii)
            · exact Or.inr ⟨hii, hi⟩
        · rintro ((hi | hi) | hi)
          · exact Or.inl hi
          · exact Or.inr (hi ▸ hid)
          · exact Or.inr hi.2
      count := by
        rw [ho, List.length_erase_of_mem hid]
        have := h.count
        have hpos : 0 < (outstanding log).length := List.length_pos_of_mem hid
        simp only [_releaseEventBufferId, List.length_append, List.length_singleton]
        omega
      allReleased := by
        rw [ho]
        intro id' hid'
        by_cases hii : id' = id
        · subst hii; exact allReleased_append_released log id'
        · have : id' ∉ outstanding log := fun hm =>
            hid' ((h.outNodup.mem_erase_iff).2 ⟨hii, hm⟩)
          exact allReleased_append_one (h.allReleased id' this) (by simp [LogItem.notified])
      filling := fun hc => stillFilling_append_one (h.filling hc) rfl
      handoff := handoff_append_one h.handoff (by simp [LogItem.written]) }

theorem lt_of_needsNewBuffer_false {s : SdlInputHandler} (h : needsNewBuffer s = false) :
    s.mCurrentEventBuffer < s.mEventBuffers.length := by
  simp only [needsNewBuffer, Bool.or_eq_false_iff, decide_eq_false_iff_not, not_le] at h
  exact h.1

theorem runInv_append_written {s : SdlInputHandler} {log : List LogItem} (off : Nat)
    (evt : SDL_Event) (h : RunInv s log) (hc : s.mCurrentEventBuffer < s.mEventBuffers.length) :
    RunInv s (log ++ [LogItem.written ⟨s.mCurrentEventBuffer, off⟩ evt]) := by
  have ho : outstanding (log ++ [LogItem.written ⟨s.mCurrentEventBuffer, off⟩ evt]) =
      outstanding log := by
    rw [outstanding_append]; rfl
  exact
    { freeNodup := h.freeNodup
      outNodup := by rw [ho]; exact h.outNodup
      disjoint := by rw [ho]; exact h.disjoint
      covers := by rw [ho]; exact h.covers
      count := by rw [ho]; exact h.count
      allReleased := by
        rw [ho]; intro id hid
        exact allReleased_append_one (h.allReleased id hid)
          (by simp [LogItem.notified, LogItem.written])
      filling := fun hc' => stillFilling_append_one (h.filling hc') rfl
      handoff := handoff_append_written h.handoff (h.filling hc) }

theorem runInv_notified {s t : SdlInputHandler} {log : List LogItem} {id : Nat}
    (h : RunInv s log) (hid : id ∉ outstanding log) (hnd : t.mFreeEventBuffers.Nodup)
    (hdis : ∀ i, i ∈ t.mFreeEventBuffers → i ∉ outstanding log ∧ i ≠ id)
    (hcov : ∀ i, i < t.mEventBuffers.length ↔
      (i ∈ t.mFreeEventBuffers ∨ i ∈ outstanding log ∨ i = id))
    (hcnt : t.mFreeEventBuffers.length + (outstanding log).length + 1 = t.mEventBuffers.length)
    (hcur : t.mCurrentEventBuffer = id) :
    RunInv t (log ++ [LogItem.notified id]) := by
  have ho : outstanding (log ++ [LogItem.notified id]) = outstanding log ++ [id] := by
    rw [outstanding_append]; rfl
  exact
    { freeNodup := hnd
      outNodup := by
        rw [ho]
        exact List.Nodup.append h.outNodup (List.nodup_singleton id)
          (by
            intro a ha ha'
            simp only [List.mem_singleton] at ha'
            exact hid (ha' ▸ ha))
      disjoint := by
        rw [ho]
        intro i hi hmem
        simp only [List.mem_append, List.mem_singleton] at hmem
        rcases hmem with hm | hm
        · exact (hdis i hi).1 hm
        · exact (hdis i hi).2 hm
      covers := by
        rw [ho]
        intro i
        simp only [List.mem_append, List.mem_singleton]
        exact hcov i
      count := by
        rw [ho]
        simp only [List.length_append, List.length_singleton]
        omega
      allReleased := by
        rw [ho]
        intro id' hid'
        simp only [List.mem_append, List.mem_singleton, not_or] at hid'
        exact allReleased_append_one (h.allReleased id' hid'.1)
          (by
            simp only [LogItem.notified, ne_eq, LogItem.effect.injEq,
              Effect.queueSendMessage.injEq, Message.SDL_EVENT_BUFFER_ID_USED.injEq]
            exact fun hh => hid'.2 hh.symm)
      filling := by
        intro _
        rw [hcur]
        exact stillFilling_append_notified (h.allReleased id hid)
      handoff := handoff_append_one h.handoff (by simp [LogItem.notified, LogItem.written]) }

theorem runInv_encapsulateEvent (sz : Nat) {s : SdlInputHandler} {log : List LogItem}
    (evt : SDL_Event) (h : RunInv s log) :
    RunInv (encapsulateEvent sz s evt).2.1
      (log ++ (encapsulateEvent sz s evt).2.2.map LogItem.effect) := by
  rcases encapsulateEvent_cases sz s evt with
    ⟨hn, hfree, hlen, hcur, hfx⟩ | ⟨_, hnil, hfree, hlen, hcur, hfx⟩ |
    ⟨_, rest, id, hconc, hfree, hlen, hcur, hfx⟩
  · rw [hfx]
    have h1 := runInv_append_written s.mEventBufferOffset evt h (lt_of_needsNewBuffer_false hn)
    exact runInv_samePool h1 ⟨hlen, hfree, hcur⟩
  · rw [hfx]
    have hid : s.mEventBuffers.length ∉ outstanding log := by
      intro hm
      exact lt_irrefl _ ((h.covers _).2 (Or.inr hm))
    have h1 : RunInv (encapsulateEvent sz s evt).2.1
        (log ++ [LogItem.notified s.mEventBuffers.length]) := by
      refine runInv_notified h hid ?_ ?_ ?_ ?_ hcur
      · rw [hfree]; exact List.nodup_nil
      · rw [hfree]; intro i hi; simp at hi
      · intro i
        rw [hfree, hlen]
        have := h.covers i
        rw [hnil] at this
        simp only [List.not_mem_nil, false_or] at this ⊢
        rw [← this]
        omega
      · rw [hfree, hlen]
        have := h.count
        rw [hnil] at this
        simp only [List.length_nil] at this ⊢
        omega
    have h2 := runInv_append_written 0 evt h1 (by rw [hcur, hlen]; exact Nat.lt_succ_self _)
    rw [hcur] at h2
    simpa [LogItem.notified, LogItem.written] using h2
  · rw [hfx]
    have hnd := h.freeNodup
    rw [hconc] at hnd
    have hnd' := List.nodup_append.1 hnd
    have hidfree : id ∈ s.mFreeEventBuffers := by rw [hconc]; simp
    have hid : id ∉ outstanding log := h.disjoint id hidfree
    have h1 : RunInv (encapsulateEvent sz s evt).2.1 (log ++ [LogItem.notified id]) := by
      refine runInv_notified h hid ?_ ?_ ?_ ?_ hcur
      · rw [hfree]; exact hnd'.1
      · rw [hfree]
        intro i hi
        refine ⟨h.disjoint i (by rw [hconc]; exact List.mem_append_left _ hi), ?_⟩
        intro hii
        exact hnd'.2.2 hi (by rw [hii]; simp)
      · intro i
        rw [hfree, hlen, h.covers i, hconc]
        simp only [List.mem_append, List.mem_singleton]
        tauto
      · rw [hfree, hlen]
        have := h.count
        rw [hconc] at this
        simp only [List.length_append, List.length_singleton] at this
        omega
    have hlt : (encapsulateEvent sz s evt).2.1.mCurrentEventBuffer <
        (encapsulateEvent sz s evt).2.1.mEventBuffers.length := by
      rw [hcur, hlen]; exact (h.covers id).2 (Or.inl hidfree)
    have h2 := runInv_append_written 0 evt h1 hlt
    rw [hcur] at h2
    simpa [LogItem.notified, LogItem.written] using h2

theorem updateMouseSettings_samePool (s : SdlInputHandler) (env : SdlEnv) :
    SamePool s (updateMouseSettings s env).1 := by
  unfold updateMouseSettings SamePool
  simp only []
  split_ifs <;> exact ⟨rfl, rfl, rfl⟩

theorem updateMouseSettings_neutral (s : SdlInputHandler) (env : SdlEnv) :
    ∀ e ∈ (updateMouseSettings s env).2, Effect.isPool e = false := by
  unfold updateMouseSettings
  simp only []
  split_ifs <;> simp [Effect.isPool]

theorem handleWindowEvent_samePool (s : SdlInputHandler) (event : WindowEventID) (env : SdlEnv) :
    SamePool s (handleWindowEvent s event env).1 := by
  cases event <;> first
    | exact updateMouseSettings_samePool _ env
    | exact ⟨rfl, rfl, rfl⟩

theorem handleWindowEvent_neutral (s : SdlInputHandler) (event : WindowEventID) (env : SdlEnv) :
    ∀ e ∈ (handleWindowEvent s event env).2, Effect.isPool e = false := by
  cases event <;> first
    | exact updateMouseSettings_neutral _ env
    | (intro e he; simp [handleWindowEvent] at he)

theorem wrapMousePointer_samePool (s : SdlInputHandler) (x y : Int) (env : SdlEnv) :
    SamePool s (wrapMousePointer s x y env).1 := by
  unfold wrapMousePointer warpMouse SamePool
  simp only []
  split_ifs <;> exact ⟨rfl, rfl, rfl⟩

theorem wrapMousePointer_neutral (s : SdlInputHandler) (x y : Int) (env : SdlEnv) :
    ∀ e ∈ (wrapMousePointer s x y env).2, Effect.isPool e = false := by
  unfold wrapMousePointer warpMouse
  simp only []
  split_ifs <;> simp [Effect.isPool]

theorem handleWarpMotion_samePool (s : SdlInputHandler) (x y : Int) :
    SamePool s (handleWarpMotion s x y).2 := by
  unfold handleWarpMotion SamePool
  split_ifs <;> exact ⟨rfl, rfl, rfl⟩

theorem callIf_neutral (c : Bool) (e : Effect) (he : Effect.isPool e = false) :
    ∀ e' ∈ callIf c e, Effect.isPool e' = false := by
  intro e' h'
  unfold callIf at h'
  split_ifs at h'
  · simp only [List.mem_singleton] at h'; rw [h']; exact he
  · simp at h'

theorem samePool_trans {s t u : SdlInputHandler} (h1 : SamePool s t) (h2 : SamePool t u) :
    SamePool s u :=
  ⟨h2.1.trans h1.1, h2.2.1.trans h1.2.1, h2.2.2.trans h1.2.2⟩

theorem runInv_forwardToLogic (sz : Nat) {s : SdlInputHandler} {log : List LogItem}
    (evt : SDL_Event) (h : RunInv s log) :
    RunInv (forwardToLogic sz s evt).1
      (log ++ (forwardToLogic sz s evt).2.map LogItem.effect) := by
  unfold forwardToLogic
  split_ifs
  · have h1 := runInv_encapsulateEvent sz evt h
    have h2 := runInv_append_neutral
      [Effect.queueSendMessage (Message.SDL_EVENT (encapsulateEvent sz s evt).1)]
      (by simp [Effect.isPool]) h1
    simpa using h2
  · simpa using h

/-- Listener and SDL calls first, on a state with the same pool, then the forward. -/
theorem runInv_then_forward (sz : Nat) {s s1 : SdlInputHandler} {log : List LogItem}
    (evt : SDL_Event) (fx : List Effect) (h : RunInv s log) (hp : SamePool s s1)
    (hq : ∀ e ∈ fx, Effect.isPool e = false) :
    RunInv (forwardToLogic sz s1 evt).1
      (log ++ (fx ++ (forwardToLogic sz s1 evt).2).map LogItem.effect) := by
  have h1 := runInv_samePool (runInv_append_neutral fx hq h) hp
  have h2 := runInv_forwardToLogic sz evt h1
  simpa using h2

theorem runInv_dispatch (sz : Nat) {s : SdlInputHandler} {log : List LogItem}
    (evt : SDL_Event) (env : SdlEnv) (h : RunInv s log) :
    RunInv (dispatch sz s evt env).1 (log ++ (dispatch sz s evt env).2.map LogItem.effect) := by
  have hs : SamePool s s := ⟨rfl, rfl, rfl⟩
  cases evt with
  | SDL_MOUSEMOTION x y =>
    simp only [dispatch]
    split_ifs with h1 h2
    · dsimp only
      refine runInv_then_forward sz _ _ h
        (samePool_trans (handleWarpMotion_samePool s x y) (wrapMousePointer_samePool _ x y env)) ?_
      intro e he
      rcases List.mem_append.1 he with he | he
      · exact callIf_neutral _ _ (by rfl) e he
      · exact wrapMousePointer_neutral _ x y env e he
    · dsimp only
      rw [List.append_nil]
      exact runInv_then_forward sz _ _ h (handleWarpMotion_samePool s x y)
        (callIf_neutral _ _ (by rfl))
    · simpa using runInv_samePool h (handleWarpMotion_samePool s x y)
  | SDL_WINDOWEVENT event =>
    exact runInv_samePool (runInv_append_neutral _ (handleWindowEvent_neutral s event env) h)
      (handleWindowEvent_samePool s event env)
  | SDL_JOYDEVICEADDED which => simpa [dispatch] using h
  | SDL_JOYDEVICEREMOVED which => simpa [dispatch] using h
  | unlisted type => simpa [dispatch] using h
  | _ => exact runInv_then_forward sz _ _ h hs (callIf_neutral _ _ (by rfl))

theorem runInv_step (sz : Nat) {s : SdlInputHandler} {log : List LogItem} (a : Action)
    (h : RunInv s log) (ha : allowed log a = true) :
    RunInv (step sz s a).1 (log ++ stepLog sz s a) := by
  cases a with
  | handleSdlEvents evt env =>
    have h1 := runInv_reset (runInv_dispatch sz evt env h)
    simpa [step, stepLog, _handleSdlEvents] using h1
  | encapsulateEvent evt => exact runInv_encapsulateEvent sz evt h
  | releaseEventBufferId id =>
    simp only [allowed, decide_eq_true_eq] at ha
    exact runInv_release h ha
  | setGrabMousePointer grab env =>
    exact runInv_samePool (runInv_append_neutral _ (updateMouseSettings_neutral _ env) h)
      (samePool_trans ⟨rfl, rfl, rfl⟩ (updateMouseSettings_samePool _ env))
  | setMouseRelative relative env =>
    exact runInv_samePool (runInv_append_neutral _ (updateMouseSettings_neutral _ env) h)
      (samePool_trans ⟨rfl, rfl, rfl⟩ (updateMouseSettings_samePool _ env))
  | setMouseVisible visible env =>
    exact runInv_samePool (runInv_append_neutral _ (updateMouseSettings_neutral _ env) h)
      (samePool_trans ⟨rfl, rfl, rfl⟩ (updateMouseSettings_samePool _ env))
  | setLogicSystem attached =>
    have h1 : RunInv s (log ++ stepLog sz s (Action.setLogicSystem attached)) := by
      simpa [stepLog, step] using h
    exact runInv_samePool h1 ⟨rfl, rfl, rfl⟩

theorem runInv_run (sz : Nat) (acts : List Action) :
    ∀ (s : SdlInputHandler) (log : List LogItem), RunInv s log →
      followsProtocol sz s log acts = true →
      RunInv (exec sz s acts) (log ++ runLog sz s acts) := by
  induction acts with
  | nil => intro s log h _; simpa [exec, runLog] using h
  | cons a as ih =>
    intro s log h hp
    simp only [followsProtocol, Bool.and_eq_true] at hp
    have h1 := ih _ _ (runInv_step sz a h hp.1) hp.2
    simpa [exec, runLog, List.append_assoc] using h1

theorem runInv_ctor (mouseListener keyboardListener joystickListener : Bool) :
    RunInv (ctor mouseListener keyboardListener joystickListener) [] :=
  { freeNodup := List.nodup_nil
    outNodup := List.nodup_nil
    disjoint := by intro i hi; simp [ctor] at hi
    covers := by intro i; simp [ctor, outstanding]
    count := rfl
    allReleased := by intro id _ a b hab; simp at hab
    filling := by intro hc; simp [ctor] at hc
    handoff := by intro a b c id off evt hab; simp at hab }

theorem runInv_of_protocol (sz : Nat) (mouseListener keyboardListener joystickListener : Bool)
    (acts : List Action)
    (hp : followsProtocol sz (ctor mouseListener keyboardListener joystickListener) [] acts = true) :
    RunInv (exec sz (ctor mouseListener keyboardListener joystickListener) acts)
      (runLog sz (ctor mouseListener keyboardListener joystickListener) acts) := by
  simpa using runInv_run sz acts _ [] (runInv_ctor _ _ _) hp

/-- C3: from the constructor's state, after every sequence of calls (routed events,
`encapsulateEvent`, the setters, and `_releaseEventBufferId(id)` only for an `id`
that is outstanding, that is notified as in use and not released since), the free
list has no duplicates, every slot index below `mEventBuffers.size()` is in the
free list or outstanding and never both, and the two lists together have
`mEventBuffers.size()` entries. -/
theorem C3_pool_partition (sz : Nat) (mouseListener keyboardListener joystickListener : Bool)
    (acts : List Action)
    (hp : followsProtocol sz (ctor mouseListener keyboardListener joystickListener) [] acts = true) :
    PoolPartition (exec sz (ctor mouseListener keyboardListener joystickListener) acts)
      (outstanding (runLog sz (ctor mouseListener keyboardListener joystickListener) acts)) := by
  have h := runInv_of_protocol sz mouseListener keyboardListener joystickListener acts hp
  refine ⟨h.freeNodup, ?_, h.count⟩
  intro i hi
  exact ⟨(h.covers i).1 hi, fun hboth => h.disjoint i hboth.1 hboth.2⟩

/-- C3 at a run that allocates two slots, releases the first and takes it again. -/
theorem C3_pool_partition_witness :
    followsProtocol 56 (ctor true true true) []
      [Action.setLogicSystem true,
       Action.handleSdlEvents (SDL_Event.SDL_KEYDOWN 4 0) ⟨0, 800, 600⟩,
       Action.encapsulateEvent (SDL_Event.SDL_TEXTINPUT [97]),
       Action.releaseEventBufferId 0,
       Action.handleSdlEvents (SDL_Event.SDL_KEYUP 4 0) ⟨0, 800, 600⟩] = true ∧
    PoolPartition
      (exec 56 (ctor true true true)
        [Action.setLogicSystem true,
         Action.handleSdlEvents (SDL_Event.SDL_KEYDOWN 4 0) ⟨0, 800, 600⟩,
         Action.encapsulateEvent (SDL_Event.SDL_TEXTINPUT [97]),
         Action.releaseEventBufferId 0,
         Action.handleSdlEvents (SDL_Event.SDL_KEYUP 4 0) ⟨0, 800, 600⟩])
      (outstanding (runLog 56 (ctor true true true)
        [Action.setLogicSystem true,
         Action.handleSdlEvents (SDL_Event.SDL_KEYDOWN 4 0) ⟨0, 800, 600⟩,
         Action.encapsulateEvent (SDL_Event.SDL_TEXTINPUT [97]),
         Action.releaseEventBufferId 0,
         Action.handleSdlEvents (SDL_Event.SDL_KEYUP 4 0) ⟨0, 800, 600⟩])) :=
  ⟨by decide, C3_pool_partition 56 true true true _ (by decide)⟩

/-- C5, amended: in the log of every run that follows the release protocol, a write
into slot `id` that comes after a `slot in use` notification for `id` comes after
a release of `id`, or else the router has been filling `id` since that notification
(no other notification and no reset of `mCurrentEventBuffer` in between). -/
theorem C5_handoff (sz : Nat) (mouseListener keyboardListener joystickListener : Bool)
    (acts : List Action)
    (hp : followsProtocol sz (ctor mouseListener keyboardListener joystickListener) [] acts = true) :
    Handoff (runLog sz (ctor mouseListener keyboardListener joystickListener) acts) :=
  (runInv_of_protocol sz mouseListener keyboardListener joystickListener acts hp).handoff

/-- C5 at a run with a release and a slot taken again. -/
theorem C5_handoff_witness :
    followsProtocol 56 (ctor true true true) []
      [Action.setLogicSystem true,
       Action.handleSdlEvents (SDL_Event.SDL_KEYDOWN 4 0) ⟨0, 800, 600⟩,
       Action.releaseEventBufferId 0,
       Action.handleSdlEvents (SDL_Event.SDL_KEYUP 4 0) ⟨0, 800, 600⟩] = true ∧
    Handoff (runLog 56 (ctor true true true)
      [Action.setLogicSystem true,
       Action.handleSdlEvents (SDL_Event.SDL_KEYDOWN 4 0) ⟨0, 800, 600⟩,
       Action.releaseEventBufferId 0,
       Action.handleSdlEvents (SDL_Event.SDL_KEYUP 4 0) ⟨0, 800, 600⟩]) :=
  ⟨by decide, C5_handoff 56 true true true _ (by decide)⟩

/-- C5 as stated fails: routing one key press with the logic system attached sends
the notification for slot 0 and then writes the event into slot 0, with no release
in between. -/
theorem C5_strict_handoff_fails :
    ¬ StrictHandoff (runLog 56 (ctor true true true)
      [Action.setLogicSystem true,
       Action.handleSdlEvents (SDL_Event.SDL_KEYDOWN 4 0) ⟨0, 800, 600⟩]) := by
  intro h
  have h1 := h [LogItem.effect (Effect.keyPressed (SDL_Event.SDL_KEYDOWN 4 0))] []
    [LogItem.effect (Effect.queueSendMessage (Message.SDL_EVENT ⟨0, 0⟩)), LogItem.currentReset]
    0 0 (SDL_Event.SDL_KEYDOWN 4 0) (by decide)
  simp at h1

/-! ### Releasing after the fact -/

theorem notifiedIds_append (fx gx : List Effect) :
    notifiedIds (fx ++ gx) = notifiedIds fx ++ notifiedIds gx := by
  simp [notifiedIds]

theorem foldl_outstanding_effects (fx : List Effect) :
    ∀ out : List Nat,
      (fx.map LogItem.effect).foldl outstandingStep out = out ++ notifiedIds fx := by
  induction fx with
  | nil => intro out; simp [notifiedIds]
  | cons e fx ih =>
    intro out
    simp only [List.map_cons, List.foldl_cons, ih]
    cases e with
    | queueSendMessage msg =>
      cases msg with
      | SDL_EVENT p => simp [outstandingStep, notifiedIds]
      | SDL_EVENT_BUFFER_ID_USED id => simp [outstandingStep, notifiedIds]
    | _ => simp [outstandingStep, notifiedIds]

theorem foldl_outstanding_stepLog (sz : Nat) (s : SdlInputHandler) (a : Action)
    (ha : ∀ id, a ≠ Action.releaseEventBufferId id) (out : List Nat) :
    (stepLog sz s a).foldl outstandingStep out = out ++ notifiedIds (step sz s a).2 := by
  cases a with
  | releaseEventBufferId id => exact absurd rfl (ha id)
  | handleSdlEvents evt env =>
    simp only [stepLog, List.foldl_append, foldl_outstanding_effects]
    rfl
  | _ => simp only [stepLog, foldl_outstanding_effects]

theorem outstanding_releaseFree (sz : Nat) (acts : List Action) :
    ∀ (s : SdlInputHandler) (log : List LogItem),
      (∀ a ∈ acts, ∀ id, a ≠ Action.releaseEventBufferId id) →
      outstanding (log ++ runLog sz s acts) = outstanding log ++ notifiedIds (execFx sz s acts) := by
  induction acts with
  | nil => intro s log _; simp [runLog, execFx, notifiedIds]
  | cons a as ih =>
    intro s log h
    have h1 := ih (step sz s a).1 (log ++ stepLog sz s a)
      (fun b hb => h b (List.mem_cons_of_mem _ hb))
    simp only [runLog, execFx, notifiedIds_append, ← List.append_assoc]
    rw [h1, outstanding_append log, foldl_outstanding_stepLog sz s a (h a (List.mem_cons_self _ _))]

theorem followsProtocol_append (sz : Nat) (as bs : List Action) :
    ∀ (s : SdlInputHandler) (log : List LogItem),
      followsProtocol sz s log (as ++ bs) =
        (followsProtocol sz s log as &&
          followsProtocol sz (exec sz s as) (log ++ runLog sz s as) bs) := by
  induction as with
  | nil => intro s log; simp [followsProtocol, exec, runLog]
  | cons a as ih =>
    intro s log
    simp only [List.cons_append, followsProtocol, exec, runLog, List.append_eq, ih,
      Bool.and_assoc, List.append_assoc]

theorem followsProtocol_releaseFree (sz : Nat) (acts : List Action) :
    ∀ (s : SdlInputHandler) (log : List LogItem),
      (∀ a ∈ acts, ∀ id, a ≠ Action.releaseEventBufferId id) →
      followsProtocol sz s log acts = true := by
  induction acts with
  | nil => intro s log _; rfl
  | cons a as ih =>
    intro s log h
    simp only [followsProtocol, Bool.and_eq_true]
    refine ⟨?_, ih _ _ (fun b hb => h b (List.mem_cons_of_mem _ hb))⟩
    have ha := h a (List.mem_cons_self _ _)
    cases a with
    | releaseEventBufferId id => exact absurd rfl (ha id)
    | _ => rfl

theorem exec_append (sz : Nat) (as bs : List Action) :
    ∀ s : SdlInputHandler, exec sz s (as ++ bs) = exec sz (exec sz s as) bs := by
  induction as with
  | nil => intro s; rfl
  | cons a as ih => intro s; simp only [List.cons_append, exec, List.append_eq, ih]

theorem runLog_append (sz : Nat) (as bs : List Action) :
    ∀ s : SdlInputHandler,
      runLog sz s (as ++ bs) = runLog sz s as ++ runLog sz (exec sz s as) bs := by
  induction as with
  | nil => intro s; rfl
  | cons a as ih =>
    intro s
    simp only [List.cons_append, exec, runLog, List.append_eq, ih, List.append_assoc]

theorem outstanding_releases (sz : Nat) (rels : List Nat) :
    ∀ (s : SdlInputHandler) (log : List LogItem),
      outstanding (log ++ runLog sz s (rels.map Action.releaseEventBufferId)) =
        rels.foldl List.erase (outstanding log) := by
  induction rels with
  | nil => intro s log; simp [runLog]
  | cons r rs ih =>
    intro s log
    have h1 := ih (step sz s (Action.releaseEventBufferId r)).1 (log ++ [LogItem.released r])
    simp only [List.map_cons, runLog, stepLog, List.foldl_cons, ← List.append_assoc]
    rw [h1, outstanding_append]
    rfl

theorem mem_foldl_erase {id : Nat} (rels : List Nat) :
    ∀ l : List Nat, id ∈ l → id ∉ rels → id ∈ rels.foldl List.erase l := by
  induction rels with
  | nil => intro l h _; exact h
  | cons r rs ih =>
    intro l h hn
    simp only [List.mem_cons, not_or] at hn
    exact ih _ ((List.mem_erase_of_ne hn.1).2 h) hn.2

theorem foldl_erase_of_perm (rels : List Nat) :
    ∀ l : List Nat, rels.Perm l → rels.foldl List.erase l = [] := by
  induction rels with
  | nil => intro l h; simpa using h.symm.eq_nil
  | cons r rs ih =>
    intro l h
    have h1 := h.erase r
    rw [List.erase_cons_head] at h1
    exact ih _ h1

theorem followsProtocol_releases (sz : Nat) (rels : List Nat) :
    ∀ (s : SdlInputHandler) (log : List LogItem), rels.Nodup →
      (∀ id ∈ rels, id ∈ outstanding log) →
      followsProtocol sz s log (rels.map Action.releaseEventBufferId) = true := by
  induction rels with
  | nil => intro s log _ _; rfl
  | cons r rs ih =>
    intro s log hnd hmem
    rw [List.nodup_cons] at hnd
    simp only [List.map_cons, followsProtocol, allowed, Bool.and_eq_true, decide_eq_true_eq]
    refine ⟨hmem r (List.mem_cons_self _ _), ih _ _ hnd.2 ?_⟩
    intro id hid
    have ho : outstanding (log ++ stepLog sz s (Action.releaseEventBufferId r)) =
        (outstanding log).erase r := by
      rw [outstanding_append]; rfl
    rw [ho]
    refine (List.mem_erase_of_ne ?_).2 (hmem id (List.mem_cons_of_mem _ hid))
    rintro rfl
    exact hnd.1 hid

/-- Under the release protocol the destructor's condition holds exactly when
nothing is outstanding. -/
theorem dtorAssert_iff_outstanding (sz : Nat)
    (mouseListener keyboardListener joystickListener : Bool) (acts : List Action)
    (hp : followsProtocol sz (ctor mouseListener keyboardListener joystickListener) [] acts = true) :
    (outstanding (runLog sz (ctor mouseListener keyboardListener joystickListener) acts) = [] →
      dtorAssert (exec sz (ctor mouseListener keyboardListener joystickListener) acts) = true) ∧
    (outstanding (runLog sz (ctor mouseListener keyboardListener joystickListener) acts) ≠ [] →
      dtorAssert (exec sz (ctor mouseListener keyboardListener joystickListener) acts) = false) := by
  have h := (runInv_of_protocol sz mouseListener keyboardListener joystickListener acts hp).count
  constructor
  · intro h0
    rw [h0] at h
    simpa [dtorAssert] using h
  · intro h0
    have hpos := List.length_pos.2 h0
    simp only [dtorAssert, beq_eq_false_iff_ne, ne_eq]
    omega

/-- Releases of distinct notified slots after a run without releases: the whole run
follows the protocol, and what is outstanding at the end is what was notified less
what was released. -/
theorem release_afterwards (sz : Nat) (mouseListener keyboardListener joystickListener : Bool)
    (acts : List Action) (rels : List Nat)
    (hacts : ∀ a ∈ acts, ∀ id, a ≠ Action.releaseEventBufferId id)
    (hnd : rels.Nodup)
    (hsub : ∀ id ∈ rels,
      id ∈ notifiedIds (execFx sz (ctor mouseListener keyboardListener joystickListener) acts)) :
    followsProtocol sz (ctor mouseListener keyboardListener joystickListener) []
      (acts ++ rels.map Action.releaseEventBufferId) = true ∧
    outstanding (runLog sz (ctor mouseListener keyboardListener joystickListener)
      (acts ++ rels.map Action.releaseEventBufferId)) =
      rels.foldl List.erase
        (notifiedIds (execFx sz (ctor mouseListener keyboardListener joystickListener) acts)) := by
  have hout : outstanding (runLog sz (ctor mouseListener keyboardListener joystickListener) acts) =
      notifiedIds (execFx sz (ctor mouseListener keyboardListener joystickListener) acts) := by
    have := outstanding_releaseFree sz acts
      (ctor mouseListener keyboardListener joystickListener) [] hacts
    simpa [outstanding] using this
  constructor
  · rw [followsProtocol_append, followsProtocol_releaseFree sz acts _ _ hacts, Bool.true_and]
    refine followsProtocol_releases sz rels _ _ hnd ?_
    intro id hid
    rw [List.nil_append, hout]
    exact hsub id hid
  · rw [runLog_append, outstanding_releases, hout]

/-- C10: (1) for every sequence of routed events, `encapsulateEvent` calls and
setter calls without a release, if the consumer afterwards calls
`_releaseEventBufferId` exactly once for each slot id it was notified of and for no
other id (`rels` is a permutation of the notified ids), then
`mFreeEventBuffers.size() == mEventBuffers.size()`, the destructor's assertion
holds; and if the released ids are distinct notified ids but some notified slot is
not among them, the assertion fails. (2) The same for releases interleaved with the
other calls: after every sequence of calls that follows the release protocol, the
assertion holds when no notified slot is outstanding and fails when one is. -/
theorem C10_teardown_assertion (sz : Nat)
    (mouseListener keyboardListener joystickListener : Bool) :
    (∀ (acts : List Action) (rels : List Nat),
      (∀ a ∈ acts, ∀ id, a ≠ Action.releaseEventBufferId id) →
      (rels.Perm
          (notifiedIds (execFx sz (ctor mouseListener keyboardListener joystickListener) acts)) →
        dtorAssert (exec sz (ctor mouseListener keyboardListener joystickListener)
          (acts ++ rels.map Action.releaseEventBufferId)) = true) ∧
      (rels.Nodup →
        (∀ id ∈ rels, id ∈
          notifiedIds (execFx sz (ctor mouseListener keyboardListener joystickListener) acts)) →
        (∃ id ∈ notifiedIds (execFx sz (ctor mouseListener keyboardListener joystickListener) acts),
          id ∉ rels) →
        dtorAssert (exec sz (ctor mouseListener keyboardListener joystickListener)
          (acts ++ rels.map Action.releaseEventBufferId)) = false)) ∧
    (∀ acts : List Action,
      followsProtocol sz (ctor mouseListener keyboardListener joystickListener) [] acts = true →
      (outstanding (runLog sz (ctor mouseListener keyboardListener joystickListener) acts) = [] →
        dtorAssert (exec sz (ctor mouseListener keyboardListener joystickListener) acts) = true) ∧
      (outstanding (runLog sz (ctor mouseListener keyboardListener joystickListener) acts) ≠ [] →
        dtorAssert (exec sz (ctor mouseListener keyboardListener joystickListener) acts)
          = false)) := by
  refine ⟨?_, fun acts hp => dtorAssert_iff_outstanding sz _ _ _ acts hp⟩
  intro acts rels hacts
  have hout : outstanding (runLog sz (ctor mouseListener keyboardListener joystickListener) acts) =
      notifiedIds (execFx sz (ctor mouseListener keyboardListener joystickListener) acts) := by
    have := outstanding_releaseFree sz acts
      (ctor mouseListener keyboardListener joystickListener) [] hacts
    simpa [outstanding] using this
  have hndn : (notifiedIds
      (execFx sz (ctor mouseListener keyboardListener joystickListener) acts)).Nodup := by
    rw [← hout]
    exact (runInv_of_protocol sz _ _ _ acts (followsProtocol_releaseFree sz acts _ _ hacts)).outNodup
  constructor
  · intro hperm
    obtain ⟨hp, ho⟩ := release_afterwards sz mouseListener keyboardListener joystickListener
      acts rels hacts (hperm.nodup_iff.2 hndn) (fun id hid => hperm.subset hid)
    refine (dtorAssert_iff_outstanding sz _ _ _ _ hp).1 ?_
    rw [ho]
    exact foldl_erase_of_perm rels _ hperm
  · intro hnd hsub ⟨id, hid, hnot⟩
    obtain ⟨hp, ho⟩ := release_afterwards sz mouseListener keyboardListener joystickListener
      acts rels hacts hnd hsub
    refine (dtorAssert_iff_outstanding sz _ _ _ _ hp).2 ?_
    rw [ho]
    exact List.ne_nil_of_mem (mem_foldl_erase rels _ hid hnot)

/-- C10 at a run of two routed events whose two slots are then released, in the
other order: the assertion holds. -/
theorem C10_teardown_assertion_witness :
    (∀ a ∈ [Action.setLogicSystem true,
        Action.handleSdlEvents (SDL_Event.SDL_KEYDOWN 4 0) ⟨0, 800, 600⟩,
        Action.handleSdlEvents (SDL_Event.SDL_KEYUP 4 0) ⟨0, 800, 600⟩],
      ∀ id, a ≠ Action.releaseEventBufferId id) ∧
    [1, 0].Perm (notifiedIds (execFx 56 (ctor true true true)
      [Action.setLogicSystem true,
       Action.handleSdlEvents (SDL_Event.SDL_KEYDOWN 4 0) ⟨0, 800, 600⟩,
       Action.handleSdlEvents (SDL_Event.SDL_KEYUP 4 0) ⟨0, 800, 600⟩])) ∧
    dtorAssert (exec 56 (ctor true true true)
      ([Action.setLogicSystem true,
        Action.handleSdlEvents (SDL_Event.SDL_KEYDOWN 4 0) ⟨0, 800, 600⟩,
        Action.handleSdlEvents (SDL_Event.SDL_KEYUP 4 0) ⟨0, 800, 600⟩] ++
       [1, 0].map Action.releaseEventBufferId)) = true :=
  ⟨by simp, by decide,
    ((C10_teardown_assertion 56 true true true).1 _ [1, 0] (by simp)).1 (by decide)⟩

/-! ## Routing and forwarding -/

theorem readRecord_writeRecord (bufs : List EventBuffer) (p : EventPtr) (evt : SDL_Event)
    (h : p.slot < bufs.length) : readRecord (writeRecord bufs p evt) p = some evt := by
  simp [readRecord, writeRecord, List.getElem?_modify_eq, List.getElem?_eq_getElem h]

theorem encapsulateEvent_read (sz : Nat) (s : SdlInputHandler) (evt : SDL_Event)
    (hfree : ∀ id ∈ s.mFreeEventBuffers, id < s.mEventBuffers.length) :
    readRecord (encapsulateEvent sz s evt).2.1.mEventBuffers (encapsulateEvent sz s evt).1 =
      some evt := by
  by_cases hn : needsNewBuffer s = true
  · rcases List.eq_nil_or_concat s.mFreeEventBuffers with h0 | ⟨rest, id, hconc⟩
    · simp only [encapsulateEvent, hn, h0, if_true, List.isEmpty_nil, List.nil_append]
      exact readRecord_writeRecord _ _ _ (by simp)
    · rw [List.concat_eq_append] at hconc
      have hid : id < s.mEventBuffers.length := hfree id (by rw [hconc]; simp)
      have hemp : s.mFreeEventBuffers.isEmpty = false := by rw [hconc]; simp
      simp only [encapsulateEvent, hn, hemp, if_true, Bool.false_eq_true, if_false]
      refine readRecord_writeRecord _ _ _ ?_
      simp only [hconc, List.getLastD_concat]
      exact hid
  · simp only [Bool.not_eq_true] at hn
    simp only [encapsulateEvent, hn]
    exact readRecord_writeRecord _ _ _ (lt_of_needsNewBuffer_false hn)

theorem encapsulateEvent_forwarded (sz : Nat) (s : SdlInputHandler) (evt : SDL_Event) :
    forwarded (encapsulateEvent sz s evt).2.2 = [] := by
  unfold encapsulateEvent
  simp only []
  split_ifs <;> simp [forwarded]

theorem forwarded_append (fx gx : List Effect) :
    forwarded (fx ++ gx) = forwarded fx ++ forwarded gx := by
  simp [forwarded]

theorem listenerCalls_append (fx gx : List Effect) :
    listenerCalls (fx ++ gx) = listenerCalls fx ++ listenerCalls gx := by
  simp [listenerCalls]

theorem forwarded_callIf (c : Bool) (e : Effect) (h : forwarded [e] = []) :
    forwarded (callIf c e) = [] := by
  unfold callIf; split_ifs
  · exact h
  · rfl

/-- With the logic system attached, the forward block sends one `SDL_EVENT` message,
and it points at a copy of the event. -/
theorem forwardToLogic_spec (sz : Nat) (s : SdlInputHandler) (evt : SDL_Event)
    (hl : s.mLogicSystem = true)
    (hfree : ∀ id ∈ s.mFreeEventBuffers, id < s.mEventBuffers.length) :
    ∃ p, forwarded (forwardToLogic sz s evt).2 = [p] ∧
      readRecord (forwardToLogic sz s evt).1.mEventBuffers p = some evt := by
  refine ⟨(encapsulateEvent sz s evt).1, ?_, ?_⟩
  · simp only [forwardToLogic, hl, if_true, forwarded_append, encapsulateEvent_forwarded]
    rfl
  · simp only [forwardToLogic, hl, if_true]
    exact encapsulateEvent_read sz s evt hfree

theorem handleWarpMotion_false (s : SdlInputHandler) (x y : Int)
    (h : (handleWarpMotion s x y).1 = false) : (handleWarpMotion s x y).2 = s := by
  unfold handleWarpMotion at h ⊢
  split_ifs at h ⊢ <;> rfl

theorem wrapMousePointer_fields (s : SdlInputHandler) (x y : Int) (env : SdlEnv) :
    (wrapMousePointer s x y env).1.mLogicSystem = s.mLogicSystem ∧
    (wrapMousePointer s x y env).1.mFreeEventBuffers = s.mFreeEventBuffers ∧
    (wrapMousePointer s x y env).1.mEventBuffers = s.mEventBuffers := by
  unfold wrapMousePointer warpMouse
  simp only []
  split_ifs <;> exact ⟨rfl, rfl, rfl⟩

theorem wrapMousePointer_forwarded (s : SdlInputHandler) (x y : Int) (env : SdlEnv) :
    forwarded (wrapMousePointer s x y env).2 = [] := by
  unfold wrapMousePointer warpMouse
  simp only []
  split_ifs <;> rfl

theorem updateMouseSettings_forwarded (s : SdlInputHandler) (env : SdlEnv) :
    forwarded (updateMouseSettings s env).2 = [] := by
  unfold updateMouseSettings
  simp only []
  split_ifs <;> rfl

theorem handleWindowEvent_forwarded (s : SdlInputHandler) (event : WindowEventID) (env : SdlEnv) :
    forwarded (handleWindowEvent s event env).2 = [] := by
  cases event <;> first
    | exact updateMouseSettings_forwarded _ env
    | rfl

/-- The forward after a guarded listener call, as in most cases of the switch. -/
theorem forwarded_call_then_forward (sz : Nat) (s : SdlInputHandler) (evt : SDL_Event)
    (c : Bool) (e : Effect) (he : forwarded [e] = []) (hl : s.mLogicSystem = true)
    (hfree : ∀ id ∈ s.mFreeEventBuffers, id < s.mEventBuffers.length) :
    ∃ p, forwarded (callIf c e ++ (forwardToLogic sz s evt).2) = [p] ∧
      readRecord (forwardToLogic sz s evt).1.mEventBuffers p = some evt := by
  obtain ⟨p, hp1, hp2⟩ := forwardToLogic_spec sz s evt hl hfree
  exact ⟨p, by rw [forwarded_append, forwarded_callIf c e he, hp1]; rfl, hp2⟩

/-- C4, amended: with a logic consumer attached (and a free list that holds
allocated slots, as every run following the release protocol keeps it), a routed
mouse motion / wheel / button, key / text or joystick axis / button event that is
not a suppressed warp echo produces exactly one forwarded `SDL_EVENT` message, which
points at a pooled copy of the event; a window event, an event type without a
case, a joystick hot-plug event and a suppressed warp-echo motion event produce no
forwarded message; the warp echo and the hot-plug events produce no effect at all,
so no listener callback either. -/
theorem C4_forwarding_contract (sz : Nat) (s : SdlInputHandler) (evt : SDL_Event) (env : SdlEnv)
    (hl : s.mLogicSystem = true)
    (hfree : ∀ id ∈ s.mFreeEventBuffers, id < s.mEventBuffers.length) :
    (SDL_Event.isForwardedType evt = true → isWarpEcho s evt = false →
      ∃ p, forwarded (_handleSdlEvents sz s evt env).2 = [p] ∧
        readRecord (_handleSdlEvents sz s evt env).1.mEventBuffers p = some evt) ∧
    (SDL_Event.isForwardedType evt = false ∨ isWarpEcho s evt = true →
      forwarded (_handleSdlEvents sz s evt env).2 = []) ∧
    (isWarpEcho s evt = true ∨ SDL_Event.isHotPlug evt = true →
      (_handleSdlEvents sz s evt env).2 = [] ∧
        listenerCalls (_handleSdlEvents sz s evt env).2 = []) := by
  cases evt with
  | SDL_MOUSEMOTION x y =>
    by_cases hw : (handleWarpMotion s x y).1 = true
    · simp [_handleSdlEvents, dispatch, isWarpEcho, hw, SDL_Event.isForwardedType,
        SDL_Event.isHotPlug, forwarded, listenerCalls]
    · simp only [Bool.not_eq_true] at hw
      have hs := handleWarpMotion_false s x y hw
      refine ⟨fun _ _ => ?_, ?_, ?_⟩
      · simp only [_handleSdlEvents, dispatch, hw, hs, Bool.not_false, if_true]
        by_cases hf : s.mWindowHasFocus = true
        · obtain ⟨h1, h2, h3⟩ := wrapMousePointer_fields s x y env
          obtain ⟨p, hp1, hp2⟩ := forwardToLogic_spec sz (wrapMousePointer s x y env).1
            (SDL_Event.SDL_MOUSEMOTION x y) (by rw [h1]; exact hl) (by rw [h2, h3]; exact hfree)
          refine ⟨p, ?_, by simpa [hf] using hp2⟩
          simp only [hf, if_true, forwarded_append, wrapMousePointer_forwarded, hp1]
          rw [forwarded_callIf _ _ (by rfl)]; rfl
        · have h0 := forwarded_call_then_forward sz s (SDL_Event.SDL_MOUSEMOTION x y)
            ((!s.mWantRelative || s.mWindowHasFocus) && s.mMouseListener)
            (Effect.mouseMoved (SDL_Event.SDL_MOUSEMOTION x y)) rfl hl hfree
          simpa [hf] using h0
      · simp [isWarpEcho, hw, SDL_Event.isForwardedType]
      · simp [isWarpEcho, hw, SDL_Event.isHotPlug]
  | SDL_WINDOWEVENT event =>
    simp [_handleSdlEvents, dispatch, isWarpEcho, SDL_Event.isForwardedType,
      SDL_Event.isHotPlug, handleWindowEvent_forwarded]
  | SDL_JOYDEVICEADDED which =>
    simp [_handleSdlEvents, dispatch, isWarpEcho, SDL_Event.isForwardedType,
      SDL_Event.isHotPlug, forwarded, listenerCalls]
  | SDL_JOYDEVICEREMOVED which =>
    simp [_handleSdlEvents, dispatch, isWarpEcho, SDL_Event.isForwardedType,
      SDL_Event.isHotPlug, forwarded, listenerCalls]
  | unlisted type =>
    simp [_handleSdlEvents, dispatch, isWarpEcho, SDL_Event.isForwardedType,
      SDL_Event.isHotPlug, forwarded]
  | _ =>
    refine ⟨fun _ _ => ?_, ?_, ?_⟩
    · exact forwarded_call_then_forward sz s _ _ _ (by rfl) hl hfree
    · simp [isWarpEcho, SDL_Event.isForwardedType]
    · simp [isWarpEcho, SDL_Event.isHotPlug]

/-- C4 at a key press routed by a handler with the logic system attached. -/
theorem C4_forwarding_contract_witness :
    (step 56 (ctor true true true) (Action.setLogicSystem true)).1.mLogicSystem = true ∧
    (∃ p, forwarded (_handleSdlEvents 56 (step 56 (ctor true true true)
        (Action.setLogicSystem true)).1 (SDL_Event.SDL_KEYDOWN 4 0) ⟨0, 800, 600⟩).2 = [p] ∧
      readRecord (_handleSdlEvents 56 (step 56 (ctor true true true)
        (Action.setLogicSystem true)).1 (SDL_Event.SDL_KEYDOWN 4 0) ⟨0, 800, 600⟩).1.mEventBuffers p =
        some (SDL_Event.SDL_KEYDOWN 4 0)) :=
  ⟨rfl, (C4_forwarding_contract 56 (step 56 (ctor true true true) (Action.setLogicSystem true)).1
    (SDL_Event.SDL_KEYDOWN 4 0) ⟨0, 800, 600⟩ rfl (by decide)).1 rfl rfl⟩

/-- C4 as stated fails for window events: with the logic system attached, routing a
window-enter event forwards nothing. -/
theorem C4_window_event_not_forwarded :
    (step 56 (ctor true true true) (Action.setLogicSystem true)).1.mLogicSystem = true ∧
    forwarded (_handleSdlEvents 56 (step 56 (ctor true true true)
      (Action.setLogicSystem true)).1
      (SDL_Event.SDL_WINDOWEVENT WindowEventID.SDL_WINDOWEVENT_ENTER) ⟨0, 800, 600⟩).2 = [] :=
  ⟨rfl, by decide⟩

/-! ## Warp and compensate -/

theorem warps_append (fx gx : List Effect) : warps (fx ++ gx) = warps fx ++ warps gx := by
  simp [warps]

theorem warps_callIf (c : Bool) (e : Effect) (h : warps [e] = []) : warps (callIf c e) = [] := by
  unfold callIf; split_ifs
  · exact h
  · rfl

theorem encapsulateEvent_warps (sz : Nat) (s : SdlInputHandler) (evt : SDL_Event) :
    warps (encapsulateEvent sz s evt).2.2 = [] := by
  unfold encapsulateEvent
  simp only []
  split_ifs <;> rfl

theorem forwardToLogic_warps (sz : Nat) (s : SdlInputHandler) (evt : SDL_Event) :
    warps (forwardToLogic sz s evt).2 = [] := by
  unfold forwardToLogic
  split_ifs
  · rw [warps_append, encapsulateEvent_warps]; rfl
  · rfl

theorem encapsulateEvent_warpFields (sz : Nat) (s : SdlInputHandler) (evt : SDL_Event) :
    (encapsulateEvent sz s evt).2.1.mWarpCompensate = s.mWarpCompensate ∧
    (encapsulateEvent sz s evt).2.1.mWarpX = s.mWarpX ∧
    (encapsulateEvent sz s evt).2.1.mWarpY = s.mWarpY := by
  unfold encapsulateEvent
  simp only []
  split_ifs <;> exact ⟨rfl, rfl, rfl⟩

theorem forwardToLogic_warpFields (sz : Nat) (s : SdlInputHandler) (evt : SDL_Event) :
    (forwardToLogic sz s evt).1.mWarpCompensate = s.mWarpCompensate ∧
    (forwardToLogic sz s evt).1.mWarpX = s.mWarpX ∧
    (forwardToLogic sz s evt).1.mWarpY = s.mWarpY := by
  unfold forwardToLogic
  split_ifs
  · exact encapsulateEvent_warpFields sz s evt
  · exact ⟨rfl, rfl, rfl⟩

theorem wrapMousePointer_warped (s : SdlInputHandler) (x y : Int) (env : SdlEnv)
    (h : warps (wrapMousePointer s x y env).2 ≠ []) :
    (wrapMousePointer s x y env).1.mWarpCompensate = true := by
  unfold wrapMousePointer warpMouse at h ⊢
  simp only [] at h ⊢
  split_ifs at h ⊢ <;> first | rfl | exact absurd rfl h

/-- A motion event at the recorded warp target, while compensating, is eaten. -/
theorem handleSdlEvents_echo (sz : Nat) (s : SdlInputHandler) (env : SdlEnv)
    (h : s.mWarpCompensate = true) :
    (_handleSdlEvents sz s (SDL_Event.SDL_MOUSEMOTION s.mWarpX s.mWarpY) env).2 = [] ∧
    (_handleSdlEvents sz s (SDL_Event.SDL_MOUSEMOTION s.mWarpX s.mWarpY) env).1.mWarpCompensate
      = false := by
  simp [_handleSdlEvents, dispatch, handleWarpMotion, h]

/-- A motion event that warps leaves the handler compensating. -/
theorem handleSdlEvents_warped (sz : Nat) (s : SdlInputHandler) (x y : Int) (env : SdlEnv)
    (h : warps (_handleSdlEvents sz s (SDL_Event.SDL_MOUSEMOTION x y) env).2 ≠ []) :
    (_handleSdlEvents sz s (SDL_Event.SDL_MOUSEMOTION x y) env).1.mWarpCompensate = true := by
  simp only [_handleSdlEvents, dispatch] at h ⊢
  split_ifs at h ⊢ with h1 h2
  · simp only [warps_append, forwardToLogic_warps, List.append_nil,
      warps_callIf _ _ (show warps [Effect.mouseMoved _] = [] from rfl), List.nil_append] at h
    rw [(forwardToLogic_warpFields sz _ _).1]
    exact wrapMousePointer_warped _ x y env h
  · simp only [warps_append, forwardToLogic_warps, List.append_nil,
      warps_callIf _ _ (show warps [Effect.mouseMoved _] = [] from rfl)] at h
    exact absurd rfl h
  · exact absurd rfl h

/-- C6: in a state with `mWrapPointerManually` and `mGrabPointer` set, if routing a
motion event issues a warp, then routing next a motion event at exactly the recorded
warp target `(mWarpX, mWarpY)` has no effect at all: no listener callback, no
forwarded message, no new warp; and `mWarpCompensate` is false afterwards. -/
theorem C6_warp_echo_suppressed (sz : Nat) (s : SdlInputHandler) (x y : Int) (env env2 : SdlEnv)
    (_hm : s.mWrapPointerManually = true) (_hg : s.mGrabPointer = true)
    (hwarp : warps (_handleSdlEvents sz s (SDL_Event.SDL_MOUSEMOTION x y) env).2 ≠ []) :
    (_handleSdlEvents sz (_handleSdlEvents sz s (SDL_Event.SDL_MOUSEMOTION x y) env).1
      (SDL_Event.SDL_MOUSEMOTION
        (_handleSdlEvents sz s (SDL_Event.SDL_MOUSEMOTION x y) env).1.mWarpX
        (_handleSdlEvents sz s (SDL_Event.SDL_MOUSEMOTION x y) env).1.mWarpY) env2).2 = [] ∧
    listenerCalls (_handleSdlEvents sz (_handleSdlEvents sz s (SDL_Event.SDL_MOUSEMOTION x y) env).1
      (SDL_Event.SDL_MOUSEMOTION
        (_handleSdlEvents sz s (SDL_Event.SDL_MOUSEMOTION x y) env).1.mWarpX
        (_handleSdlEvents sz s (SDL_Event.SDL_MOUSEMOTION x y) env).1.mWarpY) env2).2 = [] ∧
    forwarded (_handleSdlEvents sz (_handleSdlEvents sz s (SDL_Event.SDL_MOUSEMOTION x y) env).1
      (SDL_Event.SDL_MOUSEMOTION
        (_handleSdlEvents sz s (SDL_Event.SDL_MOUSEMOTION x y) env).1.mWarpX
        (_handleSdlEvents sz s (SDL_Event.SDL_MOUSEMOTION x y) env).1.mWarpY) env2).2 = [] ∧
    warps (_handleSdlEvents sz (_handleSdlEvents sz s (SDL_Event.SDL_MOUSEMOTION x y) env).1
      (SDL_Event.SDL_MOUSEMOTION
        (_handleSdlEvents sz s (SDL_Event.SDL_MOUSEMOTION x y) env).1.mWarpX
        (_handleSdlEvents sz s (SDL_Event.SDL_MOUSEMOTION x y) env).1.mWarpY) env2).2 = [] ∧
    (_handleSdlEvents sz (_handleSdlEvents sz s (SDL_Event.SDL_MOUSEMOTION x y) env).1
      (SDL_Event.SDL_MOUSEMOTION
        (_handleSdlEvents sz s (SDL_Event.SDL_MOUSEMOTION x y) env).1.mWarpX
        (_handleSdlEvents sz s (SDL_Event.SDL_MOUSEMOTION x y) env).1.mWarpY)
      env2).1.mWarpCompensate = false := by
  have h := handleSdlEvents_echo sz _ env2 (handleSdlEvents_warped sz s x y env hwarp)
  rw [h.1]
  exact ⟨rfl, rfl, rfl, rfl, h.2⟩

/-- C6 at a motion event right of an 800 x 600 window, then one at the centre. -/
theorem C6_warp_echo_suppressed_witness :
    manualWrapState.mWrapPointerManually = true ∧ manualWrapState.mGrabPointer = true ∧
    warps (_handleSdlEvents 56 manualWrapState (SDL_Event.SDL_MOUSEMOTION 900 100)
      ⟨0, 800, 600⟩).2 ≠ [] ∧
    (_handleSdlEvents 56 (_handleSdlEvents 56 manualWrapState (SDL_Event.SDL_MOUSEMOTION 900 100)
        ⟨0, 800, 600⟩).1
      (SDL_Event.SDL_MOUSEMOTION
        (_handleSdlEvents 56 manualWrapState (SDL_Event.SDL_MOUSEMOTION 900 100)
          ⟨0, 800, 600⟩).1.mWarpX
        (_handleSdlEvents 56 manualWrapState (SDL_Event.SDL_MOUSEMOTION 900 100)
          ⟨0, 800, 600⟩).1.mWarpY) ⟨0, 800, 600⟩).2 = [] :=
  ⟨by decide, by decide, by decide,
    (C6_warp_echo_suppressed 56 manualWrapState 900 100 ⟨0, 800, 600⟩ ⟨0, 800, 600⟩
      (by decide) (by decide) (by decide)).1⟩

theorem encapsulateEvent_setCompensate (sz : Nat) (s : SdlInputHandler) (evt : SDL_Event)
    (c : Bool) :
    encapsulateEvent sz { s with mWarpCompensate := c } evt =
      ((encapsulateEvent sz s evt).1,
       { (encapsulateEvent sz s evt).2.1 with mWarpCompensate := c },
       (encapsulateEvent sz s evt).2.2) := by
  unfold encapsulateEvent needsNewBuffer
  simp only []
  split_ifs <;> rfl

theorem forwardToLogic_setCompensate (sz : Nat) (s : SdlInputHandler) (evt : SDL_Event)
    (c : Bool) :
    (forwardToLogic sz { s with mWarpCompensate := c } evt).2 = (forwardToLogic sz s evt).2 := by
  unfold forwardToLogic
  simp only [encapsulateEvent_setCompensate]
  split_ifs <;> rfl

theorem wrapMousePointer_setCompensate (s : SdlInputHandler) (x y : Int) (env : SdlEnv) :
    (wrapMousePointer { s with mWarpCompensate := false } x y env).2 =
      (wrapMousePointer s x y env).2 ∧
    ∃ c, (wrapMousePointer { s with mWarpCompensate := false } x y env).1 =
      { (wrapMousePointer s x y env).1 with mWarpCompensate := c } := by
  unfold wrapMousePointer warpMouse
  simp only []
  split_ifs
  · exact ⟨rfl, false, rfl⟩
  · exact ⟨rfl, true, rfl⟩
  · exact ⟨rfl, false, rfl⟩

theorem wrapMousePointer_compensate (s : SdlInputHandler) (x y : Int) (env : SdlEnv)
    (h : s.mWarpCompensate = true) : (wrapMousePointer s x y env).1.mWarpCompensate = true := by
  unfold wrapMousePointer warpMouse
  simp only []
  split_ifs <;> first | rfl | exact h

/-- C7: in a state with `mWarpCompensate` set, for a motion event whose position
differs from `(mWarpX, mWarpY)` in a coordinate, `handleWarpMotion` returns false,
`_handleSdlEvents` has exactly the effects it has from the same state with
`mWarpCompensate` cleared (same listener callback, same warp, same forward), and
`mWarpCompensate` is still set afterwards. -/
theorem C7_mismatched_motion_passes (sz : Nat) (s : SdlInputHandler) (x y : Int) (env : SdlEnv)
    (hc : s.mWarpCompensate = true) (hne : x ≠ s.mWarpX ∨ y ≠ s.mWarpY) :
    (handleWarpMotion s x y).1 = false ∧
    (_handleSdlEvents sz s (SDL_Event.SDL_MOUSEMOTION x y) env).2 =
      (_handleSdlEvents sz { s with mWarpCompensate := false }
        (SDL_Event.SDL_MOUSEMOTION x y) env).2 ∧
    (_handleSdlEvents sz s (SDL_Event.SDL_MOUSEMOTION x y) env).1.mWarpCompensate = true := by
  have hw : handleWarpMotion s x y = (false, s) := by
    unfold handleWarpMotion
    rcases hne with h | h <;> simp [hc, h]
  refine ⟨by rw [hw], ?_, ?_⟩
  · obtain ⟨s', hs'⟩ : ∃ s', s' = { s with mWarpCompensate := false } := ⟨_, rfl⟩
    rw [← hs']
    have hw' : handleWarpMotion s' x y = (false, s') := by
      rw [hs']; simp [handleWarpMotion]
    have e1 : s'.mWantRelative = s.mWantRelative := by rw [hs']
    have e2 : s'.mWindowHasFocus = s.mWindowHasFocus := by rw [hs']
    have e3 : s'.mMouseListener = s.mMouseListener := by rw [hs']
    obtain ⟨h1, c, h2⟩ := wrapMousePointer_setCompensate s x y env
    rw [← hs'] at h1 h2
    have e4 : (forwardToLogic sz s' (SDL_Event.SDL_MOUSEMOTION x y)).2 =
        (forwardToLogic sz s (SDL_Event.SDL_MOUSEMOTION x y)).2 := by
      rw [hs']; exact forwardToLogic_setCompensate sz s _ false
    simp only [_handleSdlEvents, dispatch, hw, hw', Bool.not_false, if_true, e1, e2, e3]
    by_cases hf : s.mWindowHasFocus = true
    · simp only [hf, if_true, h1, h2, forwardToLogic_setCompensate]
    · simp only [hf, Bool.false_eq_true, if_false, e4]
  · simp only [_handleSdlEvents, dispatch, hw, Bool.not_false, if_true]
    rw [(forwardToLogic_warpFields sz _ _).1]
    split_ifs
    · exact wrapMousePointer_compensate s x y env hc
    · exact hc

/-- C7 at a motion event one pixel right of the awaited warp target. -/
theorem C7_mismatched_motion_passes_witness :
    awaitingEchoState.mWarpCompensate = true ∧
    ((401 : Int) ≠ awaitingEchoState.mWarpX ∨ (300 : Int) ≠ awaitingEchoState.mWarpY) ∧
    (handleWarpMotion awaitingEchoState 401 300).1 = false ∧
    (_handleSdlEvents 56 awaitingEchoState (SDL_Event.SDL_MOUSEMOTION 401 300)
      ⟨0, 800, 600⟩).1.mWarpCompensate = true :=
  ⟨by decide, by decide,
    (C7_mismatched_motion_passes 56 awaitingEchoState 401 300 ⟨0, 800, 600⟩
      (by decide) (by decide)).1,
    (C7_mismatched_motion_passes 56 awaitingEchoState 401 300 ⟨0, 800, 600⟩
      (by decide) (by decide)).2.2⟩

/-! ## The native-capture-failure scenario -/

theorem wrapMousePointer_active (s : SdlInputHandler) (x y : Int) (env : SdlEnv)
    (hr : s.mIsMouseRelative = true) (hm : s.mWrapPointerManually = true)
    (hg : s.mGrabPointer = true)
    (hedge : x - env.width < 0 ∨ x + env.width > env.width ∨
      y - env.height < 0 ∨ y + env.height > env.height) :
    wrapMousePointer s x y env = warpMouse s (env.width / 2) (env.height / 2) := by
  unfold wrapMousePointer
  simp only [hr, hm, hg, Bool.not_true, Bool.or_self, Bool.false_eq_true, if_false]
  rw [if_pos]
  simpa [or_assoc] using hedge

/-- C8 as stated fails: from the constructor's state, after `setMouseRelative(true)`
with `SDL_SetRelativeMouseMode` failing, `mWrapPointerManually` is set, but a motion
event outside the 800 x 600 window issues no warp, because the grab was never
requested and `mGrabPointer` is false. -/
theorem C8_no_warp_without_grab :
    (setMouseRelative (ctor true true true) true ⟨-1, 800, 600⟩).1.mWrapPointerManually = true ∧
    warps (_handleSdlEvents 56 (setMouseRelative (ctor true true true) true ⟨-1, 800, 600⟩).1
      (SDL_Event.SDL_MOUSEMOTION (-5) 700) ⟨0, 800, 600⟩).2 = [] :=
  ⟨by decide, by decide⟩

theorem wrapInt32_of_fits {n : Int} (h : fitsInt32 n) : wrapInt32 n = n := by
  unfold fitsInt32 at h
  unfold wrapInt32
  omega

/-- Where nothing overflows and the window size is not negative, the 32-bit
computation of `wrapMousePointer` is the one over the integers. -/
theorem wrapMousePointerInt32_eq (s : SdlInputHandler) (x y : Int) (env : SdlEnv)
    (hfit : NoOverflow32 x y env) (hw : 0 ≤ env.width) (hh : 0 ≤ env.height) :
    wrapMousePointerInt32 s x y env = wrapMousePointer s x y env := by
  obtain ⟨_, _, _, _, h1, h2, h3, h4⟩ := hfit
  unfold wrapMousePointerInt32 wrapMousePointer
  simp only [wrapInt32_of_fits h1, wrapInt32_of_fits h2, wrapInt32_of_fits h3,
    wrapInt32_of_fits h4, Int.tdiv_eq_ediv hw (by decide : (0 : Int) ≤ 2),
    Int.tdiv_eq_ediv hh (by decide : (0 : Int) ≤ 2)]

/-- At `x = INT_MAX` with a 1 by 0 window the sum `x + width` overflows: the 32-bit
computation issues no warp, the one over the integers does. -/
theorem wrapMousePointerInt32_overflow :
    warps (wrapMousePointerInt32 manualWrapState 2147483647 0 ⟨0, 1, 0⟩).2 = [] ∧
    warps (wrapMousePointer manualWrapState 2147483647 0 ⟨0, 1, 0⟩).2 = [(0, 0)] :=
  ⟨by decide, by decide⟩

/-- C8, amended: from the constructor's state, after `setMouseRelative(true)` with
`SDL_SetRelativeMouseMode` reporting failure, `mWrapPointerManually` is set; once
the grab has been requested too (`setGrabMousePointer(true)`), a motion event at a
position outside the bounds of a window that is not 0 by 0, with coordinates and
window size for which the 32-bit `int` arithmetic of `wrapMousePointer` does not
overflow, issues exactly one warp, to the window centre `(width / 2, height / 2)`,
and the next motion event at exactly that position has no effect at all. On these
inputs the 32-bit computation of `wrapMousePointer` is the one over the integers
that `_handleSdlEvents` is modelled with. -/
theorem C8_capture_failure_scenario (sz : Nat)
    (mouseListener keyboardListener joystickListener : Bool) (env1 env2 env3 env4 : SdlEnv)
    (x y : Int) (hfail : env1.relativeModeResult ≠ 0)
    (hw : 0 ≤ env3.width) (hh : 0 ≤ env3.height) (hnz : env3.width ≠ 0 ∨ env3.height ≠ 0)
    (hout : x < 0 ∨ env3.width ≤ x ∨ y < 0 ∨ env3.height ≤ y)
    (hfit : NoOverflow32 x y env3) :
    (setMouseRelative (ctor mouseListener keyboardListener joystickListener) true
      env1).1.mWrapPointerManually = true ∧
    warps (_handleSdlEvents sz
      (setGrabMousePointer (setMouseRelative
        (ctor mouseListener keyboardListener joystickListener) true env1).1 true env2).1
      (SDL_Event.SDL_MOUSEMOTION x y) env3).2 = [(env3.width / 2, env3.height / 2)] ∧
    (_handleSdlEvents sz
      (_handleSdlEvents sz
        (setGrabMousePointer (setMouseRelative
          (ctor mouseListener keyboardListener joystickListener) true env1).1 true env2).1
        (SDL_Event.SDL_MOUSEMOTION x y) env3).1
      (SDL_Event.SDL_MOUSEMOTION (env3.width / 2) (env3.height / 2)) env4).2 = [] ∧
    wrapMousePointerInt32
      (setGrabMousePointer (setMouseRelative
        (ctor mouseListener keyboardListener joystickListener) true env1).1 true env2).1
      x y env3 =
      wrapMousePointer
        (setGrabMousePointer (setMouseRelative
          (ctor mouseListener keyboardListener joystickListener) true env1).1 true env2).1
        x y env3 := by
  have hedge : x - env3.width < 0 ∨ x + env3.width > env3.width ∨
      y - env3.height < 0 ∨ y + env3.height > env3.height := by omega
  have hs1 : (setMouseRelative (ctor mouseListener keyboardListener joystickListener) true
      env1).1.mWrapPointerManually = true := by
    simp [setMouseRelative, updateMouseSettings, ctor, hfail]
  obtain ⟨s2, hs2⟩ : ∃ s2, s2 = (setGrabMousePointer (setMouseRelative
      (ctor mouseListener keyboardListener joystickListener) true env1).1 true env2).1 := ⟨_, rfl⟩
  have h2 : s2.mIsMouseRelative = true ∧ s2.mWrapPointerManually = true ∧
      s2.mGrabPointer = true ∧ s2.mWindowHasFocus = true ∧ s2.mWarpCompensate = false := by
    rw [hs2]
    simp [setGrabMousePointer, setMouseRelative, updateMouseSettings, ctor, hfail]
  rw [← hs2]
  obtain ⟨hr, hm, hg, hf, hc⟩ := h2
  have hwm : handleWarpMotion s2 x y = (false, s2) := by simp [handleWarpMotion, hc]
  have hwrap := wrapMousePointer_active s2 x y env3 hr hm hg hedge
  have hfx : warps (_handleSdlEvents sz s2 (SDL_Event.SDL_MOUSEMOTION x y) env3).2 =
      [(env3.width / 2, env3.height / 2)] := by
    simp only [_handleSdlEvents, dispatch, hwm, Bool.not_false, if_true, hf, hwrap,
      warps_append, forwardToLogic_warps, List.append_nil,
      warps_callIf _ _ (show warps [Effect.mouseMoved _] = [] from rfl), List.nil_append]
    rfl
  have hst : (_handleSdlEvents sz s2 (SDL_Event.SDL_MOUSEMOTION x y) env3).1.mWarpCompensate = true ∧
      (_handleSdlEvents sz s2 (SDL_Event.SDL_MOUSEMOTION x y) env3).1.mWarpX = env3.width / 2 ∧
      (_handleSdlEvents sz s2 (SDL_Event.SDL_MOUSEMOTION x y) env3).1.mWarpY = env3.height / 2 := by
    simp only [_handleSdlEvents, dispatch, hwm, Bool.not_false, if_true, hf, hwrap]
    obtain ⟨f1, f2, f3⟩ := forwardToLogic_warpFields sz (warpMouse s2 (env3.width / 2)
      (env3.height / 2)).1 (SDL_Event.SDL_MOUSEMOTION x y)
    exact ⟨f1, f2, f3⟩
  refine ⟨hs1, hfx, ?_, wrapMousePointerInt32_eq s2 x y env3 hfit hw hh⟩
  have hecho := (handleSdlEvents_echo sz _ env4 hst.1).1
  rw [hst.2.1, hst.2.2] at hecho
  exact hecho

/-- C8 at an 800 x 600 window and a motion event left of and below it. -/
theorem C8_capture_failure_scenario_witness :
    (⟨-1, 800, 600⟩ : SdlEnv).relativeModeResult ≠ 0 ∧
    ((-5 : Int) < 0 ∨ (⟨0, 800, 600⟩ : SdlEnv).width ≤ -5 ∨ (700 : Int) < 0 ∨
      (⟨0, 800, 600⟩ : SdlEnv).height ≤ 700) ∧
    NoOverflow32 (-5) 700 ⟨0, 800, 600⟩ ∧
    warps (_handleSdlEvents 56
      (setGrabMousePointer (setMouseRelative (ctor true true true) true ⟨-1, 800, 600⟩).1 true
        ⟨0, 800, 600⟩).1
      (SDL_Event.SDL_MOUSEMOTION (-5) 700) ⟨0, 800, 600⟩).2 = [(800 / 2, 600 / 2)] :=
  ⟨by decide, by decide, by decide,
    (C8_capture_failure_scenario 56 true true true ⟨-1, 800, 600⟩ ⟨0, 800, 600⟩ ⟨0, 800, 600⟩
      ⟨0, 800, 600⟩ (-5) 700 (by decide) (by decide) (by decide) (by decide) (by decide)
      (by decide)).2.1⟩

/-! ## Filling a slot: 70 records per notification -/

theorem hasRoom_ctor (sz : Nat) (mouseListener keyboardListener joystickListener : Bool) :
    HasRoom sz (ctor mouseListener keyboardListener joystickListener) 0 :=
  ⟨rfl, Or.inl ⟨rfl, rfl⟩⟩

theorem encapsulateEvent_room_zero (sz : Nat) (s : SdlInputHandler) (evt : SDL_Event)
    (h : HasRoom sz s 0) :
    notifiedIds (encapsulateEvent sz s evt).2.2 = [s.mEventBuffers.length] ∧
    HasRoom sz (encapsulateEvent sz s evt).2.1 69 := by
  obtain ⟨hfree, h0 | h1⟩ := h
  · obtain ⟨_, hn⟩ := h0
    constructor
    · simp [encapsulateEvent, hn, hfree, notifiedIds]
    · refine ⟨by simp [encapsulateEvent, hn, hfree], Or.inr ⟨by decide, ?_⟩⟩
      refine ⟨{ size := 70 * sz, records := [(0, evt)] }, ?_, rfl, ?_⟩
      · simp [encapsulateEvent, hn, hfree, writeRecord, List.getElem?_modify_eq]
      · simp [encapsulateEvent, hn, hfree]; omega
  · exact absurd h1.1 (lt_irrefl 0)

theorem encapsulateEvent_room_pos (sz : Nat) (s : SdlInputHandler) (evt : SDL_Event) (r : Nat)
    (hsz : 0 < sz) (hr : 0 < r) (h : HasRoom sz s r) :
    notifiedIds (encapsulateEvent sz s evt).2.2 = [] ∧
    HasRoom sz (encapsulateEvent sz s evt).2.1 (r - 1) := by
  obtain ⟨hfree, h0 | h1⟩ := h
  · exact absurd h0.1 (Nat.pos_iff_ne_zero.1 hr)
  · obtain ⟨_, b, hb, hsize, hoff⟩ := h1
    have hlt : s.mCurrentEventBuffer < s.mEventBuffers.length := by
      by_contra hc
      rw [List.getElem?_eq_none (not_lt.1 hc)] at hb
      exact Option.noConfusion hb
    have hpos : 0 < r * sz := Nat.mul_pos hr hsz
    have hn : needsNewBuffer s = false := by
      simp only [needsNewBuffer, List.get?_eq_getElem?, hb, Bool.or_eq_false_iff,
        decide_eq_false_iff_not, not_le]
      exact ⟨hlt, by omega⟩
    have hmul : (r - 1) * sz + sz = r * sz := by
      have : r - 1 + 1 = r := Nat.sub_add_cancel hr
      calc (r - 1) * sz + sz = (r - 1 + 1) * sz := by ring
        _ = r * sz := by rw [this]
    constructor
    · simp [encapsulateEvent, hn, notifiedIds]
    · refine ⟨by simp [encapsulateEvent, hn, hfree], ?_⟩
      have hb' : (encapsulateEvent sz s evt).2.1.mEventBuffers[
          (encapsulateEvent sz s evt).2.1.mCurrentEventBuffer]? =
          some { b with records := (s.mEventBufferOffset, evt) ::
            b.records.filter (fun r => r.1 != s.mEventBufferOffset) } := by
        simp [encapsulateEvent, hn, writeRecord, List.getElem?_modify_eq, hb]
      have hoff' : (encapsulateEvent sz s evt).2.1.mEventBufferOffset =
          s.mEventBufferOffset + sz := by
        simp [encapsulateEvent, hn]
      have hlen' : (encapsulateEvent sz s evt).2.1.mEventBuffers.length =
          s.mEventBuffers.length := by
        simp [encapsulateEvent, hn, length_writeRecord]
      have hcur' : (encapsulateEvent sz s evt).2.1.mCurrentEventBuffer =
          s.mCurrentEventBuffer := by
        simp [encapsulateEvent, hn]
      by_cases hr1 : r - 1 = 0
      · left
        refine ⟨hr1, ?_⟩
        rw [hr1] at hmul
        simp only [needsNewBuffer, List.get?_eq_getElem?, hb', hoff', Bool.or_eq_true,
          decide_eq_true_eq]
        right
        rw [hsize]
        omega
      · right
        exact ⟨Nat.pos_of_ne_zero hr1, _, hb', hsize, by rw [hoff']; omega⟩

theorem notified_count (sz : Nat) (hsz : 0 < sz) (evts : List SDL_Event) :
    ∀ (s : SdlInputHandler) (r : Nat), HasRoom sz s r → r ≤ 69 →
      (notifiedIds (execFx sz s (evts.map Action.encapsulateEvent))).length =
        (evts.length + 69 - r) / 70 := by
  induction evts with
  | nil => intro s r _ hr; simp [execFx, notifiedIds]; omega
  | cons e es ih =>
    intro s r h hr
    simp only [List.map_cons, execFx, step, notifiedIds_append, List.length_append,
      List.length_cons]
    by_cases h0 : r = 0
    · subst h0
      obtain ⟨h1, h2⟩ := encapsulateEvent_room_zero sz s e h
      rw [h1, ih _ 69 h2 (le_refl _)]
      simp only [List.length_singleton]
      omega
    · obtain ⟨h1, h2⟩ := encapsulateEvent_room_pos sz s e r hsz (Nat.pos_of_ne_zero h0) h
      rw [h1, ih _ (r - 1) h2 (by omega)]
      simp only [List.length_nil]
      omega

/-- C9: with `sizeof(SDL_Event)` positive, from the constructor's state (empty pool),
`N` calls of `encapsulateEvent` in a row, with no release and no reset of the
current slot in between, send exactly `N / 70` rounded up
`SDL_EVENT_BUFFER_ID_USED` notifications: a new slot is taken only when the
current one holds 70 records. -/
theorem C9_slot_notification_count (sz : Nat) (hsz : 0 < sz)
    (mouseListener keyboardListener joystickListener : Bool) (evts : List SDL_Event) :
    (notifiedIds (execFx sz (ctor mouseListener keyboardListener joystickListener)
      (evts.map Action.encapsulateEvent))).length = (evts.length + 69) / 70 := by
  have h := notified_count sz hsz evts _ 0
    (hasRoom_ctor sz mouseListener keyboardListener joystickListener) (by omega)
  simpa using h

/-- C9 at 71 key events of 56 bytes: two notifications. -/
theorem C9_slot_notification_count_witness :
    0 < 56 ∧
    (notifiedIds (execFx 56 (ctor true true true)
      ((List.replicate 71 (SDL_Event.SDL_KEYDOWN 4 0)).map Action.encapsulateEvent))).length = 2 :=
  ⟨by decide, C9_slot_notification_count 56 (by decide) true true true
    (List.replicate 71 (SDL_Event.SDL_KEYDOWN 4 0))⟩

/-! ## Focus loss -/

/-- C11: in every state with `mWantRelative` and `mWantMouseGrab` set, routing an
`SDL_WINDOWEVENT_FOCUS_LOST` event leaves `mGrabPointer` and `mIsMouseRelative`
false, makes exactly one `SDL_ShowCursor` call, with `true`, whatever
`mWantMouseVisible` is, and leaves `mWantRelative`, `mWantMouseGrab` (still true) and
`mWantMouseVisible` as they were. -/
theorem C11_focus_lost (sz : Nat) (s : SdlInputHandler) (env : SdlEnv)
    (hr : s.mWantRelative = true) (hg : s.mWantMouseGrab = true) :
    (_handleSdlEvents sz s
      (SDL_Event.SDL_WINDOWEVENT WindowEventID.SDL_WINDOWEVENT_FOCUS_LOST) env).1.mGrabPointer
      = false ∧
    (_handleSdlEvents sz s
      (SDL_Event.SDL_WINDOWEVENT WindowEventID.SDL_WINDOWEVENT_FOCUS_LOST) env).1.mIsMouseRelative
      = false ∧
    showCursorCalls (_handleSdlEvents sz s
      (SDL_Event.SDL_WINDOWEVENT WindowEventID.SDL_WINDOWEVENT_FOCUS_LOST) env).2 = [true] ∧
    (_handleSdlEvents sz s
      (SDL_Event.SDL_WINDOWEVENT WindowEventID.SDL_WINDOWEVENT_FOCUS_LOST) env).1.mWantRelative
      = true ∧
    (_handleSdlEvents sz s
      (SDL_Event.SDL_WINDOWEVENT WindowEventID.SDL_WINDOWEVENT_FOCUS_LOST) env).1.mWantMouseGrab
      = true ∧
    (_handleSdlEvents sz s
      (SDL_Event.SDL_WINDOWEVENT WindowEventID.SDL_WINDOWEVENT_FOCUS_LOST) env).1.mWantMouseVisible
      = s.mWantMouseVisible := by
  simp only [_handleSdlEvents, dispatch, handleWindowEvent, updateMouseSettings]
  by_cases hrel : s.mIsMouseRelative = true
  · simp [hrel, hr, hg, showCursorCalls]
  · simp only [Bool.not_eq_true] at hrel
    simp [hrel, hr, hg, showCursorCalls]

/-- C11 at the state of a handler in manual wrap mode with the pointer grabbed. -/
theorem C11_focus_lost_witness :
    manualWrapState.mWantRelative = true ∧ manualWrapState.mWantMouseGrab = true ∧
    (_handleSdlEvents 56 manualWrapState
      (SDL_Event.SDL_WINDOWEVENT WindowEventID.SDL_WINDOWEVENT_FOCUS_LOST)
      ⟨0, 800, 600⟩).1.mGrabPointer = false :=
  ⟨by decide, by decide,
    (C11_focus_lost 56 manualWrapState ⟨0, 800, 600⟩ (by decide) (by decide)).1⟩

/-! ## Keyboard events -/

theorem encapsulateEvent_listenerCalls (sz : Nat) (s : SdlInputHandler) (evt : SDL_Event) :
    listenerCalls (encapsulateEvent sz s evt).2.2 = [] := by
  unfold encapsulateEvent
  simp only []
  split_ifs <;> rfl

theorem forwardToLogic_listenerCalls (sz : Nat) (s : SdlInputHandler) (evt : SDL_Event) :
    listenerCalls (forwardToLogic sz s evt).2 = [] := by
  unfold forwardToLogic
  split_ifs
  · rw [listenerCalls_append, encapsulateEvent_listenerCalls]; rfl
  · rfl

/-- C12: for every `SDL_KEYDOWN` event, if `repeat` is set no listener callback is
made; if `repeat` is not set and a keyboard listener is registered, exactly one
callback is made, `keyPressed` with that event. -/
theorem C12_keydown_repeat_filter (sz : Nat) (s : SdlInputHandler) (sym rep : Nat) (env : SdlEnv) :
    (rep ≠ 0 →
      listenerCalls (_handleSdlEvents sz s (SDL_Event.SDL_KEYDOWN sym rep) env).2 = []) ∧
    (rep = 0 → s.mKeyboardListener = true →
      listenerCalls (_handleSdlEvents sz s (SDL_Event.SDL_KEYDOWN sym rep) env).2 =
        [Effect.keyPressed (SDL_Event.SDL_KEYDOWN sym rep)]) := by
  simp only [_handleSdlEvents, dispatch, listenerCalls_append, forwardToLogic_listenerCalls,
    List.append_nil]
  constructor
  · intro h; simp [callIf, h, listenerCalls]
  · intro h hl; simp [callIf, h, hl, listenerCalls]

/-- C12 at a first press and a listener. -/
theorem C12_keydown_repeat_filter_witness :
    (ctor true true true).mKeyboardListener = true ∧
    listenerCalls (_handleSdlEvents 56 (ctor true true true) (SDL_Event.SDL_KEYDOWN 4 0)
      ⟨0, 800, 600⟩).2 = [Effect.keyPressed (SDL_Event.SDL_KEYDOWN 4 0)] :=
  ⟨rfl, (C12_keydown_repeat_filter 56 (ctor true true true) 4 0 ⟨0, 800, 600⟩).2 rfl rfl⟩

/-- C13 as stated fails: a key release whose `repeat` field is set makes no
callback although a keyboard listener is registered. -/
theorem C13_keyup_with_repeat_not_delivered :
    (ctor true true true).mKeyboardListener = true ∧
    listenerCalls (_handleSdlEvents 56 (ctor true true true) (SDL_Event.SDL_KEYUP 4 1)
      ⟨0, 800, 600⟩).2 = [] :=
  ⟨rfl, by decide⟩

/-- C13, amended: for every `SDL_KEYUP` event whose `repeat` field is not set, if a
keyboard listener is registered exactly one callback is made, `keyReleased` with
that event; a release whose `repeat` field is set makes no callback, as for a
press. -/
theorem C13_keyup_delivery (sz : Nat) (s : SdlInputHandler) (sym rep : Nat) (env : SdlEnv) :
    (rep = 0 → s.mKeyboardListener = true →
      listenerCalls (_handleSdlEvents sz s (SDL_Event.SDL_KEYUP sym rep) env).2 =
        [Effect.keyReleased (SDL_Event.SDL_KEYUP sym rep)]) ∧
    (rep ≠ 0 →
      listenerCalls (_handleSdlEvents sz s (SDL_Event.SDL_KEYUP sym rep) env).2 = []) := by
  simp only [_handleSdlEvents, dispatch, listenerCalls_append, forwardToLogic_listenerCalls,
    List.append_nil]
  constructor
  · intro h hl; simp [callIf, h, hl, listenerCalls]
  · intro h; simp [callIf, h, listenerCalls]

/-- C13 at a release with `repeat` clear and a listener. -/
theorem C13_keyup_delivery_witness :
    (ctor true true true).mKeyboardListener = true ∧
    listenerCalls (_handleSdlEvents 56 (ctor true true true) (SDL_Event.SDL_KEYUP 4 0)
      ⟨0, 800, 600⟩).2 = [Effect.keyReleased (SDL_Event.SDL_KEYUP 4 0)] :=
  ⟨rfl, (C13_keyup_delivery 56 (ctor true true true) 4 0 ⟨0, 800, 600⟩).1 rfl rfl⟩

/-! ## The edge test of `wrapMousePointer` -/

/-- C17: with `mIsMouseRelative`, `mWrapPointerManually` and `mGrabPointer` set and a
window of size `width >= 0`, `height >= 0`, `wrapMousePointer` on a motion event at
`(x, y)` calls `warpMouse(width / 2, height / 2)` if and only if not
`width = 0, height = 0, x = 0, y = 0`; when it does not, it does nothing. In
particular with `width > 0` or `height > 0` every position warps, the centre
included. -/
theorem C17_edge_test_position_independent (s : SdlInputHandler) (x y : Int) (env : SdlEnv)
    (hr : s.mIsMouseRelative = true) (hm : s.mWrapPointerManually = true)
    (hg : s.mGrabPointer = true) (hw : 0 ≤ env.width) (hh : 0 ≤ env.height) :
    (warps (wrapMousePointer s x y env).2 = [(env.width / 2, env.height / 2)] ↔
      ¬ (env.width = 0 ∧ env.height = 0 ∧ x = 0 ∧ y = 0)) ∧
    (¬ (env.width = 0 ∧ env.height = 0 ∧ x = 0 ∧ y = 0) →
      wrapMousePointer s x y env = warpMouse s (env.width / 2) (env.height / 2)) ∧
    (env.width = 0 ∧ env.height = 0 ∧ x = 0 ∧ y = 0 → wrapMousePointer s x y env = (s, [])) ∧
    (0 < env.width ∨ 0 < env.height →
      wrapMousePointer s (env.width / 2) (env.height / 2) env =
        warpMouse s (env.width / 2) (env.height / 2)) := by
  have hyes : ∀ x' y' : Int, ¬ (env.width = 0 ∧ env.height = 0 ∧ x' = 0 ∧ y' = 0) →
      wrapMousePointer s x' y' env = warpMouse s (env.width / 2) (env.height / 2) := by
    intro x' y' hne
    apply wrapMousePointer_active s x' y' env hr hm hg
    by_contra hc
    apply hne
    omega
  have hno : env.width = 0 ∧ env.height = 0 ∧ x = 0 ∧ y = 0 →
      wrapMousePointer s x y env = (s, []) := by
    rintro ⟨h1, h2, h3, h4⟩
    simp [wrapMousePointer, hr, hm, hg, h1, h2, h3, h4]
  refine ⟨?_, hyes x y, hno, ?_⟩
  · constructor
    · intro hwarp hdeg
      rw [hno hdeg] at hwarp
      exact absurd hwarp (by simp [warps])
    · intro hne
      rw [hyes x y hne]
      rfl
  · intro hpos
    apply hyes
    omega

/-- C17 at the centre of an 800 x 600 window. -/
theorem C17_edge_test_position_independent_witness :
    manualWrapState.mIsMouseRelative = true ∧ manualWrapState.mWrapPointerManually = true ∧
    manualWrapState.mGrabPointer = true ∧
    wrapMousePointer manualWrapState (800 / 2) (600 / 2) ⟨0, 800, 600⟩ =
      warpMouse manualWrapState (800 / 2) (600 / 2) :=
  ⟨by decide, by decide, by decide,
    (C17_edge_test_position_independent manualWrapState 0 0 ⟨0, 800, 600⟩ (by decide) (by decide)
      (by decide) (by decide) (by decide)).2.2.2 (by decide)⟩

/-! ## Manual wrapping and relative mode -/

theorem updateMouseSettings_wrap (s : SdlInputHandler) (env : SdlEnv) :
    ((updateMouseSettings s env).1.mIsMouseRelative ≠ s.mIsMouseRelative →
      (updateMouseSettings s env).1.mWrapPointerManually =
        ((updateMouseSettings s env).1.mIsMouseRelative && decide (env.relativeModeResult ≠ 0))) ∧
    ((updateMouseSettings s env).1.mIsMouseRelative = s.mIsMouseRelative →
      (updateMouseSettings s env).1.mWrapPointerManually = s.mWrapPointerManually) := by
  unfold updateMouseSettings
  simp only []
  split_ifs with h1 h2
  · exact ⟨fun h => absurd rfl h, fun _ => rfl⟩
  · simp only [Bool.and_eq_true, bne_iff_ne, ne_eq] at h2
    refine ⟨fun _ => ?_, fun h => ?_⟩
    · simp [h2.1, h2.2]
    · simp only [beq_iff_eq] at h1
      exact absurd h.symm h1
  · refine ⟨fun _ => ?_, fun h => ?_⟩
    · by_cases hrel : (s.mWantRelative && s.mMouseInWindow && s.mWindowHasFocus) = true
      · simp only [hrel, Bool.true_and, bne_iff_ne, ne_eq, not_not] at h2
        simp [hrel, h2]
      · simp only [Bool.not_eq_true] at hrel
        simp [hrel]
    · simp only [beq_iff_eq] at h1
      exact absurd h.symm h1

theorem updateMouseSettings_wrapPolicy (s : SdlInputHandler) (env : SdlEnv) (h : WrapPolicy s) :
    WrapPolicy (updateMouseSettings s env).1 := by
  obtain ⟨h1, h2⟩ := updateMouseSettings_wrap s env
  intro hw
  by_cases hc : (updateMouseSettings s env).1.mIsMouseRelative = s.mIsMouseRelative
  · rw [h2 hc] at hw
    rw [hc]
    exact h hw
  · rw [h1 hc, Bool.and_eq_true] at hw
    exact hw.1

theorem wrap_of_mouseFlags {s t : SdlInputHandler} (h : mouseFlags t = mouseFlags s) :
    t.mWrapPointerManually = s.mWrapPointerManually ∧
    t.mIsMouseRelative = s.mIsMouseRelative := by
  simp only [mouseFlags, List.cons.injEq, and_true] at h
  exact ⟨h.2.2.2.2.1, h.2.2.2.1⟩

/-- Every call either goes through `updateMouseSettings` on a state with the same
two fields, or leaves `mWrapPointerManually` and `mIsMouseRelative` alone. -/
theorem step_wrap (sz : Nat) (s : SdlInputHandler) (a : Action) :
    ((step sz s a).1.mWrapPointerManually = s.mWrapPointerManually ∧
      (step sz s a).1.mIsMouseRelative = s.mIsMouseRelative) ∨
    ∃ s0 env, s0.mWrapPointerManually = s.mWrapPointerManually ∧
      s0.mIsMouseRelative = s.mIsMouseRelative ∧
      (step sz s a).1.mWrapPointerManually = (updateMouseSettings s0 env).1.mWrapPointerManually ∧
      (step sz s a).1.mIsMouseRelative = (updateMouseSettings s0 env).1.mIsMouseRelative := by
  cases a with
  | handleSdlEvents evt env =>
    by_cases hw : ∀ event, evt ≠ SDL_Event.SDL_WINDOWEVENT event
    · exact Or.inl (wrap_of_mouseFlags (dispatch_mouseFlags sz s evt env hw))
    · push_neg at hw
      obtain ⟨event, rfl⟩ := hw
      cases event with
      | unlisted code => exact Or.inl ⟨rfl, rfl⟩
      | SDL_WINDOWEVENT_ENTER =>
        exact Or.inr ⟨{ s with mMouseInWindow := true }, env, rfl, rfl, rfl, rfl⟩
      | SDL_WINDOWEVENT_LEAVE =>
        exact Or.inr ⟨{ s with mMouseInWindow := false }, env, rfl, rfl, rfl, rfl⟩
      | SDL_WINDOWEVENT_FOCUS_GAINED =>
        exact Or.inr ⟨{ s with mWindowHasFocus := true }, env, rfl, rfl, rfl, rfl⟩
      | SDL_WINDOWEVENT_FOCUS_LOST =>
        exact Or.inr ⟨{ s with mWindowHasFocus := false }, env, rfl, rfl, rfl, rfl⟩
  | encapsulateEvent evt =>
    exact Or.inl (wrap_of_mouseFlags (encapsulateEvent_mouseFlags sz s evt))
  | releaseEventBufferId id => exact Or.inl ⟨rfl, rfl⟩
  | setGrabMousePointer grab env =>
    exact Or.inr ⟨{ s with mWantMouseGrab := grab }, env, rfl, rfl, rfl, rfl⟩
  | setMouseRelative relative env =>
    exact Or.inr ⟨{ s with mWantRelative := relative }, env, rfl, rfl, rfl, rfl⟩
  | setMouseVisible visible env =>
    exact Or.inr ⟨{ s with mWantMouseVisible := visible }, env, rfl, rfl, rfl, rfl⟩
  | setLogicSystem attached => exact Or.inl ⟨rfl, rfl⟩

theorem step_wrapPolicy (sz : Nat) (s : SdlInputHandler) (a : Action) (h : WrapPolicy s) :
    WrapPolicy (step sz s a).1 := by
  rcases step_wrap sz s a with ⟨h1, h2⟩ | ⟨s0, env, h1, h2, h3, h4⟩
  · intro hw
    rw [h1] at hw
    rw [h2]
    exact h hw
  · have h0 : WrapPolicy s0 := by
      intro hw
      rw [h1] at hw
      rw [h2]
      exact h hw
    have := updateMouseSettings_wrapPolicy s0 env h0
    intro hw
    rw [h3] at hw
    rw [h4]
    exact this hw

theorem reach_wrapPolicy (sz : Nat) (s : SdlInputHandler) (h : Reach sz s) : WrapPolicy s := by
  induction h with
  | ctor m k j => intro hw; simp [ctor] at hw
  | step s a _ ih => exact step_wrapPolicy sz s a ih

/-- C19: (1) from the constructor's state, after every sequence of calls and
whatever `SDL_SetRelativeMouseMode` returned, `mWrapPointerManually` set implies
`mIsMouseRelative` set, hence `mWantRelative`, `mMouseInWindow` and
`mWindowHasFocus` set. (2) In every call, if `mIsMouseRelative` keeps its value so
does `mWrapPointerManually`. (3) When `updateMouseSettings` changes
`mIsMouseRelative`, `mWrapPointerManually` becomes true exactly when the new value
is true and `SDL_SetRelativeMouseMode` returned non-zero, and false otherwise. -/
theorem C19_manual_wrap_implies_relative (sz : Nat) :
    (∀ (mouseListener keyboardListener joystickListener : Bool) (acts : List Action),
      (exec sz (ctor mouseListener keyboardListener joystickListener) acts).mWrapPointerManually
        = true →
      (exec sz (ctor mouseListener keyboardListener joystickListener) acts).mIsMouseRelative
        = true ∧
      (exec sz (ctor mouseListener keyboardListener joystickListener) acts).mWantRelative = true ∧
      (exec sz (ctor mouseListener keyboardListener joystickListener) acts).mMouseInWindow = true ∧
      (exec sz (ctor mouseListener keyboardListener joystickListener) acts).mWindowHasFocus
        = true) ∧
    (∀ (s : SdlInputHandler) (a : Action),
      (step sz s a).1.mIsMouseRelative = s.mIsMouseRelative →
      (step sz s a).1.mWrapPointerManually = s.mWrapPointerManually) ∧
    (∀ (s : SdlInputHandler) (env : SdlEnv),
      (updateMouseSettings s env).1.mIsMouseRelative ≠ s.mIsMouseRelative →
      (updateMouseSettings s env).1.mWrapPointerManually =
        ((updateMouseSettings s env).1.mIsMouseRelative &&
          decide (env.relativeModeResult ≠ 0))) := by
  refine ⟨?_, ?_, fun s env => (updateMouseSettings_wrap s env).1⟩
  · intro m k j acts hw
    have hreach := reach_exec sz acts _ (Reach.ctor m k j)
    have hrel := reach_wrapPolicy sz _ hreach hw
    have hpol := (reach_policy sz _ hreach).2
    rw [RelativePolicy, hrel] at hpol
    simp only [Bool.true_eq, Bool.and_eq_true] at hpol
    exact ⟨hrel, hpol.1.1, hpol.1.2, hpol.2⟩
  · intro s a hsame
    rcases step_wrap sz s a with ⟨h1, _⟩ | ⟨s0, env, h1, h2, h3, h4⟩
    · exact h1
    · rw [h3, (updateMouseSettings_wrap s0 env).2 (by rw [← h4, hsame, h2]), h1]

/-- C19 at the handler in manual wrap mode. -/
theorem C19_manual_wrap_implies_relative_witness :
    (exec 56 (ctor true true true)
      [Action.setMouseRelative true ⟨-1, 800, 600⟩]).mWrapPointerManually = true ∧
    (exec 56 (ctor true true true)
      [Action.setMouseRelative true ⟨-1, 800, 600⟩]).mIsMouseRelative = true :=
  ⟨by decide,
    ((C19_manual_wrap_implies_relative 56).1 true true true
      [Action.setMouseRelative true ⟨-1, 800, 600⟩] (by decide)).1⟩

/-! ## What one routed event does to the pool -/

theorem poolEq_refl (s : SdlInputHandler) : PoolEq s s := ⟨rfl, rfl, rfl, rfl, rfl⟩

theorem poolEq_trans {s t u : SdlInputHandler} (h1 : PoolEq s t) (h2 : PoolEq t u) :
    PoolEq s u :=
  ⟨h2.1.trans h1.1, h2.2.1.trans h1.2.1, h2.2.2.1.trans h1.2.2.1,
    h2.2.2.2.1.trans h1.2.2.2.1, h2.2.2.2.2.trans h1.2.2.2.2⟩

theorem updateMouseSettings_poolEq (s : SdlInputHandler) (env : SdlEnv) :
    PoolEq s (updateMouseSettings s env).1 := by
  unfold updateMouseSettings PoolEq
  simp only []
  split_ifs <;> exact ⟨rfl, rfl, rfl, rfl, rfl⟩

theorem updateMouseSettings_noTransfer (s : SdlInputHandler) (env : SdlEnv) :
    transfers (updateMouseSettings s env).2 = [] := by
  unfold updateMouseSettings
  simp only []
  split_ifs <;> rfl

theorem handleWindowEvent_poolEq (s : SdlInputHandler) (event : WindowEventID) (env : SdlEnv) :
    PoolEq s (handleWindowEvent s event env).1 := by
  cases event <;> first
    | exact updateMouseSettings_poolEq _ env
    | exact poolEq_refl s

theorem handleWindowEvent_noTransfer (s : SdlInputHandler) (event : WindowEventID)
    (env : SdlEnv) : transfers (handleWindowEvent s event env).2 = [] := by
  cases event <;> first
    | exact updateMouseSettings_noTransfer _ env
    | rfl

theorem wrapMousePointer_poolEq (s : SdlInputHandler) (x y : Int) (env : SdlEnv) :
    PoolEq s (wrapMousePointer s x y env).1 := by
  unfold wrapMousePointer warpMouse PoolEq
  simp only []
  split_ifs <;> exact ⟨rfl, rfl, rfl, rfl, rfl⟩

theorem wrapMousePointer_noTransfer (s : SdlInputHandler) (x y : Int) (env : SdlEnv) :
    transfers (wrapMousePointer s x y env).2 = [] := by
  unfold wrapMousePointer warpMouse
  simp only []
  split_ifs <;> rfl

theorem handleWarpMotion_poolEq (s : SdlInputHandler) (x y : Int) :
    PoolEq s (handleWarpMotion s x y).2 := by
  unfold handleWarpMotion PoolEq
  split_ifs <;> exact ⟨rfl, rfl, rfl, rfl, rfl⟩

theorem transfers_append (fx gx : List Effect) :
    transfers (fx ++ gx) = transfers fx ++ transfers gx := by
  simp [transfers]

theorem transfers_callIf (c : Bool) (e : Effect) (h : Effect.isTransfer e = false) :
    transfers (callIf c e) = [] := by
  unfold callIf; split_ifs
  · simp [transfers, h]
  · rfl

theorem transfers_encapsulateEvent (sz : Nat) (s : SdlInputHandler) (evt : SDL_Event) :
    transfers (encapsulateEvent sz s evt).2.2 = (encapsulateEvent sz s evt).2.2 := by
  unfold encapsulateEvent
  simp only []
  split_ifs <;> rfl

theorem encapsulateEvent_poolEq (sz : Nat) {s t : SdlInputHandler} (evt : SDL_Event)
    (h : PoolEq s t) :
    (encapsulateEvent sz t evt).1 = (encapsulateEvent sz s evt).1 ∧
    (encapsulateEvent sz t evt).2.2 = (encapsulateEvent sz s evt).2.2 ∧
    PoolEq (encapsulateEvent sz s evt).2.1 (encapsulateEvent sz t evt).2.1 := by
  obtain ⟨h1, h2, h3, h4, h5⟩ := h
  unfold encapsulateEvent needsNewBuffer PoolEq
  simp only [h1, h2, h3, h4, h5]
  split_ifs <;> simp [h1, h2, h3, h4, h5]

/-- The forward block on two states with the same pool: same effects, same pool
afterwards. -/
theorem forwardToLogic_poolEq (sz : Nat) {s t : SdlInputHandler} (evt : SDL_Event)
    (h : PoolEq s t) :
    (forwardToLogic sz t evt).2 = (forwardToLogic sz s evt).2 ∧
    PoolEq (forwardToLogic sz s evt).1 (forwardToLogic sz t evt).1 := by
  obtain ⟨h1, h2, h3⟩ := encapsulateEvent_poolEq sz evt h
  unfold forwardToLogic
  rw [h.1]
  split_ifs
  · exact ⟨by dsimp only; rw [h1, h2], h3⟩
  · exact ⟨rfl, h⟩

/-- The switch of `_handleSdlEvents` either leaves the pool alone and makes no
transfer, or does what the forward block does from the state it was entered in,
after effects that are no transfers. -/
theorem dispatch_pool (sz : Nat) (s : SdlInputHandler) (evt : SDL_Event) (env : SdlEnv) :
    (PoolEq s (dispatch sz s evt env).1 ∧ transfers (dispatch sz s evt env).2 = []) ∨
    (PoolEq (forwardToLogic sz s evt).1 (dispatch sz s evt env).1 ∧
      transfers (dispatch sz s evt env).2 = transfers (forwardToLogic sz s evt).2) := by
  have gen : ∀ (c : Bool) (e : Effect), Effect.isTransfer e = false →
      PoolEq (forwardToLogic sz s evt).1 (forwardToLogic sz s evt).1 ∧
      transfers (callIf c e ++ (forwardToLogic sz s evt).2) =
        transfers (forwardToLogic sz s evt).2 := by
    intro c e he
    exact ⟨poolEq_refl _, by rw [transfers_append, transfers_callIf c e he]; rfl⟩
  cases evt with
  | SDL_MOUSEMOTION x y =>
    simp only [dispatch]
    split_ifs with h1 h2
    · right
      dsimp only
      have hp := poolEq_trans (handleWarpMotion_poolEq s x y)
        (wrapMousePointer_poolEq (handleWarpMotion s x y).2 x y env)
      obtain ⟨e1, e2⟩ := forwardToLogic_poolEq sz (SDL_Event.SDL_MOUSEMOTION x y) hp
      refine ⟨e2, ?_⟩
      rw [transfers_append, transfers_append, transfers_callIf _ _ (by rfl),
        wrapMousePointer_noTransfer, e1]
      rfl
    · right
      dsimp only
      obtain ⟨e1, e2⟩ := forwardToLogic_poolEq sz (SDL_Event.SDL_MOUSEMOTION x y)
        (handleWarpMotion_poolEq s x y)
      refine ⟨e2, ?_⟩
      rw [transfers_append, transfers_append, transfers_callIf _ _ (by rfl), e1]
      rfl
    · left
      exact ⟨handleWarpMotion_poolEq s x y, rfl⟩
  | SDL_WINDOWEVENT event =>
    exact Or.inl ⟨handleWindowEvent_poolEq s event env, handleWindowEvent_noTransfer s event env⟩
  | SDL_JOYDEVICEADDED which => exact Or.inl ⟨poolEq_refl s, rfl⟩
  | SDL_JOYDEVICEREMOVED which => exact Or.inl ⟨poolEq_refl s, rfl⟩
  | unlisted type => exact Or.inl ⟨poolEq_refl s, rfl⟩
  | _ => exact Or.inr (gen _ _ rfl)

theorem notifiedIds_transfers (fx : List Effect) :
    notifiedIds (transfers fx) = notifiedIds fx := by
  induction fx with
  | nil => rfl
  | cons e fx ih =>
    cases e with
    | queueSendMessage msg =>
      cases msg <;> simp_all [notifiedIds, transfers, Effect.isTransfer]
    | _ => simp_all [notifiedIds, transfers, Effect.isTransfer]

theorem forwarded_transfers (fx : List Effect) :
    forwarded (transfers fx) = forwarded fx := by
  induction fx with
  | nil => rfl
  | cons e fx ih =>
    cases e with
    | queueSendMessage msg =>
      cases msg <;> simp_all [forwarded, transfers, Effect.isTransfer]
    | _ => simp_all [forwarded, transfers, Effect.isTransfer]

theorem writes_transfers (fx : List Effect) : writes (transfers fx) = writes fx := by
  induction fx with
  | nil => rfl
  | cons e fx ih =>
    cases e <;> simp_all [writes, transfers, Effect.isTransfer]

theorem mem_writes {fx : List Effect} {p : EventPtr} {evt : SDL_Event} :
    Effect.memcpy p evt ∈ fx ↔ (p, evt) ∈ writes fx := by
  induction fx with
  | nil => simp [writes]
  | cons e fx ih =>
    cases e <;> simp_all [writes]

/-- What one `encapsulateEvent` does, in full, by the three paths through it. -/
theorem encapsulateEvent_detail (sz : Nat) (s : SdlInputHandler) (evt : SDL_Event) :
    (needsNewBuffer s = false ∧
      (encapsulateEvent sz s evt).1 = ⟨s.mCurrentEventBuffer, s.mEventBufferOffset⟩ ∧
      (encapsulateEvent sz s evt).2.1.mEventBuffers =
        writeRecord s.mEventBuffers ⟨s.mCurrentEventBuffer, s.mEventBufferOffset⟩ evt ∧
      (encapsulateEvent sz s evt).2.1.mFreeEventBuffers = s.mFreeEventBuffers ∧
      (encapsulateEvent sz s evt).2.1.mCurrentEventBuffer = s.mCurrentEventBuffer ∧
      (encapsulateEvent sz s evt).2.1.mEventBufferOffset = s.mEventBufferOffset + sz ∧
      (encapsulateEvent sz s evt).2.2 =
        [Effect.memcpy ⟨s.mCurrentEventBuffer, s.mEventBufferOffset⟩ evt]) ∨
    (needsNewBuffer s = true ∧ s.mFreeEventBuffers = [] ∧
      (encapsulateEvent sz s evt).1 = ⟨s.mEventBuffers.length, 0⟩ ∧
      (encapsulateEvent sz s evt).2.1.mEventBuffers =
        writeRecord (s.mEventBuffers ++ [{ size := 70 * sz, records := [] }])
          ⟨s.mEventBuffers.length, 0⟩ evt ∧
      (encapsulateEvent sz s evt).2.1.mFreeEventBuffers = [] ∧
      (encapsulateEvent sz s evt).2.1.mCurrentEventBuffer = s.mEventBuffers.length ∧
      (encapsulateEvent sz s evt).2.1.mEventBufferOffset = sz ∧
      (encapsulateEvent sz s evt).2.2 =
        [Effect.queueSendMessage (Message.SDL_EVENT_BUFFER_ID_USED s.mEventBuffers.length),
         Effect.memcpy ⟨s.mEventBuffers.length, 0⟩ evt]) ∨
    (needsNewBuffer s = true ∧ ∃ rest id, s.mFreeEventBuffers = rest ++ [id] ∧
      (encapsulateEvent sz s evt).1 = ⟨id, 0⟩ ∧
      (encapsulateEvent sz s evt).2.1.mEventBuffers = writeRecord s.mEventBuffers ⟨id, 0⟩ evt ∧
      (encapsulateEvent sz s evt).2.1.mFreeEventBuffers = rest ∧
      (encapsulateEvent sz s evt).2.1.mCurrentEventBuffer = id ∧
      (encapsulateEvent sz s evt).2.1.mEventBufferOffset = sz ∧
      (encapsulateEvent sz s evt).2.2 =
        [Effect.queueSendMessage (Message.SDL_EVENT_BUFFER_ID_USED id),
         Effect.memcpy ⟨id, 0⟩ evt]) := by
  by_cases hn : needsNewBuffer s = true
  · rcases List.eq_nil_or_concat s.mFreeEventBuffers with h0 | ⟨rest, id, hfree⟩
    · right; left
      simp [encapsulateEvent, hn, h0]
    · right; right
      rw [List.concat_eq_append] at hfree
      refine ⟨hn, rest, id, hfree, ?_⟩
      simp [encapsulateEvent, hn, hfree]
  · left
    simp only [Bool.not_eq_true] at hn
    simp [encapsulateEvent, hn]

/-- What `_handleSdlEvents` does to the pool: it ends with the current index past
the buffers, and it either made no transfer and left buffers, free list and offset
alone, or made the transfers of one `encapsulateEvent` from the state it was
entered in, followed by the `SDL_EVENT` message. -/
theorem handleSdlEvents_pool (sz : Nat) (s : SdlInputHandler) (evt : SDL_Event) (env : SdlEnv) :
    (_handleSdlEvents sz s evt env).1.mCurrentEventBuffer =
      (_handleSdlEvents sz s evt env).1.mEventBuffers.length ∧
    ((transfers (_handleSdlEvents sz s evt env).2 = [] ∧
        (_handleSdlEvents sz s evt env).1.mEventBuffers = s.mEventBuffers ∧
        (_handleSdlEvents sz s evt env).1.mFreeEventBuffers = s.mFreeEventBuffers ∧
        (_handleSdlEvents sz s evt env).1.mEventBufferOffset = s.mEventBufferOffset) ∨
      (s.mLogicSystem = true ∧
        transfers (_handleSdlEvents sz s evt env).2 =
          (encapsulateEvent sz s evt).2.2 ++
            [Effect.queueSendMessage (Message.SDL_EVENT (encapsulateEvent sz s evt).1)] ∧
        (_handleSdlEvents sz s evt env).1.mEventBuffers =
          (encapsulateEvent sz s evt).2.1.mEventBuffers ∧
        (_handleSdlEvents sz s evt env).1.mFreeEventBuffers =
          (encapsulateEvent sz s evt).2.1.mFreeEventBuffers ∧
        (_handleSdlEvents sz s evt env).1.mEventBufferOffset =
          (encapsulateEvent sz s evt).2.1.mEventBufferOffset)) := by
  refine ⟨rfl, ?_⟩
  simp only [_handleSdlEvents]
  rcases dispatch_pool sz s evt env with ⟨hp, ht⟩ | ⟨hp, ht⟩
  · exact Or.inl ⟨ht, hp.2.1, hp.2.2.1, hp.2.2.2.2⟩
  · by_cases hl : s.mLogicSystem = true
    · right
      have hf : forwardToLogic sz s evt = ((encapsulateEvent sz s evt).2.1,
          (encapsulateEvent sz s evt).2.2 ++
            [Effect.queueSendMessage (Message.SDL_EVENT (encapsulateEvent sz s evt).1)]) := by
        simp [forwardToLogic, hl]
      rw [hf] at hp ht
      refine ⟨hl, ?_, hp.2.1, hp.2.2.1, hp.2.2.2.2⟩
      rw [ht, transfers_append, transfers_encapsulateEvent]
      rfl
    · left
      have hf : forwardToLogic sz s evt = (s, []) := by
        simp [forwardToLogic, hl]
      rw [hf] at hp ht
      exact ⟨ht, hp.2.1, hp.2.2.1, hp.2.2.2.2⟩

/-! ## The free list is a stack -/

/-- A call other than a release takes at most one slot: none; or the last entry of
the free list, with no allocation; or, the free list being empty, a new slot. -/
theorem step_acquire (sz : Nat) (s : SdlInputHandler) (a : Action)
    (ha : ∀ id, a ≠ Action.releaseEventBufferId id) :
    (notifiedIds (step sz s a).2 = [] ∧
      (step sz s a).1.mFreeEventBuffers = s.mFreeEventBuffers ∧
      (step sz s a).1.mEventBuffers.length = s.mEventBuffers.length) ∨
    (∃ rest id, s.mFreeEventBuffers = rest ++ [id] ∧ notifiedIds (step sz s a).2 = [id] ∧
      (step sz s a).1.mFreeEventBuffers = rest ∧
      (step sz s a).1.mEventBuffers.length = s.mEventBuffers.length) ∨
    (s.mFreeEventBuffers = [] ∧ notifiedIds (step sz s a).2 = [s.mEventBuffers.length] ∧
      (step sz s a).1.mFreeEventBuffers = [] ∧
      (step sz s a).1.mEventBuffers.length = s.mEventBuffers.length + 1) := by
  have henc : ∀ evt,
      (notifiedIds (encapsulateEvent sz s evt).2.2 = [] ∧
        (encapsulateEvent sz s evt).2.1.mFreeEventBuffers = s.mFreeEventBuffers ∧
        (encapsulateEvent sz s evt).2.1.mEventBuffers.length = s.mEventBuffers.length) ∨
      (∃ rest id, s.mFreeEventBuffers = rest ++ [id] ∧
        notifiedIds (encapsulateEvent sz s evt).2.2 = [id] ∧
        (encapsulateEvent sz s evt).2.1.mFreeEventBuffers = rest ∧
        (encapsulateEvent sz s evt).2.1.mEventBuffers.length = s.mEventBuffers.length) ∨
      (s.mFreeEventBuffers = [] ∧
        notifiedIds (encapsulateEvent sz s evt).2.2 = [s.mEventBuffers.length] ∧
        (encapsulateEvent sz s evt).2.1.mFreeEventBuffers = [] ∧
        (encapsulateEvent sz s evt).2.1.mEventBuffers.length = s.mEventBuffers.length + 1) := by
    intro evt
    rcases encapsulateEvent_cases sz s evt with
      ⟨_, hfree, hlen, _, hfx⟩ | ⟨_, hnil, hfree, hlen, _, hfx⟩ |
      ⟨_, rest, id, hconc, hfree, hlen, _, hfx⟩
    · exact Or.inl ⟨by rw [hfx]; rfl, hfree, hlen⟩
    · exact Or.inr (Or.inr ⟨hnil, by rw [hfx]; rfl, hfree, hlen⟩)
    · exact Or.inr (Or.inl ⟨rest, id, hconc, by rw [hfx]; rfl, hfree, hlen⟩)
  have hupd : ∀ (s0 : SdlInputHandler) (env : SdlEnv),
      s0.mFreeEventBuffers = s.mFreeEventBuffers → s0.mEventBuffers = s.mEventBuffers →
      notifiedIds (updateMouseSettings s0 env).2 = [] ∧
      (updateMouseSettings s0 env).1.mFreeEventBuffers = s.mFreeEventBuffers ∧
      (updateMouseSettings s0 env).1.mEventBuffers.length = s.mEventBuffers.length := by
    intro s0 env h1 h2
    have hp := updateMouseSettings_poolEq s0 env
    refine ⟨?_, hp.2.2.1.trans h1, by rw [hp.2.1, h2]⟩
    rw [← notifiedIds_transfers, updateMouseSettings_noTransfer]
    rfl
  cases a with
  | releaseEventBufferId id => exact absurd rfl (ha id)
  | encapsulateEvent evt => exact henc evt
  | handleSdlEvents evt env =>
    obtain ⟨_, hcase⟩ := handleSdlEvents_pool sz s evt env
    rcases hcase with ⟨ht, hb, hf, _⟩ | ⟨_, ht, hb, hf, _⟩
    · left
      refine ⟨?_, hf, congrArg List.length hb⟩
      show notifiedIds (_handleSdlEvents sz s evt env).2 = []
      rw [← notifiedIds_transfers, ht]
      rfl
    · have hn : notifiedIds (_handleSdlEvents sz s evt env).2 =
          notifiedIds (encapsulateEvent sz s evt).2.2 := by
        rw [← notifiedIds_transfers, ht, notifiedIds_append]
        simp [notifiedIds]
      show (notifiedIds (_handleSdlEvents sz s evt env).2 = [] ∧
          (_handleSdlEvents sz s evt env).1.mFreeEventBuffers = s.mFreeEventBuffers ∧
          (_handleSdlEvents sz s evt env).1.mEventBuffers.length = s.mEventBuffers.length) ∨
        (∃ rest id, s.mFreeEventBuffers = rest ++ [id] ∧
          notifiedIds (_handleSdlEvents sz s evt env).2 = [id] ∧
          (_handleSdlEvents sz s evt env).1.mFreeEventBuffers = rest ∧
          (_handleSdlEvents sz s evt env).1.mEventBuffers.length = s.mEventBuffers.length) ∨
        (s.mFreeEventBuffers = [] ∧
          notifiedIds (_handleSdlEvents sz s evt env).2 = [s.mEventBuffers.length] ∧
          (_handleSdlEvents sz s evt env).1.mFreeEventBuffers = [] ∧
          (_handleSdlEvents sz s evt env).1.mEventBuffers.length = s.mEventBuffers.length + 1)
      rw [hn, hb, hf]
      exact henc evt
  | setGrabMousePointer grab env => exact Or.inl (hupd _ env rfl rfl)
  | setMouseRelative relative env => exact Or.inl (hupd _ env rfl rfl)
  | setMouseVisible visible env => exact Or.inl (hupd _ env rfl rfl)
  | setLogicSystem attached => exact Or.inl ⟨rfl, rfl, rfl⟩

/-- Without a release in between, slots are taken from the free list last entry
first, and no slot is allocated before the free list is used up. -/
theorem lifo_general (sz : Nat) (acts : List Action) :
    ∀ s : SdlInputHandler, (∀ a ∈ acts, ∀ id, a ≠ Action.releaseEventBufferId id) →
      (notifiedIds (execFx sz s acts)).take s.mFreeEventBuffers.length =
        s.mFreeEventBuffers.reverse.take (notifiedIds (execFx sz s acts)).length ∧
      ((notifiedIds (execFx sz s acts)).length ≤ s.mFreeEventBuffers.length →
        (exec sz s acts).mEventBuffers.length = s.mEventBuffers.length) := by
  induction acts with
  | nil => intro s _; simp [execFx, exec, notifiedIds]
  | cons a as ih =>
    intro s h
    obtain ⟨ih1, ih2⟩ := ih (step sz s a).1 (fun b hb => h b (List.mem_cons_of_mem _ hb))
    simp only [execFx, exec, notifiedIds_append]
    rcases step_acquire sz s a (h a (List.mem_cons_self _ _)) with
      ⟨hn, hf, hl⟩ | ⟨rest, id, hconc, hn, hf, hl⟩ | ⟨hnil, hn, hf, hl⟩
    · rw [hn, List.nil_append]
      rw [hf] at ih1 ih2
      rw [hl] at ih2
      exact ⟨ih1, ih2⟩
    · rw [hn, hconc]
      rw [hf] at ih1 ih2
      rw [hl] at ih2
      constructor
      · simp only [List.singleton_append, List.length_append, List.length_singleton,
          List.length_nil, zero_add, List.take_succ_cons, List.reverse_append,
          List.reverse_singleton, List.length_cons, ih1]
      · intro hle
        simp only [List.singleton_append, List.length_cons, List.length_append,
          List.length_singleton, List.length_nil, zero_add] at hle
        exact ih2 (by omega)
    · rw [hn, hnil]
      constructor
      · simp
      · intro hle
        simp at hle

/-- C14: after `_releaseEventBufferId(a)` then `_releaseEventBufferId(b)`, in any
continuation without a release, the first slot taken is `b` and the second is `a`;
no buffer is allocated as long as no more slots were taken than the free list held;
and a call made while the free list is non-empty allocates nothing. -/
theorem C14_free_list_lifo (sz : Nat) (s : SdlInputHandler) (a b : Nat) (acts : List Action)
    (hacts : ∀ c ∈ acts, ∀ id, c ≠ Action.releaseEventBufferId id) :
    (∀ id, (notifiedIds (execFx sz
      (_releaseEventBufferId (_releaseEventBufferId s a) b) acts))[0]? = some id → id = b) ∧
    (∀ id, (notifiedIds (execFx sz
      (_releaseEventBufferId (_releaseEventBufferId s a) b) acts))[1]? = some id → id = a) ∧
    ((notifiedIds (execFx sz
        (_releaseEventBufferId (_releaseEventBufferId s a) b) acts)).length ≤
        s.mFreeEventBuffers.length + 2 →
      (exec sz (_releaseEventBufferId (_releaseEventBufferId s a) b) acts).mEventBuffers.length =
        s.mEventBuffers.length) ∧
    (∀ (t : SdlInputHandler) (c : Action), (∀ id, c ≠ Action.releaseEventBufferId id) →
      t.mFreeEventBuffers ≠ [] →
      (step sz t c).1.mEventBuffers.length = t.mEventBuffers.length) := by
  obtain ⟨h1, h2⟩ := lifo_general sz acts (_releaseEventBufferId (_releaseEventBufferId s a) b)
    hacts
  have hfree : (_releaseEventBufferId (_releaseEventBufferId s a) b).mFreeEventBuffers =
      s.mFreeEventBuffers ++ [a] ++ [b] := rfl
  rw [hfree] at h1 h2
  simp only [List.length_append, List.length_singleton, List.reverse_append,
    List.reverse_singleton, List.singleton_append] at h1 h2
  refine ⟨?_, ?_, h2, ?_⟩
  · intro id hid
    cases hn : notifiedIds (execFx sz (_releaseEventBufferId (_releaseEventBufferId s a) b) acts)
      with
    | nil => rw [hn] at hid; simp at hid
    | cons x n1 =>
      rw [hn] at hid h1
      simp only [List.getElem?_cons_zero, Option.some.injEq] at hid
      simp only [List.take_succ_cons, List.length_cons, List.cons.injEq] at h1
      rw [← hid]
      exact h1.1
  · intro id hid
    cases hn : notifiedIds (execFx sz (_releaseEventBufferId (_releaseEventBufferId s a) b) acts)
      with
    | nil => rw [hn] at hid; simp at hid
    | cons x n1 =>
      cases n1 with
      | nil => rw [hn] at hid; simp at hid
      | cons y n2 =>
        rw [hn] at hid h1
        simp only [List.getElem?_cons_succ, List.getElem?_cons_zero, Option.some.injEq] at hid
        simp only [List.take_succ_cons, List.length_cons, List.cons.injEq] at h1
        rw [← hid]
        exact h1.2.1
  · intro t c hc hne
    rcases step_acquire sz t c hc with ⟨_, _, hl⟩ | ⟨_, _, _, _, _, hl⟩ | ⟨hnil, _, _, _⟩
    · exact hl
    · exact hl
    · exact absurd hnil hne

/-- C14 at two outstanding slots 0 and 1, released in that order, and two more
routed events: slot 1 is taken first and no buffer is allocated. -/
theorem C14_free_list_lifo_witness :
    (∀ c ∈ [Action.handleSdlEvents (SDL_Event.SDL_KEYDOWN 5 0) ⟨0, 800, 600⟩,
        Action.handleSdlEvents (SDL_Event.SDL_KEYUP 5 0) ⟨0, 800, 600⟩],
      ∀ id, c ≠ Action.releaseEventBufferId id) ∧
    (notifiedIds (execFx 56
      (_releaseEventBufferId (_releaseEventBufferId twoOutstandingState 0) 1)
      [Action.handleSdlEvents (SDL_Event.SDL_KEYDOWN 5 0) ⟨0, 800, 600⟩,
       Action.handleSdlEvents (SDL_Event.SDL_KEYUP 5 0) ⟨0, 800, 600⟩]))[0]? = some 1 ∧
    (exec 56 (_releaseEventBufferId (_releaseEventBufferId twoOutstandingState 0) 1)
      [Action.handleSdlEvents (SDL_Event.SDL_KEYDOWN 5 0) ⟨0, 800, 600⟩,
       Action.handleSdlEvents (SDL_Event.SDL_KEYUP 5 0) ⟨0, 800, 600⟩]).mEventBuffers.length =
      twoOutstandingState.mEventBuffers.length :=
  ⟨by simp, by decide,
    (C14_free_list_lifo 56 twoOutstandingState 0 1
      [Action.handleSdlEvents (SDL_Event.SDL_KEYDOWN 5 0) ⟨0, 800, 600⟩,
       Action.handleSdlEvents (SDL_Event.SDL_KEYUP 5 0) ⟨0, 800, 600⟩] (by simp)).2.2.1
      (by decide)⟩

/-! ## One slot per routed event -/

theorem needsNewBuffer_of_pastEnd {s : SdlInputHandler} (h : PastEnd s) :
    needsNewBuffer s = true := by
  simp only [needsNewBuffer, Bool.or_eq_true, decide_eq_true_eq]
  exact Or.inl h

/-- From a state with the current index past the buffers, `_handleSdlEvents`
either makes no transfer and leaves buffers and free list alone, or takes one slot
(the last of the free list, or a new one when the free list is empty), with
exactly these transfers: the notification, the write at offset 0, the forward. -/
theorem handleSdlEvents_one_slot (sz : Nat) (s : SdlInputHandler) (evt : SDL_Event)
    (env : SdlEnv) (hs : PastEnd s) :
    (transfers (_handleSdlEvents sz s evt env).2 = [] ∧
      (_handleSdlEvents sz s evt env).1.mEventBuffers = s.mEventBuffers ∧
      (_handleSdlEvents sz s evt env).1.mFreeEventBuffers = s.mFreeEventBuffers) ∨
    (∃ id, transfers (_handleSdlEvents sz s evt env).2 =
        [Effect.queueSendMessage (Message.SDL_EVENT_BUFFER_ID_USED id),
         Effect.memcpy ⟨id, 0⟩ evt,
         Effect.queueSendMessage (Message.SDL_EVENT ⟨id, 0⟩)] ∧
      ((s.mFreeEventBuffers = [] ∧ id = s.mEventBuffers.length ∧
          (_handleSdlEvents sz s evt env).1.mEventBuffers.length = s.mEventBuffers.length + 1 ∧
          (_handleSdlEvents sz s evt env).1.mFreeEventBuffers = []) ∨
        (∃ rest, s.mFreeEventBuffers = rest ++ [id] ∧
          (_handleSdlEvents sz s evt env).1.mEventBuffers.length = s.mEventBuffers.length ∧
          (_handleSdlEvents sz s evt env).1.mFreeEventBuffers = rest))) := by
  obtain ⟨_, hcase⟩ := handleSdlEvents_pool sz s evt env
  rcases hcase with ⟨ht, hb, hf, _⟩ | ⟨_, ht, hb, hf, _⟩
  · exact Or.inl ⟨ht, hb, hf⟩
  · right
    have hn := needsNewBuffer_of_pastEnd hs
    rcases encapsulateEvent_detail sz s evt with
      ⟨hn', _⟩ | ⟨_, hnil, hptr, hbufs, hfree, _, _, hfx⟩ |
      ⟨_, rest, id, hconc, hptr, hbufs, hfree, _, _, hfx⟩
    · rw [hn] at hn'; exact Bool.noConfusion hn'
    · refine ⟨s.mEventBuffers.length, ?_, Or.inl ⟨hnil, rfl, ?_, ?_⟩⟩
      · rw [ht, hfx, hptr]; rfl
      · rw [hb, hbufs, length_writeRecord]; simp
      · rw [hf, hfree]
    · refine ⟨id, ?_, Or.inr ⟨rest, hconc, ?_, ?_⟩⟩
      · rw [ht, hfx, hptr]; rfl
      · rw [hb, hbufs, length_writeRecord]
      · rw [hf, hfree]

/-- A call other than a direct `encapsulateEvent` keeps the current index past the
buffers, and makes no transfer or the three transfers of one routed event. -/
theorem step_routed (sz : Nat) (s : SdlInputHandler) (a : Action) (hs : PastEnd s)
    (ha : ∀ evt, a ≠ Action.encapsulateEvent evt) :
    PastEnd (step sz s a).1 ∧
    ((transfers (step sz s a).2 = [] ∧
        (step sz s a).1.mEventBuffers.length = s.mEventBuffers.length ∧
        ((∀ id, a ≠ Action.releaseEventBufferId id) →
          (step sz s a).1.mFreeEventBuffers = s.mFreeEventBuffers)) ∨
      (∃ id evt, transfers (step sz s a).2 =
          [Effect.queueSendMessage (Message.SDL_EVENT_BUFFER_ID_USED id),
           Effect.memcpy ⟨id, 0⟩ evt,
           Effect.queueSendMessage (Message.SDL_EVENT ⟨id, 0⟩)] ∧
        ((s.mFreeEventBuffers = [] ∧
            (step sz s a).1.mEventBuffers.length = s.mEventBuffers.length + 1 ∧
            (step sz s a).1.mFreeEventBuffers = []) ∨
          (s.mFreeEventBuffers ≠ [] ∧
            (step sz s a).1.mEventBuffers.length = s.mEventBuffers.length)))) := by
  have hupd : ∀ (s0 : SdlInputHandler) (env : SdlEnv), PoolEq s s0 →
      PastEnd (updateMouseSettings s0 env).1 ∧
      ((transfers (updateMouseSettings s0 env).2 = [] ∧
        (updateMouseSettings s0 env).1.mEventBuffers.length = s.mEventBuffers.length ∧
        (updateMouseSettings s0 env).1.mFreeEventBuffers = s.mFreeEventBuffers)) := by
    intro s0 env h0
    have hp := poolEq_trans h0 (updateMouseSettings_poolEq s0 env)
    refine ⟨?_, updateMouseSettings_noTransfer s0 env, by rw [hp.2.1], hp.2.2.1⟩
    unfold PastEnd
    rw [hp.2.1, hp.2.2.2.1]
    exact hs
  cases a with
  | encapsulateEvent evt => exact absurd rfl (ha evt)
  | releaseEventBufferId id =>
    exact ⟨hs, Or.inl ⟨rfl, rfl, fun h => absurd rfl (h id)⟩⟩
  | handleSdlEvents evt env =>
    refine ⟨le_of_eq (handleSdlEvents_pool sz s evt env).1.symm, ?_⟩
    rcases handleSdlEvents_one_slot sz s evt env hs with
      ⟨ht, hb, hf⟩ | ⟨id, ht, ⟨hnil, _, hl, hf⟩ | ⟨rest, hconc, hl, _⟩⟩
    · exact Or.inl ⟨ht, congrArg List.length hb, fun _ => hf⟩
    · exact Or.inr ⟨id, evt, ht, Or.inl ⟨hnil, hl, hf⟩⟩
    · exact Or.inr ⟨id, evt, ht, Or.inr ⟨by rw [hconc]; simp, hl⟩⟩
  | setGrabMousePointer grab env =>
    obtain ⟨h1, h2, h3, h4⟩ := hupd { s with mWantMouseGrab := grab } env ⟨rfl, rfl, rfl, rfl, rfl⟩
    exact ⟨h1, Or.inl ⟨h2, h3, fun _ => h4⟩⟩
  | setMouseRelative relative env =>
    obtain ⟨h1, h2, h3, h4⟩ := hupd { s with mWantRelative := relative } env
      ⟨rfl, rfl, rfl, rfl, rfl⟩
    exact ⟨h1, Or.inl ⟨h2, h3, fun _ => h4⟩⟩
  | setMouseVisible visible env =>
    obtain ⟨h1, h2, h3, h4⟩ := hupd { s with mWantMouseVisible := visible } env
      ⟨rfl, rfl, rfl, rfl, rfl⟩
    exact ⟨h1, Or.inl ⟨h2, h3, fun _ => h4⟩⟩
  | setLogicSystem attached => exact ⟨hs, Or.inl ⟨rfl, rfl, fun _ => rfl⟩⟩

theorem routed_counts (sz : Nat) (acts : List Action) :
    ∀ s : SdlInputHandler, PastEnd s → (∀ a ∈ acts, ∀ evt, a ≠ Action.encapsulateEvent evt) →
      PastEnd (exec sz s acts) ∧
      (notifiedIds (execFx sz s acts)).length = (forwarded (execFx sz s acts)).length ∧
      (∀ p ∈ forwarded (execFx sz s acts), p.offset = 0) ∧
      (∀ w ∈ writes (execFx sz s acts), w.1.offset = 0) := by
  induction acts with
  | nil => intro s hs _; exact ⟨hs, rfl, by simp [execFx, forwarded], by simp [execFx, writes]⟩
  | cons a as ih =>
    intro s hs h
    obtain ⟨hs', hcase⟩ := step_routed sz s a hs (h a (List.mem_cons_self _ _))
    obtain ⟨i1, i2, i3, i4⟩ := ih _ hs' (fun b hb => h b (List.mem_cons_of_mem _ hb))
    have hx : notifiedIds (step sz s a).2 = notifiedIds (transfers (step sz s a).2) :=
      (notifiedIds_transfers _).symm
    have hy : forwarded (step sz s a).2 = forwarded (transfers (step sz s a).2) :=
      (forwarded_transfers _).symm
    have hz : writes (step sz s a).2 = writes (transfers (step sz s a).2) :=
      (writes_transfers _).symm
    simp only [exec, execFx, notifiedIds_append, forwarded_append, List.length_append, hx, hy]
    have hwr : writes ((step sz s a).2 ++ execFx sz (step sz s a).1 as) =
        writes (transfers (step sz s a).2) ++ writes (execFx sz (step sz s a).1 as) := by
      rw [← hz]; simp [writes]
    rw [hwr]
    rcases hcase with ⟨ht, _, _⟩ | ⟨id, evt, ht, _⟩
    · rw [ht]
      exact ⟨i1, by simpa [notifiedIds, forwarded] using i2,
        by simpa [forwarded] using i3, by simpa [writes] using i4⟩
    · rw [ht]
      refine ⟨i1, by simpa [notifiedIds, forwarded] using i2, ?_, ?_⟩
      · intro p hp
        simp only [forwarded, List.filterMap_cons, List.filterMap_nil, List.singleton_append,
          List.mem_cons] at hp
        rcases hp with rfl | hp
        · rfl
        · exact i3 p hp
      · intro w hw
        simp only [writes, List.filterMap_cons, List.filterMap_nil, List.singleton_append,
          List.mem_cons] at hw
        rcases hw with rfl | hw
        · rfl
        · exact i4 w hw

theorem routed_allocations (sz : Nat) (acts : List Action) :
    ∀ s : SdlInputHandler, PastEnd s → s.mFreeEventBuffers = [] →
      (∀ a ∈ acts, ∀ evt, a ≠ Action.encapsulateEvent evt) →
      (∀ a ∈ acts, ∀ id, a ≠ Action.releaseEventBufferId id) →
      (exec sz s acts).mEventBuffers.length =
        s.mEventBuffers.length + (forwarded (execFx sz s acts)).length := by
  induction acts with
  | nil => intro s _ _ _ _; simp [exec, execFx, forwarded]
  | cons a as ih =>
    intro s hs hfree h1 h2
    obtain ⟨hs', hcase⟩ := step_routed sz s a hs (h1 a (List.mem_cons_self _ _))
    have hy : forwarded (step sz s a).2 = forwarded (transfers (step sz s a).2) :=
      (forwarded_transfers _).symm
    simp only [exec, execFx, forwarded_append, List.length_append, hy]
    rcases hcase with ⟨ht, hl, hf⟩ | ⟨id, evt, ht, ⟨_, hl, hf⟩ | ⟨hne, _⟩⟩
    · have hf' := hf (h2 a (List.mem_cons_self _ _))
      rw [ih _ hs' (by rw [hf', hfree]) (fun b hb => h1 b (List.mem_cons_of_mem _ hb))
        (fun b hb => h2 b (List.mem_cons_of_mem _ hb)), ht, hl]
      simp [forwarded]
    · rw [ih _ hs' hf (fun b hb => h1 b (List.mem_cons_of_mem _ hb))
        (fun b hb => h2 b (List.mem_cons_of_mem _ hb)), ht, hl]
      simp [forwarded]
      omega
    · exact absurd hfree hne

/-- C18: (1) `_handleSdlEvents` always ends with `mCurrentEventBuffer` equal to
`mEventBuffers.size()`, and from such a state a routed event that is forwarded
takes one slot, the last of the free list or a new one when the free list is
empty, with exactly these transfers in this order: one `slot in use` notification,
the write of the event at offset 0 of that slot, the `SDL_EVENT` message pointing
there; an event that is not forwarded makes no transfer. (2) From the constructor's
state, for every sequence of calls without a direct `encapsulateEvent` (routed
events, setters, releases), there are as many `slot in use` notifications as
forwarded events, and every write and every forwarded pointer is at offset 0.
(3) If moreover nothing is released, the number of allocated slots equals the
number of forwarded events. -/
theorem C18_one_slot_per_routed_event (sz : Nat) :
    (∀ (s : SdlInputHandler) (evt : SDL_Event) (env : SdlEnv),
      (_handleSdlEvents sz s evt env).1.mCurrentEventBuffer =
        (_handleSdlEvents sz s evt env).1.mEventBuffers.length ∧
      (PastEnd s →
        (transfers (_handleSdlEvents sz s evt env).2 = [] ∧
          (_handleSdlEvents sz s evt env).1.mEventBuffers = s.mEventBuffers ∧
          (_handleSdlEvents sz s evt env).1.mFreeEventBuffers = s.mFreeEventBuffers) ∨
        (∃ id, transfers (_handleSdlEvents sz s evt env).2 =
            [Effect.queueSendMessage (Message.SDL_EVENT_BUFFER_ID_USED id),
             Effect.memcpy ⟨id, 0⟩ evt,
             Effect.queueSendMessage (Message.SDL_EVENT ⟨id, 0⟩)] ∧
          ((s.mFreeEventBuffers = [] ∧ id = s.mEventBuffers.length ∧
              (_handleSdlEvents sz s evt env).1.mEventBuffers.length =
                s.mEventBuffers.length + 1 ∧
              (_handleSdlEvents sz s evt env).1.mFreeEventBuffers = []) ∨
            (∃ rest, s.mFreeEventBuffers = rest ++ [id] ∧
              (_handleSdlEvents sz s evt env).1.mEventBuffers.length = s.mEventBuffers.length ∧
              (_handleSdlEvents sz s evt env).1.mFreeEventBuffers = rest))))) ∧
    (∀ (mouseListener keyboardListener joystickListener : Bool) (acts : List Action),
      (∀ a ∈ acts, ∀ evt, a ≠ Action.encapsulateEvent evt) →
      (notifiedIds (execFx sz (ctor mouseListener keyboardListener joystickListener)
          acts)).length =
        (forwarded (execFx sz (ctor mouseListener keyboardListener joystickListener)
          acts)).length ∧
      (∀ p ∈ forwarded (execFx sz (ctor mouseListener keyboardListener joystickListener) acts),
        p.offset = 0) ∧
      (∀ w ∈ writes (execFx sz (ctor mouseListener keyboardListener joystickListener) acts),
        w.1.offset = 0)) ∧
    (∀ (mouseListener keyboardListener joystickListener : Bool) (acts : List Action),
      (∀ a ∈ acts, ∀ evt, a ≠ Action.encapsulateEvent evt) →
      (∀ a ∈ acts, ∀ id, a ≠ Action.releaseEventBufferId id) →
      (exec sz (ctor mouseListener keyboardListener joystickListener)
          acts).mEventBuffers.length =
        (forwarded (execFx sz (ctor mouseListener keyboardListener joystickListener)
          acts)).length) := by
  have h0 : ∀ m k j : Bool, PastEnd (ctor m k j) := fun m k j => le_refl _
  refine ⟨fun s evt env => ⟨(handleSdlEvents_pool sz s evt env).1,
    handleSdlEvents_one_slot sz s evt env⟩, ?_, ?_⟩
  · intro m k j acts h
    exact (routed_counts sz acts _ (h0 m k j) h).2
  · intro m k j acts h1 h2
    have := routed_allocations sz acts _ (h0 m k j) rfl h1 h2
    simpa [ctor] using this

/-- C18 at two routed key events with the logic system attached: two buffers. -/
theorem C18_one_slot_per_routed_event_witness :
    (∀ a ∈ [Action.setLogicSystem true,
        Action.handleSdlEvents (SDL_Event.SDL_KEYDOWN 4 0) ⟨0, 800, 600⟩,
        Action.handleSdlEvents (SDL_Event.SDL_KEYUP 4 0) ⟨0, 800, 600⟩],
      ∀ evt, a ≠ Action.encapsulateEvent evt) ∧
    (exec 56 (ctor true true true)
      [Action.setLogicSystem true,
       Action.handleSdlEvents (SDL_Event.SDL_KEYDOWN 4 0) ⟨0, 800, 600⟩,
       Action.handleSdlEvents (SDL_Event.SDL_KEYUP 4 0) ⟨0, 800, 600⟩]).mEventBuffers.length
      = 2 :=
  ⟨by simp,
    (C18_one_slot_per_routed_event 56).2.2 true true true
      [Action.setLogicSystem true,
       Action.handleSdlEvents (SDL_Event.SDL_KEYDOWN 4 0) ⟨0, 800, 600⟩,
       Action.handleSdlEvents (SDL_Event.SDL_KEYUP 4 0) ⟨0, 800, 600⟩] (by simp) (by simp)⟩

/-! ## Writes stay inside the buffers -/

theorem writeRecord_sized {n : Nat} {bufs : List EventBuffer} (p : EventPtr) (evt : SDL_Event)
    (h : ∀ (i : Nat) (b : EventBuffer), bufs[i]? = some b → b.size = n) :
    ∀ (i : Nat) (b : EventBuffer), (writeRecord bufs p evt)[i]? = some b → b.size = n := by
  intro i b hb
  simp only [writeRecord, List.getElem?_modify] at hb
  cases hi : bufs[i]? with
  | none => rw [hi] at hb; simp at hb
  | some b0 =>
    rw [hi] at hb
    simp only [Option.map_eq_map, Option.map_some', Option.some.injEq] at hb
    have h0 := h i b0 hi
    rw [← hb]
    split_ifs
    · exact h0
    · exact h0

theorem append_new_sized {sz : Nat} {bufs : List EventBuffer}
    (h : ∀ (i : Nat) (b : EventBuffer), bufs[i]? = some b → b.size = 70 * sz) :
    ∀ (i : Nat) (b : EventBuffer),
      (bufs ++ [({ size := 70 * sz, records := [] } : EventBuffer)])[i]? = some b →
      b.size = 70 * sz := by
  intro i b hb
  by_cases hi : i < bufs.length
  · rw [List.getElem?_append_left hi] at hb
    exact h i b hb
  · rw [List.getElem?_append_right (not_lt.1 hi)] at hb
    cases hj : i - bufs.length with
    | zero =>
      rw [hj] at hb
      simp only [List.getElem?_cons_zero, Option.some.injEq] at hb
      rw [← hb]
    | succ j =>
      rw [hj] at hb
      simp at hb

theorem room_of_needsNewBuffer_false {s : SdlInputHandler} (h : needsNewBuffer s = false) :
    ∃ b, s.mEventBuffers[s.mCurrentEventBuffer]? = some b ∧ s.mEventBufferOffset < b.size := by
  have hlt := lt_of_needsNewBuffer_false h
  simp only [needsNewBuffer, List.get?_eq_getElem?, List.getElem?_eq_getElem hlt,
    Bool.or_eq_false_iff, decide_eq_false_iff_not, not_le] at h
  exact ⟨_, List.getElem?_eq_getElem hlt, h.2⟩

/-- The write of one `encapsulateEvent`, from a state with sized buffers, an
aligned offset and a free list of allocated slots: the slot exists, has 70 records
of room, and the record written lies inside it on a record boundary. The sizing and
the alignment hold again afterwards. -/
theorem encapsulateEvent_inbounds (sz : Nat) (s : SdlInputHandler) (evt : SDL_Event)
    (hb : BuffersSized sz s) (ho : OffsetAligned sz s)
    (hfree : ∀ id ∈ s.mFreeEventBuffers, id < s.mEventBuffers.length) :
    writes (encapsulateEvent sz s evt).2.2 = [((encapsulateEvent sz s evt).1, evt)] ∧
    (encapsulateEvent sz s evt).1.slot < (encapsulateEvent sz s evt).2.1.mEventBuffers.length ∧
    sz ∣ (encapsulateEvent sz s evt).1.offset ∧
    (encapsulateEvent sz s evt).1.offset + sz ≤ 70 * sz ∧
    BuffersSized sz (encapsulateEvent sz s evt).2.1 ∧
    OffsetAligned sz (encapsulateEvent sz s evt).2.1 := by
  rcases encapsulateEvent_detail sz s evt with
    ⟨hn, hptr, hbufs, _, hcur, hoff, hfx⟩ | ⟨_, _, hptr, hbufs, _, hcur, hoff, hfx⟩ |
    ⟨_, rest, id, hconc, hptr, hbufs, _, hcur, hoff, hfx⟩
  · have hlt := lt_of_needsNewBuffer_false hn
    obtain ⟨b, hbb, hroom⟩ := room_of_needsNewBuffer_false hn
    have hsize := hb _ b hbb
    obtain ⟨k, hk⟩ := ho hlt
    have hbound : s.mEventBufferOffset + sz ≤ 70 * sz := by
      rw [hsize, hk] at hroom
      have hk70 : k < 70 := by
        by_contra hc
        have : 70 * sz ≤ sz * k := by
          rw [Nat.mul_comm 70 sz]
          exact Nat.mul_le_mul_left sz (not_lt.1 hc)
        omega
      have : sz * (k + 1) ≤ sz * 70 := Nat.mul_le_mul_left sz hk70
      rw [hk]
      calc sz * k + sz = sz * (k + 1) := by ring
        _ ≤ sz * 70 := this
        _ = 70 * sz := Nat.mul_comm _ _
    refine ⟨by rw [hfx, hptr]; rfl, ?_, ?_, ?_, ?_, ?_⟩
    · rw [hptr, hbufs, length_writeRecord]; exact hlt
    · rw [hptr]; exact ho hlt
    · rw [hptr]; exact hbound
    · intro i b' hi
      rw [hbufs] at hi
      exact writeRecord_sized _ _ hb i b' hi
    · intro _
      rw [hoff]
      exact Dvd.dvd.add (ho hlt) (dvd_refl sz)
  · refine ⟨by rw [hfx, hptr]; rfl, ?_, ?_, ?_, ?_, ?_⟩
    · rw [hptr, hbufs, length_writeRecord]; simp
    · rw [hptr]; exact dvd_zero sz
    · rw [hptr]; simp only [zero_add]; omega
    · intro i b' hi
      rw [hbufs] at hi
      exact writeRecord_sized _ _ (append_new_sized hb) i b' hi
    · intro _
      rw [hoff]
  · have hid : id < s.mEventBuffers.length := hfree id (by rw [hconc]; simp)
    refine ⟨by rw [hfx, hptr]; rfl, ?_, ?_, ?_, ?_, ?_⟩
    · rw [hptr, hbufs, length_writeRecord]; exact hid
    · rw [hptr]; exact dvd_zero sz
    · rw [hptr]; simp only [zero_add]; omega
    · intro i b' hi
      rw [hbufs] at hi
      exact writeRecord_sized _ _ hb i b' hi
    · intro _
      rw [hoff]

/-- Every call keeps the buffers sized and the offset aligned, provided the free
list holds allocated slots. -/
theorem step_sized (sz : Nat) (s : SdlInputHandler) (a : Action)
    (hb : BuffersSized sz s) (ho : OffsetAligned sz s)
    (hfree : ∀ id ∈ s.mFreeEventBuffers, id < s.mEventBuffers.length) :
    BuffersSized sz (step sz s a).1 ∧ OffsetAligned sz (step sz s a).1 := by
  have hupd : ∀ (s0 : SdlInputHandler) (env : SdlEnv), PoolEq s s0 →
      BuffersSized sz (updateMouseSettings s0 env).1 ∧
      OffsetAligned sz (updateMouseSettings s0 env).1 := by
    intro s0 env h0
    have hp := poolEq_trans h0 (updateMouseSettings_poolEq s0 env)
    unfold BuffersSized OffsetAligned
    rw [hp.2.1, hp.2.2.2.1, hp.2.2.2.2]
    exact ⟨hb, ho⟩
  cases a with
  | encapsulateEvent evt =>
    obtain ⟨_, _, _, _, h1, h2⟩ := encapsulateEvent_inbounds sz s evt hb ho hfree
    exact ⟨h1, h2⟩
  | releaseEventBufferId id => exact ⟨hb, ho⟩
  | handleSdlEvents evt env =>
    obtain ⟨hcur, hcase⟩ := handleSdlEvents_pool sz s evt env
    have hal : OffsetAligned sz (_handleSdlEvents sz s evt env).1 := by
      intro hlt
      rw [hcur] at hlt
      exact absurd hlt (lt_irrefl _)
    refine ⟨?_, hal⟩
    rcases hcase with ⟨_, hbufs, _, _⟩ | ⟨_, _, hbufs, _, _⟩
    · intro i b hi
      exact hb i b (by rw [← hbufs]; exact hi)
    · obtain ⟨_, _, _, _, h1, _⟩ := encapsulateEvent_inbounds sz s evt hb ho hfree
      intro i b hi
      exact h1 i b (by rw [← hbufs]; exact hi)
  | setGrabMousePointer grab env => exact hupd _ env ⟨rfl, rfl, rfl, rfl, rfl⟩
  | setMouseRelative relative env => exact hupd _ env ⟨rfl, rfl, rfl, rfl, rfl⟩
  | setMouseVisible visible env => exact hupd _ env ⟨rfl, rfl, rfl, rfl, rfl⟩
  | setLogicSystem attached => exact ⟨hb, ho⟩

theorem free_valid_of_runInv {s : SdlInputHandler} {log : List LogItem} (h : RunInv s log) :
    ∀ id ∈ s.mFreeEventBuffers, id < s.mEventBuffers.length :=
  fun id hid => (h.covers id).2 (Or.inl hid)

theorem run_sized (sz : Nat) (acts : List Action) :
    ∀ (s : SdlInputHandler) (log : List LogItem), RunInv s log →
      BuffersSized sz s → OffsetAligned sz s → followsProtocol sz s log acts = true →
      BuffersSized sz (exec sz s acts) ∧ OffsetAligned sz (exec sz s acts) := by
  induction acts with
  | nil => intro s log _ hb ho _; exact ⟨hb, ho⟩
  | cons a as ih =>
    intro s log hinv hb ho hp
    simp only [followsProtocol, Bool.and_eq_true] at hp
    obtain ⟨h1, h2⟩ := step_sized sz s a hb ho (free_valid_of_runInv hinv)
    exact ih _ _ (runInv_step sz a hinv hp.1) h1 h2 hp.2

/-- C20: in every state reached from the constructor's state by calls that follow
the release protocol, every write made by the next call (a direct
`encapsulateEvent`, or the one inside `_handleSdlEvents`) goes to a slot index below
`mEventBuffers.size()`, at an offset that is a multiple of `sizeof(SDL_Event)` and
with `offset + sizeof(SDL_Event) <= 70 * sizeof(SDL_Event)`, the size of that
buffer: the copy never runs past the slot. -/
theorem C20_writes_in_bounds (sz : Nat) (mouseListener keyboardListener joystickListener : Bool)
    (acts : List Action) (a : Action)
    (hp : followsProtocol sz (ctor mouseListener keyboardListener joystickListener) [] acts = true) :
    ∀ (p : EventPtr) (evt : SDL_Event),
      Effect.memcpy p evt ∈
        (step sz (exec sz (ctor mouseListener keyboardListener joystickListener) acts) a).2 →
      p.slot < (step sz (exec sz (ctor mouseListener keyboardListener joystickListener) acts)
        a).1.mEventBuffers.length ∧
      sz ∣ p.offset ∧ p.offset + sz ≤ 70 * sz ∧
      ∃ b, (step sz (exec sz (ctor mouseListener keyboardListener joystickListener) acts)
        a).1.mEventBuffers[p.slot]? = some b ∧ b.size = 70 * sz := by
  have hinv := runInv_of_protocol sz mouseListener keyboardListener joystickListener acts hp
  have hsz := run_sized sz acts (ctor mouseListener keyboardListener joystickListener) []
    (runInv_ctor _ _ _)
    (by intro i b hb; simp [ctor] at hb)
    (by intro hlt; simp [ctor] at hlt) hp
  obtain ⟨s, hs⟩ : ∃ s, s = exec sz (ctor mouseListener keyboardListener joystickListener) acts :=
    ⟨_, rfl⟩
  rw [← hs] at hinv hsz ⊢
  obtain ⟨hb, ho⟩ := hsz
  have hfree := free_valid_of_runInv hinv
  have henc : ∀ (e0 : SDL_Event) (bufs : List EventBuffer),
      bufs = (encapsulateEvent sz s e0).2.1.mEventBuffers →
      ∀ (p : EventPtr) (evt : SDL_Event), (p, evt) ∈ writes (encapsulateEvent sz s e0).2.2 →
      p.slot < bufs.length ∧ sz ∣ p.offset ∧ p.offset + sz ≤ 70 * sz ∧
      ∃ b, bufs[p.slot]? = some b ∧ b.size = 70 * sz := by
    intro e0 bufs hbufs p evt hmem
    obtain ⟨h1, h2, h3, h4, h5, _⟩ := encapsulateEvent_inbounds sz s e0 hb ho hfree
    rw [h1] at hmem
    simp only [List.mem_singleton, Prod.mk.injEq] at hmem
    rw [hbufs, hmem.1]
    exact ⟨h2, h3, h4, _, List.getElem?_eq_getElem h2, h5 _ _ (List.getElem?_eq_getElem h2)⟩
  have hnone : ∀ (fx : List Effect), transfers fx = [] →
      ∀ (p : EventPtr) (evt : SDL_Event), Effect.memcpy p evt ∉ fx := by
    intro fx ht p evt hmem
    rw [mem_writes, ← writes_transfers, ht] at hmem
    simp [writes] at hmem
  intro p evt hmem
  cases a with
  | encapsulateEvent e0 => exact henc e0 _ rfl p evt (mem_writes.1 hmem)
  | releaseEventBufferId id => simp [step] at hmem
  | handleSdlEvents e0 env =>
    obtain ⟨_, hcase⟩ := handleSdlEvents_pool sz s e0 env
    rcases hcase with ⟨ht, _, _, _⟩ | ⟨_, ht, hbufs, _, _⟩
    · exact absurd hmem (hnone _ ht p evt)
    · have hw : (p, evt) ∈ writes (encapsulateEvent sz s e0).2.2 := by
        have h1 := mem_writes.1 hmem
        change (p, evt) ∈ writes (_handleSdlEvents sz s e0 env).2 at h1
        rw [← writes_transfers, ht] at h1
        simpa [writes] using h1
      exact henc e0 _ hbufs p evt hw
  | setGrabMousePointer grab env =>
    exact absurd hmem (hnone _ (updateMouseSettings_noTransfer _ env) p evt)
  | setMouseRelative relative env =>
    exact absurd hmem (hnone _ (updateMouseSettings_noTransfer _ env) p evt)
  | setMouseVisible visible env =>
    exact absurd hmem (hnone _ (updateMouseSettings_noTransfer _ env) p evt)
  | setLogicSystem attached => simp [step] at hmem

/-- C20 at the second of two direct `encapsulateEvent` calls: the write at byte 56
of slot 0. -/
theorem C20_writes_in_bounds_witness :
    followsProtocol 56 (ctor true true true) []
      [Action.encapsulateEvent (SDL_Event.SDL_KEYDOWN 4 0)] = true ∧
    Effect.memcpy ⟨0, 56⟩ (SDL_Event.SDL_KEYUP 4 0) ∈
      (step 56 (exec 56 (ctor true true true)
        [Action.encapsulateEvent (SDL_Event.SDL_KEYDOWN 4 0)])
        (Action.encapsulateEvent (SDL_Event.SDL_KEYUP 4 0))).2 ∧
    (⟨0, 56⟩ : EventPtr).offset + 56 ≤ 70 * 56 :=
  ⟨by decide, by decide,
    (C20_writes_in_bounds 56 true true true
      [Action.encapsulateEvent (SDL_Event.SDL_KEYDOWN 4 0)]
      (Action.encapsulateEvent (SDL_Event.SDL_KEYUP 4 0)) (by decide)
      ⟨0, 56⟩ (SDL_Event.SDL_KEYUP 4 0) (by decide)).2.2.1⟩

/-! ## Which events are forwarded, whatever the listeners -/

/-- An event of a forwarded type that is not a warp echo: the switch does what the
forward block does from the state it was entered in. -/
theorem dispatch_pool_forwarded (sz : Nat) (s : SdlInputHandler) (evt : SDL_Event)
    (env : SdlEnv) (ht : SDL_Event.isForwardedType evt = true)
    (he : isWarpEcho s evt = false) :
    PoolEq (forwardToLogic sz s evt).1 (dispatch sz s evt env).1 ∧
    transfers (dispatch sz s evt env).2 = transfers (forwardToLogic sz s evt).2 := by
  have gen : ∀ (c : Bool) (e : Effect), Effect.isTransfer e = false →
      PoolEq (forwardToLogic sz s evt).1 (forwardToLogic sz s evt).1 ∧
      transfers (callIf c e ++ (forwardToLogic sz s evt).2) =
        transfers (forwardToLogic sz s evt).2 := by
    intro c e he
    exact ⟨poolEq_refl _, by rw [transfers_append, transfers_callIf c e he]; rfl⟩
  cases evt with
  | SDL_MOUSEMOTION x y =>
    have hw : (handleWarpMotion s x y).1 = false := he
    simp only [dispatch, hw, Bool.not_false, if_true]
    split_ifs with h2
    · have hp := poolEq_trans (handleWarpMotion_poolEq s x y)
        (wrapMousePointer_poolEq (handleWarpMotion s x y).2 x y env)
      obtain ⟨e1, e2⟩ := forwardToLogic_poolEq sz (SDL_Event.SDL_MOUSEMOTION x y) hp
      refine ⟨e2, ?_⟩
      rw [transfers_append, transfers_append, transfers_callIf _ _ (by rfl),
        wrapMousePointer_noTransfer, e1]
      rfl
    · obtain ⟨e1, e2⟩ := forwardToLogic_poolEq sz (SDL_Event.SDL_MOUSEMOTION x y)
        (handleWarpMotion_poolEq s x y)
      refine ⟨e2, ?_⟩
      rw [transfers_append, transfers_append, transfers_callIf _ _ (by rfl), e1]
      rfl
  | SDL_WINDOWEVENT event => simp [SDL_Event.isForwardedType] at ht
  | SDL_JOYDEVICEADDED which => simp [SDL_Event.isForwardedType] at ht
  | SDL_JOYDEVICEREMOVED which => simp [SDL_Event.isForwardedType] at ht
  | unlisted type => simp [SDL_Event.isForwardedType] at ht
  | _ => exact gen _ _ rfl

/-- With the logic system attached and a free list of allocated slots, an event of
a forwarded type that is not a warp echo is forwarded exactly once, as a pointer to
a copy of the event. -/
theorem handleSdlEvents_forwards_one (sz : Nat) (s : SdlInputHandler) (evt : SDL_Event)
    (env : SdlEnv) (hl : s.mLogicSystem = true)
    (hfree : ∀ id ∈ s.mFreeEventBuffers, id < s.mEventBuffers.length)
    (ht : SDL_Event.isForwardedType evt = true) (he : isWarpEcho s evt = false) :
    ∃ p, forwarded (_handleSdlEvents sz s evt env).2 = [p] ∧
      readRecord (_handleSdlEvents sz s evt env).1.mEventBuffers p = some evt := by
  obtain ⟨hp, htr⟩ := dispatch_pool_forwarded sz s evt env ht he
  obtain ⟨p, h1, h2⟩ := forwardToLogic_spec sz s evt hl hfree
  refine ⟨p, ?_, ?_⟩
  · show forwarded (dispatch sz s evt env).2 = [p]
    rw [← forwarded_transfers, htr, forwarded_transfers, h1]
  · show readRecord (dispatch sz s evt env).1.mEventBuffers p = some evt
    rw [hp.2.1]
    exact h2

theorem wrapMousePointer_listenerCalls (s : SdlInputHandler) (x y : Int) (env : SdlEnv) :
    listenerCalls (wrapMousePointer s x y env).2 = [] := by
  unfold wrapMousePointer warpMouse
  simp only []
  split_ifs <;> rfl

theorem handleWarpMotion_withListeners (s : SdlInputHandler) (m k j : Bool) (x y : Int) :
    (handleWarpMotion (withListeners s m k j) x y).1 = (handleWarpMotion s x y).1 := by
  unfold handleWarpMotion withListeners
  simp only []
  split_ifs <;> rfl

/-- The transfers of a routed event do not depend on which listeners are
registered. -/
theorem handleSdlEvents_transfers_withListeners (sz : Nat) (s : SdlInputHandler)
    (evt : SDL_Event) (env : SdlEnv) (m k j : Bool)
    (ht : SDL_Event.isForwardedType evt = true) :
    transfers (_handleSdlEvents sz (withListeners s m k j) evt env).2 =
      transfers (_handleSdlEvents sz s evt env).2 := by
  have hpe : PoolEq s (withListeners s m k j) := ⟨rfl, rfl, rfl, rfl, rfl⟩
  have hecho : isWarpEcho (withListeners s m k j) evt = isWarpEcho s evt := by
    cases evt <;> first
      | rfl
      | exact handleWarpMotion_withListeners s m k j _ _
  by_cases he : isWarpEcho s evt = true
  · cases evt with
    | SDL_MOUSEMOTION x y =>
      have h1 : (handleWarpMotion s x y).1 = true := he
      have h2 : (handleWarpMotion (withListeners s m k j) x y).1 = true := by
        rw [handleWarpMotion_withListeners]; exact h1
      simp [_handleSdlEvents, dispatch, h1, h2]
    | _ => simp [isWarpEcho] at he
  · simp only [Bool.not_eq_true] at he
    have h1 := (dispatch_pool_forwarded sz s evt env ht he).2
    have h2 := (dispatch_pool_forwarded sz (withListeners s m k j) evt env ht
      (by rw [hecho]; exact he)).2
    show transfers (dispatch sz (withListeners s m k j) evt env).2 =
      transfers (dispatch sz s evt env).2
    rw [h1, h2, (forwardToLogic_poolEq sz evt hpe).1]

/-- No callback is made for an event whose listener is not registered. -/
theorem handleSdlEvents_no_listener (sz : Nat) (s : SdlInputHandler) (evt : SDL_Event)
    (env : SdlEnv) (hnl : listenerFor s evt = false) :
    listenerCalls (_handleSdlEvents sz s evt env).2 = [] := by
  have hcall : ∀ (c : Bool) (e : Effect),
      listenerCalls (callIf (c && false) e ++ (forwardToLogic sz s evt).2) = [] := by
    intro c e
    have h0 : callIf (c && false) e = [] := by simp [callIf]
    rw [h0, List.nil_append]
    exact forwardToLogic_listenerCalls sz s evt
  cases evt with
  | SDL_MOUSEMOTION x y =>
    simp only [listenerFor] at hnl
    simp only [_handleSdlEvents, dispatch]
    have hm : (handleWarpMotion s x y).2.mMouseListener = false := by
      rw [← hnl]
      unfold handleWarpMotion
      split_ifs <;> rfl
    have h0 : ∀ c : Bool, callIf (c && false) (Effect.mouseMoved (SDL_Event.SDL_MOUSEMOTION x y))
        = [] := by
      intro c; simp [callIf]
    split_ifs
    · dsimp only
      rw [hm, h0, listenerCalls_append, forwardToLogic_listenerCalls, List.nil_append,
        wrapMousePointer_listenerCalls]
      rfl
    · dsimp only
      rw [hm, h0, listenerCalls_append, forwardToLogic_listenerCalls]
      rfl
    · rfl
  | SDL_WINDOWEVENT event =>
    simp only [_handleSdlEvents, dispatch]
    cases event <;>
      simp only [handleWindowEvent, updateMouseSettings] <;>
      first
        | rfl
        | (split_ifs <;> rfl)
  | SDL_JOYDEVICEADDED which => rfl
  | SDL_JOYDEVICEREMOVED which => rfl
  | unlisted type => rfl
  | SDL_KEYDOWN sym rep =>
    simp only [listenerFor] at hnl
    simp only [_handleSdlEvents, dispatch, hnl]
    exact hcall _ _
  | SDL_KEYUP sym rep =>
    simp only [listenerFor] at hnl
    simp only [_handleSdlEvents, dispatch, hnl]
    exact hcall _ _
  | _ =>
    simp only [listenerFor] at hnl
    simp only [_handleSdlEvents, dispatch, hnl]
    exact hcall true _

/-! ## Silent cases -/

/-- With the logic system attached, an event of a forwarded type that is not a warp
echo is forwarded exactly once, as the pointer `encapsulateEvent` returns; with a
free list of allocated slots that pointer reads back the event. -/
theorem handleSdlEvents_forwarded_ptr (sz : Nat) (s : SdlInputHandler) (evt : SDL_Event)
    (env : SdlEnv) (hl : s.mLogicSystem = true)
    (ht : SDL_Event.isForwardedType evt = true) (he : isWarpEcho s evt = false) :
    forwarded (_handleSdlEvents sz s evt env).2 = [(encapsulateEvent sz s evt).1] ∧
    ((∀ id ∈ s.mFreeEventBuffers, id < s.mEventBuffers.length) →
      readRecord (_handleSdlEvents sz s evt env).1.mEventBuffers (encapsulateEvent sz s evt).1 =
        some evt) := by
  obtain ⟨hp, htr⟩ := dispatch_pool_forwarded sz s evt env ht he
  have hf : forwardToLogic sz s evt = ((encapsulateEvent sz s evt).2.1,
      (encapsulateEvent sz s evt).2.2 ++
        [Effect.queueSendMessage (Message.SDL_EVENT (encapsulateEvent sz s evt).1)]) := by
    simp [forwardToLogic, hl]
  constructor
  · show forwarded (dispatch sz s evt env).2 = [(encapsulateEvent sz s evt).1]
    rw [← forwarded_transfers, htr, forwarded_transfers, hf, forwarded_append,
      encapsulateEvent_forwarded]
    rfl
  · intro hfree
    show readRecord (dispatch sz s evt env).1.mEventBuffers (encapsulateEvent sz s evt).1 =
      some evt
    rw [hp.2.1, hf]
    exact encapsulateEvent_read sz s evt hfree

/-- A suppressed warp echo has no effect at all. -/
theorem handleSdlEvents_echo_silent (sz : Nat) (s : SdlInputHandler) (evt : SDL_Event)
    (env : SdlEnv) (he : isWarpEcho s evt = true) : (_handleSdlEvents sz s evt env).2 = [] := by
  cases evt with
  | SDL_MOUSEMOTION x y =>
    have hw : (handleWarpMotion s x y).1 = true := he
    simp [_handleSdlEvents, dispatch, hw]
  | _ => simp [isWarpEcho] at he

/-- C15 as stated fails: in a state reached from a constructor without a mouse
listener, with the consumer attached and a warp echo awaited, the motion event at
the warp target has an unregistered listener role and is not forwarded. -/
theorem C15_warp_echo_not_forwarded :
    listenerFor awaitingEchoNoMouseListener (SDL_Event.SDL_MOUSEMOTION 400 300) = false ∧
    awaitingEchoNoMouseListener.mLogicSystem = true ∧
    forwarded (_handleSdlEvents 56 awaitingEchoNoMouseListener
      (SDL_Event.SDL_MOUSEMOTION 400 300) ⟨0, 800, 600⟩).2 = [] :=
  ⟨by decide, by decide, by decide⟩

/-- C15, amended: (1) for an event whose type has no case (and for the hot-plug
events, whose cases are empty) `_handleSdlEvents` has no effect at all, so no
callback and no message, and returns the state it was given with only
`mCurrentEventBuffer` reset: every policy flag, the warp fields, the buffers and the
free list are unchanged; the function is total, there is no error path. (2) For an
event of a mouse, keyboard or joystick type whose listener is not registered, no
callback is made, and the transfers (notification, write, forward) are the same as
with any listeners registered; with a consumer attached the event is forwarded
exactly once unless it is a suppressed warp-echo motion event, which has no effect
at all; the forwarded pointer reads back the event when the free list holds
allocated slots. -/
theorem C15_silent_noops (sz : Nat) (s : SdlInputHandler) (evt : SDL_Event) (env : SdlEnv) :
    (SDL_Event.hasNoHandler evt = true →
      (_handleSdlEvents sz s evt env).2 = [] ∧
      (_handleSdlEvents sz s evt env).1 =
        { s with mCurrentEventBuffer := s.mEventBuffers.length } ∧
      mouseFlags (_handleSdlEvents sz s evt env).1 = mouseFlags s ∧
      (_handleSdlEvents sz s evt env).1.mWarpX = s.mWarpX ∧
      (_handleSdlEvents sz s evt env).1.mWarpY = s.mWarpY ∧
      (_handleSdlEvents sz s evt env).1.mWarpCompensate = s.mWarpCompensate ∧
      (_handleSdlEvents sz s evt env).1.mEventBuffers = s.mEventBuffers ∧
      (_handleSdlEvents sz s evt env).1.mFreeEventBuffers = s.mFreeEventBuffers) ∧
    (SDL_Event.isForwardedType evt = true → listenerFor s evt = false →
      listenerCalls (_handleSdlEvents sz s evt env).2 = [] ∧
      (∀ m k j : Bool,
        transfers (_handleSdlEvents sz (withListeners s m k j) evt env).2 =
          transfers (_handleSdlEvents sz s evt env).2) ∧
      (s.mLogicSystem = true → isWarpEcho s evt = false →
        ∃ p, forwarded (_handleSdlEvents sz s evt env).2 = [p] ∧
          ((∀ id ∈ s.mFreeEventBuffers, id < s.mEventBuffers.length) →
            readRecord (_handleSdlEvents sz s evt env).1.mEventBuffers p = some evt)) ∧
      (isWarpEcho s evt = true → (_handleSdlEvents sz s evt env).2 = [])) := by
  constructor
  · intro h
    cases evt <;> first
      | exact ⟨rfl, rfl, rfl, rfl, rfl, rfl, rfl, rfl⟩
      | simp [SDL_Event.hasNoHandler] at h
  · intro ht hnl
    exact ⟨handleSdlEvents_no_listener sz s evt env hnl,
      fun m k j => handleSdlEvents_transfers_withListeners sz s evt env m k j ht,
      fun hl he => ⟨_, handleSdlEvents_forwarded_ptr sz s evt env hl ht he⟩,
      handleSdlEvents_echo_silent sz s evt env⟩

/-- C15 at `SDL_QUIT`, a type without a case, and at a key press without a keyboard
listener but with the logic system attached. -/
theorem C15_silent_noops_witness :
    (SDL_Event.hasNoHandler (SDL_Event.unlisted 256) = true ∧
      (_handleSdlEvents 56 twoOutstandingState (SDL_Event.unlisted 256) ⟨0, 800, 600⟩).2 = []) ∧
    (SDL_Event.isForwardedType (SDL_Event.SDL_KEYDOWN 4 0) = true ∧
      listenerFor (withListeners twoOutstandingState true false true)
        (SDL_Event.SDL_KEYDOWN 4 0) = false ∧
      (withListeners twoOutstandingState true false true).mLogicSystem = true ∧
      isWarpEcho (withListeners twoOutstandingState true false true)
        (SDL_Event.SDL_KEYDOWN 4 0) = false ∧
      listenerCalls (_handleSdlEvents 56 (withListeners twoOutstandingState true false true)
        (SDL_Event.SDL_KEYDOWN 4 0) ⟨0, 800, 600⟩).2 = [] ∧
      ∃ p, forwarded (_handleSdlEvents 56 (withListeners twoOutstandingState true false true)
        (SDL_Event.SDL_KEYDOWN 4 0) ⟨0, 800, 600⟩).2 = [p] ∧
        ((∀ id ∈ (withListeners twoOutstandingState true false true).mFreeEventBuffers,
            id < (withListeners twoOutstandingState true false true).mEventBuffers.length) →
          readRecord (_handleSdlEvents 56 (withListeners twoOutstandingState true false true)
            (SDL_Event.SDL_KEYDOWN 4 0) ⟨0, 800, 600⟩).1.mEventBuffers p =
            some (SDL_Event.SDL_KEYDOWN 4 0))) :=
  ⟨⟨rfl, ((C15_silent_noops 56 twoOutstandingState (SDL_Event.unlisted 256)
      ⟨0, 800, 600⟩).1 rfl).1⟩,
    ⟨rfl, rfl, by decide, rfl,
      ((C15_silent_noops 56 (withListeners twoOutstandingState true false true)
        (SDL_Event.SDL_KEYDOWN 4 0) ⟨0, 800, 600⟩).2 rfl rfl).1,
      ((C15_silent_noops 56 (withListeners twoOutstandingState true false true)
        (SDL_Event.SDL_KEYDOWN 4 0) ⟨0, 800, 600⟩).2 rfl rfl).2.2.1 (by decide) rfl⟩⟩

/-! ## Motion events and focus -/

/-- C16: for every motion event that `handleWarpMotion` does not suppress:
`mouseMoved` is called, once, if and only if a mouse listener is registered and
`mWantRelative` is false or `mWindowHasFocus` is true, and no other callback is
made; with `mWindowHasFocus` the warps and the warp fields afterwards are those of
`wrapMousePointer` on the event, without it there is no warp and the warp fields are
unchanged; and in both cases, with a consumer attached (and a free list of
allocated slots) the event is forwarded exactly once, without a consumer not at
all. -/
theorem C16_motion_gating (sz : Nat) (s : SdlInputHandler) (x y : Int) (env : SdlEnv)
    (hne : isWarpEcho s (SDL_Event.SDL_MOUSEMOTION x y) = false) :
    (Effect.mouseMoved (SDL_Event.SDL_MOUSEMOTION x y) ∈
        (_handleSdlEvents sz s (SDL_Event.SDL_MOUSEMOTION x y) env).2 ↔
      (s.mMouseListener = true ∧ (s.mWantRelative = false ∨ s.mWindowHasFocus = true))) ∧
    listenerCalls (_handleSdlEvents sz s (SDL_Event.SDL_MOUSEMOTION x y) env).2 =
      callIf ((!s.mWantRelative || s.mWindowHasFocus) && s.mMouseListener)
        (Effect.mouseMoved (SDL_Event.SDL_MOUSEMOTION x y)) ∧
    (s.mWindowHasFocus = true →
      warps (_handleSdlEvents sz s (SDL_Event.SDL_MOUSEMOTION x y) env).2 =
        warps (wrapMousePointer s x y env).2 ∧
      (_handleSdlEvents sz s (SDL_Event.SDL_MOUSEMOTION x y) env).1.mWarpCompensate =
        (wrapMousePointer s x y env).1.mWarpCompensate ∧
      (_handleSdlEvents sz s (SDL_Event.SDL_MOUSEMOTION x y) env).1.mWarpX =
        (wrapMousePointer s x y env).1.mWarpX ∧
      (_handleSdlEvents sz s (SDL_Event.SDL_MOUSEMOTION x y) env).1.mWarpY =
        (wrapMousePointer s x y env).1.mWarpY) ∧
    (s.mWindowHasFocus = false →
      warps (_handleSdlEvents sz s (SDL_Event.SDL_MOUSEMOTION x y) env).2 = [] ∧
      (_handleSdlEvents sz s (SDL_Event.SDL_MOUSEMOTION x y) env).1.mWarpCompensate =
        s.mWarpCompensate ∧
      (_handleSdlEvents sz s (SDL_Event.SDL_MOUSEMOTION x y) env).1.mWarpX = s.mWarpX ∧
      (_handleSdlEvents sz s (SDL_Event.SDL_MOUSEMOTION x y) env).1.mWarpY = s.mWarpY) ∧
    (s.mLogicSystem = true →
      (∀ id ∈ s.mFreeEventBuffers, id < s.mEventBuffers.length) →
      ∃ p, forwarded (_handleSdlEvents sz s (SDL_Event.SDL_MOUSEMOTION x y) env).2 = [p] ∧
        readRecord (_handleSdlEvents sz s (SDL_Event.SDL_MOUSEMOTION x y) env).1.mEventBuffers p =
          some (SDL_Event.SDL_MOUSEMOTION x y)) ∧
    (s.mLogicSystem = false →
      forwarded (_handleSdlEvents sz s (SDL_Event.SDL_MOUSEMOTION x y) env).2 = []) := by
  have hw : (handleWarpMotion s x y).1 = false := hne
  have hs := handleWarpMotion_false s x y hw
  have hlc : listenerCalls (_handleSdlEvents sz s (SDL_Event.SDL_MOUSEMOTION x y) env).2 =
      callIf ((!s.mWantRelative || s.mWindowHasFocus) && s.mMouseListener)
        (Effect.mouseMoved (SDL_Event.SDL_MOUSEMOTION x y)) := by
    simp only [_handleSdlEvents, dispatch, hw, hs, Bool.not_false, if_true]
    have h1 : ∀ c : Bool, listenerCalls (callIf c (Effect.mouseMoved
        (SDL_Event.SDL_MOUSEMOTION x y))) =
        callIf c (Effect.mouseMoved (SDL_Event.SDL_MOUSEMOTION x y)) := by
      intro c; cases c <;> rfl
    split_ifs <;>
      simp only [listenerCalls_append, forwardToLogic_listenerCalls,
        wrapMousePointer_listenerCalls, List.append_nil, h1]
  have hwarp : ∀ t : SdlInputHandler,
      (forwardToLogic sz t (SDL_Event.SDL_MOUSEMOTION x y)).1.mWarpCompensate =
        t.mWarpCompensate ∧
      (forwardToLogic sz t (SDL_Event.SDL_MOUSEMOTION x y)).1.mWarpX = t.mWarpX ∧
      (forwardToLogic sz t (SDL_Event.SDL_MOUSEMOTION x y)).1.mWarpY = t.mWarpY :=
    fun t => forwardToLogic_warpFields sz t _
  refine ⟨?_, hlc, ?_, ?_, ?_, ?_⟩
  · have hmem : Effect.mouseMoved (SDL_Event.SDL_MOUSEMOTION x y) ∈
        (_handleSdlEvents sz s (SDL_Event.SDL_MOUSEMOTION x y) env).2 ↔
        Effect.mouseMoved (SDL_Event.SDL_MOUSEMOTION x y) ∈
          listenerCalls (_handleSdlEvents sz s (SDL_Event.SDL_MOUSEMOTION x y) env).2 := by
      simp [listenerCalls]
    rw [hmem, hlc]
    cases hr : s.mWantRelative <;> cases hf : s.mWindowHasFocus <;>
      cases hm : s.mMouseListener <;> simp [callIf]
  · intro hf
    simp only [_handleSdlEvents, dispatch, hw, hs, Bool.not_false, if_true, hf, warps_append,
      forwardToLogic_warps, List.append_nil,
      warps_callIf _ _ (show warps [Effect.mouseMoved _] = [] from rfl), List.nil_append]
    exact ⟨trivial, (hwarp _).1, (hwarp _).2.1, (hwarp _).2.2⟩
  · intro hf
    simp only [_handleSdlEvents, dispatch, hw, hs, Bool.not_false, if_true, hf,
      Bool.false_eq_true, if_false, warps_append, forwardToLogic_warps, List.append_nil,
      warps_callIf _ _ (show warps [Effect.mouseMoved _] = [] from rfl)]
    exact ⟨trivial, (hwarp _).1, (hwarp _).2.1, (hwarp _).2.2⟩
  · intro hl hfree
    exact handleSdlEvents_forwards_one sz s _ env hl hfree rfl hne
  · intro hl
    obtain ⟨_, htr⟩ := dispatch_pool_forwarded sz s (SDL_Event.SDL_MOUSEMOTION x y) env rfl hne
    show forwarded (dispatch sz s (SDL_Event.SDL_MOUSEMOTION x y) env).2 = []
    rw [← forwarded_transfers, htr]
    simp [forwardToLogic, hl, transfers, forwarded]

/-- C16 at a motion event routed by a focused handler with a mouse listener. -/
theorem C16_motion_gating_witness :
    isWarpEcho manualWrapState (SDL_Event.SDL_MOUSEMOTION 10 10) = false ∧
    listenerCalls (_handleSdlEvents 56 manualWrapState (SDL_Event.SDL_MOUSEMOTION 10 10)
      ⟨0, 800, 600⟩).2 =
      callIf ((!manualWrapState.mWantRelative || manualWrapState.mWindowHasFocus) &&
        manualWrapState.mMouseListener) (Effect.mouseMoved (SDL_Event.SDL_MOUSEMOTION 10 10)) :=
  ⟨by decide,
    (C16_motion_gating 56 manualWrapState 10 10 ⟨0, 800, 600⟩ (by decide)).2.1⟩

end SdlInputHandler

end Demo
